import Mathlib

/-!
# Frappuccino: order fulfilment and inventory consistency

A shallow embedding of the order / menu / inventory code of the repository
(`internal/models`, `internal/repository`, `internal/service`, `internal/handler`)
together with the properties proved about it.

Modelling conventions.

* A `float64` amount (price, stock level, total) is the rational `ℚ` it denotes.  Go
  arithmetic on `float64` rounds: `x * y` is `mul64 x y`, `x + y` is `add64 x y`,
  `float64(n)` is `float64OfInt n`, and a `Scan` of a stored number into a `float64` that
  the code goes on to compute with is `scanFloat64` (all of them `round64`, IEEE 754
  binary64, round to nearest, ties to even); a number that the code only passes on is kept
  as stored.
  Every operation rounds on its own (no fused multiply-add, as on amd64).  The model has
  no infinities and no NaN: a result beyond the largest finite `float64` is kept as the
  rounded rational, and the results on totals and amounts are stated for finite values
  (`finiteSum64`).  Arithmetic written inside an SQL statement
  (`stock - $1`, `stock + $2`) is done by the store and is exact on the stored numbers.
* Go `int` is `Int`, a value in the 64-bit range, and the result of integer arithmetic is
  wrapped to that range (`wrap64`); `/` on integers truncates toward zero and panics on a
  zero divisor.
* `strings.ToLower` maps every code point by the simple lower-case mapping of Unicode
  (`unicodeToLower`, from the ranges `lowerCaseRanges`).
* The order of the rows of a table is the order in which the store returns them to a
  `SELECT` without `ORDER BY`.
* A Go `map[string]T` is an association list `GoMap T`; the order of the list is the
  order in which `range` visits the entries.  Maps built by the code never repeat a key.
  Go leaves the order of `range` over a map open: the properties of
  `UpdateInventoryForSale` are proved for every order of its argument, those of
  `indentAllergens` for every order of its table, and a map built by the code is visited
  in the order in which its keys were first assigned.
* `time.Time` values and SQL `NOW()` are read from the clock field `now` of the world.
* `json.RawMessage` is `Option String` (`none` is the nil slice).
* The relational store is a record of tables (lists of rows).  Every statement sent to the
  store consumes one entry of a fault schedule; `true` makes that statement fail with a
  driver error and no effect.  A `SELECT` (query, scan of its rows, `rows.Err`) is one
  statement.
* A `*sql.Tx` is a working copy of the tables: `tx.Exec` changes the copy, `Commit` installs
  it, the deferred `Rollback` drops it.  Id sequences live outside the tables and are not
  rolled back.
* Only the effects written in the SQL statements are modelled: the schema (constraints,
  cascades, defaults) is not part of the sources.  A fault schedule that has run out means
  that no further statement fails.
* `slog` calls have no effect on the state and are left out.
-/

namespace Frappuccino

/-! ## Errors (`internal/apperrors`, `database/sql`, `fmt.Errorf`) -/

/-- Go `error` values that the code can produce; `panic` is not an error value but the
outcome of a call that ends in a run-time panic. -/
inductive GoError where
  | ErrInvalidInput
  | ErrExistConflict
  | ErrNotExistConflict
  | ErrOrderClosed
  | ErrNoRows
  | driver
  | errorf (msg : String)
  | wrapf (msg : String) (inner : GoError)
  | panic (msg : String)
  deriving DecidableEq, Repr

deriving instance DecidableEq for Except

/-- Go `errors.Is err target`: `err` or an error it wraps is `target`. -/
def errorsIs : GoError → GoError → Bool
  | .wrapf msg inner, target => decide (GoError.wrapf msg inner = target) || errorsIs inner target
  | e, target => decide (e = target)

/-- Handler `mapAppErrorToStatus`. -/
def mapAppErrorToStatus (err : GoError) : Nat :=
  if errorsIs err .ErrExistConflict then 409
  else if errorsIs err .ErrNotExistConflict then 404
  else if errorsIs err .ErrOrderClosed then 400
  else 500

/-! ## Go integers -/

/-- The value of a Go `int` (64 bits, two's complement) after an arithmetic result `x`. -/
def wrap64 (x : Int) : Int := (x + 2 ^ 63) % 2 ^ 64 - 2 ^ 63

/-- Go `strconv.Atoi`: an optional sign and decimal digits, within the 64-bit range. -/
def Atoi (s : String) : Except GoError Int :=
  let digits := match s.data with
    | '-' :: rest => rest
    | '+' :: rest => rest
    | cs => cs
  if digits = [] ∨ ¬ digits.all Char.isDigit then
    .error (.errorf ("strconv.Atoi: parsing " ++ s ++ ": invalid syntax"))
  else
    let n : Int := ((digits.foldl (fun acc c => acc * 10 + (c.toNat - 48)) 0 : Nat) : Int)
    let v : Int := if s.data.head? = some '-' then -n else n
    if v < -(2 ^ 63) ∨ 2 ^ 63 - 1 < v then
      .error (.errorf ("strconv.Atoi: parsing " ++ s ++ ": value out of range"))
    else .ok v

/-! ## Go `float64` -/

/-- The loop of `bitLength`: halve at most `fuel` times. -/
def bitLength.go : Nat → Nat → Nat
  | 0, _ => 0
  | fuel + 1, n => if n = 0 then 0 else bitLength.go fuel (n / 2) + 1

/-- The number of binary digits of `n` (0 for 0). -/
def bitLength (n : Nat) : Nat := bitLength.go n n

/-- The integer nearest to `n / d`, the even one of the two when `n / d` lies half-way. -/
def roundHalfEven (n d : Nat) : Nat :=
  if 2 * (n % d) < d then n / d
  else if d < 2 * (n % d) then n / d + 1
  else if (n / d) % 2 = 0 then n / d else n / d + 1

/-- The binary exponent of the positive rational `n / d`: the `e` with
`2 ^ e ≤ n / d < 2 ^ (e + 1)`. -/
def binaryExponent (n d : Nat) : Int :=
  let e0 : Int := (bitLength n : Int) - (bitLength d : Int)
  if 0 ≤ e0 then (if d * 2 ^ e0.toNat ≤ n then e0 else e0 - 1)
  else (if d ≤ n * 2 ^ (-e0).toNat then e0 else e0 - 1)

/-- The `float64` nearest to the rational `x`: IEEE 754 binary64 (53 significant bits,
least exponent -1022, subnormal numbers included), round to nearest, ties to even.  A
magnitude beyond the largest finite `float64` is rounded in the same way and not turned
into an infinity. -/
def round64 (x : ℚ) : ℚ :=
  if x = 0 then 0
  else
    let n := x.num.natAbs
    let d := x.den
    let k : Int := max (binaryExponent n d) (-1022) - 52
    let y : ℚ :=
      if 0 ≤ k then ((roundHalfEven n (d * 2 ^ k.toNat) * 2 ^ k.toNat : Nat) : ℚ)
      else ((roundHalfEven (n * 2 ^ (-k).toNat) d : Nat) : ℚ) / ((2 ^ (-k).toNat : Nat) : ℚ)
    if x < 0 then -y else y

/-- Go `x * y` on `float64`. -/
def mul64 (x y : ℚ) : ℚ := round64 (x * y)

/-- Go `x + y` on `float64`. -/
def add64 (x y : ℚ) : ℚ := round64 (x + y)

/-- Go `float64(n)` for an `int`. -/
def float64OfInt (n : Int) : ℚ := round64 (n : ℚ)

/-- The value that `rows.Scan` stores into a `float64` variable for the stored number `x`. -/
def scanFloat64 (x : ℚ) : ℚ := round64 x

/-! ## Go maps -/

/-- A Go `map[string]β`, as the list of its entries in iteration order. -/
abbrev GoMap (β : Type) := List (String × β)

namespace GoMap

variable {β : Type}

/-- Lookup `v, ok := m[k]`. -/
def get? : GoMap β → String → Option β
  | [], _ => none
  | (k, v) :: rest, key => if k = key then some v else get? rest key

/-- Lookup `m[k]` with the zero value for a missing key. -/
def getD (m : GoMap β) (key : String) (zero : β) : β :=
  (m.get? key).getD zero

/-- Assignment `m[k] = v`. -/
def set : GoMap β → String → β → GoMap β
  | [], key, v => [(key, v)]
  | (k, w) :: rest, key, v => if k = key then (k, v) :: rest else (k, w) :: set rest key v

/-- The keys of the map. -/
def keys (m : GoMap β) : List String := m.map Prod.fst

end GoMap

/-! ## Tables -/

/-- Row of `inventory`. -/
structure InventoryRow where
  id : String
  name : String
  stock : ℚ
  price : ℚ
  unit_type : String
  last_updated : Nat
  deriving DecidableEq, Repr

/-- Row of `inventory_transactions` (the columns the code writes). -/
structure LedgerRow where
  inventory_id : String
  change_amount : ℚ
  transaction_type : String
  changed_at : Nat
  deriving DecidableEq, Repr

/-- Row of `menu_items`. -/
structure MenuItemRow where
  id : String
  name : String
  description : String
  price : ℚ
  allergens : List String
  size : String
  deriving DecidableEq, Repr

/-- Row of `menu_item_ingredients`. -/
structure RecipeRow where
  menu_item_id : String
  quantity : ℚ
  ingredient_id : String
  deriving DecidableEq, Repr

/-- Row of `price_history`. -/
structure PriceHistoryRow where
  menu_item_id : String
  old_price : ℚ
  new_price : ℚ
  changed_at : Nat
  deriving DecidableEq, Repr

/-- Row of `customers`. -/
structure CustomerRow where
  id : Int
  name : String
  email : String
  preferences : Option String
  deriving DecidableEq, Repr

/-- Row of `orders`. -/
structure OrderRow where
  id : Int
  customer_id : Int
  total_amount : ℚ
  status : String
  special_instructions : Option String
  payment_method : String
  created_at : Nat
  updated_at : Nat
  deriving DecidableEq, Repr

/-- Row of `order_items` (the columns the code writes). -/
structure OrderItemRow where
  order_id : Int
  quantity : Int
  price_at_order : ℚ
  menu_item_id : String
  deriving DecidableEq, Repr

/-- The persisted tables. -/
structure Tables where
  inventory : List InventoryRow
  inventory_transactions : List LedgerRow
  menu_items : List MenuItemRow
  menu_item_ingredients : List RecipeRow
  price_history : List PriceHistoryRow
  customers : List CustomerRow
  orders : List OrderRow
  order_items : List OrderItemRow
  deriving DecidableEq, Repr

/-- The store as one request sees it: committed tables, id sequences, the fault schedule
of the statements to come, and the clock. -/
structure World where
  tables : Tables
  customerSeq : Int
  orderSeq : Int
  faults : List Bool
  now : Nat
  deriving DecidableEq, Repr

/-- The next statement sent to the store fails: the head of the fault schedule. -/
def World.fails (w : World) : Bool := w.faults.headD false

/-- The world after one statement has been sent: the fault schedule moves on. -/
def World.next (w : World) : World := { w with faults := w.faults.tail }

/-- An open `*sql.Tx`: the working copy of the tables. -/
structure Tx where
  work : Tables
  deriving DecidableEq, Repr

/-- Call `db.Begin()`. -/
def Begin (w : World) : Except GoError Tx × World :=
  if w.fails then (.error .driver, w.next) else (.ok ⟨w.tables⟩, w.next)

/-- Call `tx.Exec(stmt)`: the statement maps the tables to new tables and a count of
affected rows. -/
def Tx.Exec (tx : Tx) (w : World) (stmt : Tables → Tables × Nat) :
    Except GoError Nat × Tx × World :=
  if w.fails then (.error .driver, tx, w.next)
  else (.ok (stmt tx.work).2, ⟨(stmt tx.work).1⟩, w.next)

/-- Call `tx.Commit()`. -/
def Tx.Commit (tx : Tx) (w : World) : Option GoError × World :=
  if w.fails then (some .driver, w.next) else (none, { w.next with tables := tx.work })

/-- Call `db.Exec(stmt)` outside a transaction. -/
def dbExec (w : World) (stmt : Tables → Tables × Nat) : Except GoError Nat × World :=
  if w.fails then (.error .driver, w.next)
  else (.ok (stmt w.tables).2, { w.next with tables := (stmt w.tables).1 })

/-- Call `db.Query(q)` and read all its rows. -/
def dbQuery {α : Type} (w : World) (q : Tables → α) : Except GoError α × World :=
  if w.fails then (.error .driver, w.next) else (.ok (q w.tables), w.next)

/-- Call `db.QueryRow(q).Scan(..)`: the first row, or `sql.ErrNoRows`. -/
def dbQueryRow {α : Type} (w : World) (q : Tables → Option α) : Except GoError α × World :=
  if w.fails then (.error .driver, w.next)
  else
    match q w.tables with
    | none => (.error .ErrNoRows, w.next)
    | some a => (.ok a, w.next)

/-- Repository helper `checkRowsAffected`, on the count that `result.RowsAffected()` returns. -/
def checkRowsAffected (rowsAffected : Nat) : Option GoError :=
  if rowsAffected = 0 then some .ErrNotExistConflict else none

/-! ## Models (`internal/models`) -/

/-- Go `models.InventoryTransaction` (without the store-assigned id). -/
structure InventoryTransaction where
  InventoryID : String
  ChangeAmount : ℚ
  TransactionType : String
  ChangeAt : Nat
  deriving DecidableEq, Repr

/-- Constructor `models.NewInventoryTransaction`. -/
def NewInventoryTransaction (inventoryID : String) (changeAmount : ℚ) (transactionType : String)
    (now : Nat) : Except GoError InventoryTransaction :=
  if inventoryID = "" ∨ changeAmount = 0 then .error .ErrInvalidInput
  else if ¬(transactionType = "added" ∨ transactionType = "written off" ∨
      transactionType = "sale" ∨ transactionType = "created") then .error .ErrInvalidInput
  else
    let transactionType :=
      if changeAmount < 0 ∧ transactionType = "added" then "written off" else transactionType
    let changeAmount := if transactionType = "sale" then changeAmount * (-1) else changeAmount
    .ok { InventoryID := inventoryID, ChangeAmount := changeAmount,
          TransactionType := transactionType, ChangeAt := now }

/-! ## Inventory repository -/

/-- Statement `UPDATE inventory SET stock = stock - $1, last_updated = NOW() WHERE id = $2`. -/
def updateInventoryQuery (quantity : ℚ) (id : String) (now : Nat) (t : Tables) : Tables × Nat :=
  ({ t with inventory := t.inventory.map fun r =>
      if r.id = id then { r with stock := r.stock - quantity, last_updated := now } else r },
   (t.inventory.filter fun r => r.id = id).length)

/-- Statement `INSERT INTO inventory_transactions (..) VALUES ($1, $2, $3, $4)`. -/
def insertTransactionQuery (tr : InventoryTransaction) (t : Tables) : Tables × Nat :=
  ({ t with inventory_transactions := t.inventory_transactions ++
      [{ inventory_id := tr.InventoryID, change_amount := tr.ChangeAmount,
         transaction_type := tr.TransactionType, changed_at := tr.ChangeAt }] }, 1)

/-- The `for ingredientID, quantity := range quantities` loop of `UpdateInventoryForSale`. -/
def UpdateInventoryForSale.loop : GoMap ℚ → Tx → World → Option GoError × Tx × World
  | [], tx, w => (none, tx, w)
  | (ingredientID, quantity) :: rest, tx, w =>
    match tx.Exec w (updateInventoryQuery quantity ingredientID w.now) with
    | (.error err, tx, w) => (some err, tx, w)
    | (.ok _, tx, w) =>
      match NewInventoryTransaction ingredientID quantity "sale" w.now with
      | .error err => (some err, tx, w)
      | .ok transaction =>
        match tx.Exec w (insertTransactionQuery transaction) with
        | (.error err, tx, w) => (some err, tx, w)
        | (.ok _, tx, w) => UpdateInventoryForSale.loop rest tx w

/-- Repository method `InventoryRepository.UpdateInventoryForSale`. -/
def UpdateInventoryForSale (w : World) (quantities : GoMap ℚ) : Option GoError × World :=
  match Begin w with
  | (.error err, w) => (some err, w)
  | (.ok tx, w) =>
    match UpdateInventoryForSale.loop quantities tx w with
    | (some err, _, w) => (some err, w)
    | (none, tx, w) =>
      match tx.Commit w with
      | (some err, w) => (some (.wrapf "failed to commit transaction" err), w)
      | (none, w) => (none, w)

/-! ## Menu repository -/

/-- Repository method `MenuRepository.GetMenuItemsAndPrice`:
`SELECT id, price FROM menu_items WHERE id = ANY($1)`, scanned into a map. -/
def GetMenuItemsAndPrice (w : World) (productIDs : List String) :
    Except GoError (GoMap ℚ) × World :=
  match dbQuery w (fun t => t.menu_items.filter fun r => decide (r.id ∈ productIDs)) with
  | (.error err, w) => (.error err, w)
  | (.ok rows, w) =>
    (.ok (rows.foldl (fun menuItems r => menuItems.set r.id (scanFloat64 r.price)) []), w)

/-- One turn of the `rows.Next()` loop of `CalculateIngredientsForOrder`. -/
def CalculateIngredientsForOrder.step (menuQuantities : GoMap Int) (ingredients : GoMap ℚ)
    (r : RecipeRow) : GoMap ℚ :=
  match menuQuantities.get? r.menu_item_id with
  | some quantity =>
    ingredients.set r.ingredient_id
      (add64 (ingredients.getD r.ingredient_id 0)
        (mul64 (scanFloat64 r.quantity) (float64OfInt quantity)))
  | none => ingredients

/-- Repository method `MenuRepository.CalculateIngredientsForOrder`:
`SELECT menu_item_id, ingredient_id, quantity FROM menu_item_ingredients
WHERE menu_item_id = ANY($1)`, accumulated per ingredient. -/
def CalculateIngredientsForOrder (w : World) (menuQuantities : GoMap Int) :
    Except GoError (GoMap ℚ) × World :=
  let menuItemIDs := menuQuantities.keys
  match dbQuery w (fun t => t.menu_item_ingredients.filter fun r =>
      decide (r.menu_item_id ∈ menuItemIDs)) with
  | (.error err, w) => (.error err, w)
  | (.ok rows, w) => (.ok (rows.foldl (CalculateIngredientsForOrder.step menuQuantities) []), w)

/-! ## Customers -/

/-- Go `models.Customer` (without the store-assigned id). -/
structure Customer where
  Name : String
  Email : String
  Preferences : Option String
  deriving DecidableEq, Repr

/-- The lower-case column of Go `unicode.CaseRanges` (Unicode 15.0.0, the tables of the Go
releases that have `log/slog`), as ranges
`(lo, hi, step, delta)`: a code point `c` with `lo ≤ c ≤ hi` and `c - lo` a multiple of
`step` has the lower case `c + delta`; every other code point is its own lower case. -/
def lowerCaseRanges : List (Nat × Nat × Nat × Int) :=
  [(65, 90, 1, 32), (192, 214, 1, 32), (216, 222, 1, 32), (256, 302, 2, 1), (304, 304, 1, -199),
   (306, 310, 2, 1), (313, 327, 2, 1), (330, 374, 2, 1), (376, 376, 1, -121), (377, 381, 2, 1),
   (385, 385, 1, 210), (386, 388, 2, 1), (390, 390, 1, 206), (391, 391, 1, 1), (393, 394, 1, 205),
   (395, 395, 1, 1), (398, 398, 1, 79), (399, 399, 1, 202), (400, 400, 1, 203), (401, 401, 1, 1),
   (403, 403, 1, 205), (404, 404, 1, 207), (406, 406, 1, 211), (407, 407, 1, 209),
   (408, 408, 1, 1), (412, 412, 1, 211), (413, 413, 1, 213), (415, 415, 1, 214), (416, 420, 2, 1),
   (422, 422, 1, 218), (423, 423, 1, 1), (425, 425, 1, 218), (428, 428, 1, 1), (430, 430, 1, 218),
   (431, 431, 1, 1), (433, 434, 1, 217), (435, 437, 2, 1), (439, 439, 1, 219), (440, 440, 1, 1),
   (444, 444, 1, 1), (452, 452, 1, 2), (453, 453, 1, 1), (455, 455, 1, 2), (456, 456, 1, 1),
   (458, 458, 1, 2), (459, 475, 2, 1), (478, 494, 2, 1), (497, 497, 1, 2), (498, 500, 2, 1),
   (502, 502, 1, -97), (503, 503, 1, -56), (504, 542, 2, 1), (544, 544, 1, -130),
   (546, 562, 2, 1), (570, 570, 1, 10795), (571, 571, 1, 1), (573, 573, 1, -163),
   (574, 574, 1, 10792), (577, 577, 1, 1), (579, 579, 1, -195), (580, 580, 1, 69),
   (581, 581, 1, 71), (582, 590, 2, 1), (880, 882, 2, 1), (886, 886, 1, 1), (895, 895, 1, 116),
   (902, 902, 1, 38), (904, 906, 1, 37), (908, 908, 1, 64), (910, 911, 1, 63), (913, 929, 1, 32),
   (931, 939, 1, 32), (975, 975, 1, 8), (984, 1006, 2, 1), (1012, 1012, 1, -60),
   (1015, 1015, 1, 1), (1017, 1017, 1, -7), (1018, 1018, 1, 1), (1021, 1023, 1, -130),
   (1024, 1039, 1, 80), (1040, 1071, 1, 32), (1120, 1152, 2, 1), (1162, 1214, 2, 1),
   (1216, 1216, 1, 15), (1217, 1229, 2, 1), (1232, 1326, 2, 1), (1329, 1366, 1, 48),
   (4256, 4293, 1, 7264), (4295, 4295, 1, 7264), (4301, 4301, 1, 7264), (5024, 5103, 1, 38864),
   (5104, 5109, 1, 8), (7312, 7354, 1, -3008), (7357, 7359, 1, -3008), (7680, 7828, 2, 1),
   (7838, 7838, 1, -7615), (7840, 7934, 2, 1), (7944, 7951, 1, -8), (7960, 7965, 1, -8),
   (7976, 7983, 1, -8), (7992, 7999, 1, -8), (8008, 8013, 1, -8), (8025, 8031, 2, -8),
   (8040, 8047, 1, -8), (8072, 8079, 1, -8), (8088, 8095, 1, -8), (8104, 8111, 1, -8),
   (8120, 8121, 1, -8), (8122, 8123, 1, -74), (8124, 8124, 1, -9), (8136, 8139, 1, -86),
   (8140, 8140, 1, -9), (8152, 8153, 1, -8), (8154, 8155, 1, -100), (8168, 8169, 1, -8),
   (8170, 8171, 1, -112), (8172, 8172, 1, -7), (8184, 8185, 1, -128), (8186, 8187, 1, -126),
   (8188, 8188, 1, -9), (8486, 8486, 1, -7517), (8490, 8490, 1, -8383), (8491, 8491, 1, -8262),
   (8498, 8498, 1, 28), (8544, 8559, 1, 16), (8579, 8579, 1, 1), (9398, 9423, 1, 26),
   (11264, 11311, 1, 48), (11360, 11360, 1, 1), (11362, 11362, 1, -10743),
   (11363, 11363, 1, -3814), (11364, 11364, 1, -10727), (11367, 11371, 2, 1),
   (11373, 11373, 1, -10780), (11374, 11374, 1, -10749), (11375, 11375, 1, -10783),
   (11376, 11376, 1, -10782), (11378, 11378, 1, 1), (11381, 11381, 1, 1),
   (11390, 11391, 1, -10815), (11392, 11490, 2, 1), (11499, 11501, 2, 1), (11506, 11506, 1, 1),
   (42560, 42604, 2, 1), (42624, 42650, 2, 1), (42786, 42798, 2, 1), (42802, 42862, 2, 1),
   (42873, 42875, 2, 1), (42877, 42877, 1, -35332), (42878, 42886, 2, 1), (42891, 42891, 1, 1),
   (42893, 42893, 1, -42280), (42896, 42898, 2, 1), (42902, 42920, 2, 1),
   (42922, 42922, 1, -42308), (42923, 42923, 1, -42319), (42924, 42924, 1, -42315),
   (42925, 42925, 1, -42305), (42926, 42926, 1, -42308), (42928, 42928, 1, -42258),
   (42929, 42929, 1, -42282), (42930, 42930, 1, -42261), (42931, 42931, 1, 928),
   (42932, 42946, 2, 1), (42948, 42948, 1, -48), (42949, 42949, 1, -42307),
   (42950, 42950, 1, -35384), (42951, 42953, 2, 1), (42960, 42960, 1, 1), (42966, 42968, 2, 1),
   (42997, 42997, 1, 1), (65313, 65338, 1, 32), (66560, 66599, 1, 40), (66736, 66771, 1, 40),
   (66928, 66938, 1, 39), (66940, 66954, 1, 39), (66956, 66962, 1, 39), (66964, 66965, 1, 39),
   (68736, 68786, 1, 64), (71840, 71871, 1, 32), (93760, 93791, 1, 32), (125184, 125217, 1, 34)]

/-- Go `unicode.ToLower`. -/
def unicodeToLower (c : Char) : Char :=
  match lowerCaseRanges.find? fun e =>
      decide (e.1 ≤ c.toNat) && decide (c.toNat ≤ e.2.1) && decide ((c.toNat - e.1) % e.2.2.1 = 0)
    with
  | some e => Char.ofNat ((c.toNat : Int) + e.2.2.2).toNat
  | none => c

/-- Go `strings.ToLower`. -/
def stringsToLower (s : String) : String := String.mk (s.data.map unicodeToLower)

/-- Helper `fromNameToID`: `strings.ReplaceAll(strings.ToLower(name), " ", "_")`. -/
def fromNameToID (name : String) : String :=
  String.mk ((stringsToLower name).data.map fun c => if c = ' ' then '_' else c)

/-- Constructor `models.NewCustomer`. -/
def NewCustomer (name : String) (instructions : Option String) : Except GoError Customer :=
  if name = "" then .error .ErrInvalidInput
  else
    let instructions := match instructions with
      | none => some "\x7b\"preferences\": true\x7d"
      | some j => some j
    .ok { Name := name, Email := fromNameToID name ++ "@gmail.com", Preferences := instructions }

/-- Statement `INSERT INTO customers (name, email, preferences) VALUES (..) RETURNING id`,
sent with `db.QueryRow(..).Scan(&customerID)`. -/
def insertCustomer (w : World) (customer : Customer) : Except GoError Int × World :=
  if w.fails then (.error .driver, w.next)
  else
    let customerID := w.customerSeq + 1
    (.ok customerID,
     { w.next with
       customerSeq := customerID
       tables := { w.tables with customers := w.tables.customers ++
         [{ id := customerID, name := customer.Name, email := customer.Email,
            preferences := customer.Preferences }] } })

/-- Repository method `CustomerRepository.IndentCustomerID`: find the customer by name or
create it. -/
def IndentCustomerID (w : World) (customerName : String) (instructions : Option String) :
    Except GoError Int × World :=
  match dbQueryRow w (fun t => (t.customers.find? fun c => decide (c.name = customerName)).map
      fun c => c.id) with
  | (.ok customerID, w) => (.ok customerID, w)
  | (.error err, w) =>
    if err = .ErrNoRows then
      match NewCustomer customerName instructions with
      | .error err => (.error err, w)
      | .ok customer =>
        match insertCustomer w customer with
        | (.error err, w) => (.error err, w)
        | (.ok customerID, w) => (.ok customerID, w)
    else (.error err, w)

/-! ## Order models -/

/-- Go `models.OrderItemInput`. -/
structure OrderItemInput where
  ProductID : String
  Quantity : Int
  deriving DecidableEq, Repr

/-- Go `models.CreateOrderRequest`. -/
structure CreateOrderRequest where
  CustomerName : String
  PaymentMethod : String
  Items : List OrderItemInput
  Instructions : Option String
  deriving DecidableEq, Repr

/-- Go `models.Order`. -/
structure Order where
  ID : Int
  CustomerID : Int
  TotalAmount : ℚ
  Status : String
  SpecialInstructions : Option String
  PaymentMethod : String
  CreatedAt : Nat
  UpdatedAt : Nat
  deriving DecidableEq, Repr

/-- Go `models.OrderItem`. -/
structure OrderItem where
  ID : String
  OrderID : Int
  Quantity : Int
  Price : ℚ
  MenuItemID : String
  deriving DecidableEq, Repr

/-- Constructor `models.NewCreateOrder`. -/
def NewCreateOrder (createOrder : CreateOrderRequest) : Except GoError CreateOrderRequest :=
  if createOrder.CustomerName = "" ∨ createOrder.PaymentMethod = "" then .error .ErrInvalidInput
  else if createOrder.Items.any (fun createOrderItem =>
      decide (createOrderItem.ProductID = "" ∨ createOrderItem.Quantity ≤ 0)) then
    .error .ErrInvalidInput
  else
    .ok { CustomerName := createOrder.CustomerName, PaymentMethod := createOrder.PaymentMethod,
          Items := createOrder.Items, Instructions := createOrder.Instructions }

/-- Constructor `models.NewOrder`. -/
def NewOrder (customerID : Int) (totalAmount : ℚ) (dto : CreateOrderRequest) (now : Nat) :
    Except GoError Order :=
  if customerID < 1 ∨ totalAmount = 0 ∨ dto.PaymentMethod = "" then .error .ErrInvalidInput
  else if ¬(dto.PaymentMethod = "card" ∨ dto.PaymentMethod = "cash" ∨
      dto.PaymentMethod = "kaspi_qr") then .error .ErrInvalidInput
  else
    let instructions := match dto.Instructions with
      | none => some "\x7b\"special_request\":\"no\"\x7d"
      | some j => some j
    .ok { ID := 0, CustomerID := customerID, TotalAmount := totalAmount, Status := "open",
          SpecialInstructions := instructions, PaymentMethod := dto.PaymentMethod,
          CreatedAt := now, UpdatedAt := now }

/-- The `for _, item := range items` loop of `NewOrderItems`. -/
def NewOrderItems.loop (productPrices : GoMap ℚ) :
    List OrderItemInput → List OrderItem → Except GoError (List OrderItem)
  | [], orderItems => .ok orderItems
  | item :: rest, orderItems =>
    match productPrices.get? item.ProductID with
    | none => .error .ErrInvalidInput
    | some price =>
      NewOrderItems.loop productPrices rest
        (orderItems ++ [{ ID := "", OrderID := 0, MenuItemID := item.ProductID,
                          Quantity := item.Quantity, Price := price }])

/-- Constructor `models.NewOrderItems`. -/
def NewOrderItems (items : List OrderItemInput) (productPrices : GoMap ℚ) :
    Except GoError (List OrderItem) :=
  if items.length < 1 ∨ productPrices.length < 1 then .error .ErrInvalidInput
  else NewOrderItems.loop productPrices items []

/-! ## Order repository -/

/-- Statement `INSERT INTO orders (..) VALUES (..) RETURNING id`, sent with
`tx.QueryRow(..).Scan(&orderID)`: the id comes from the sequence of the table. -/
def Tx.insertOrder (tx : Tx) (w : World) (order : Order) : Except GoError Int × Tx × World :=
  if w.fails then (.error .driver, tx, w.next)
  else
    let orderID := w.orderSeq + 1
    (.ok orderID,
     ⟨{ tx.work with orders := tx.work.orders ++
        [{ id := orderID, customer_id := order.CustomerID, total_amount := order.TotalAmount,
           status := order.Status, special_instructions := order.SpecialInstructions,
           payment_method := order.PaymentMethod, created_at := order.CreatedAt,
           updated_at := order.UpdatedAt }] }⟩,
     { w.next with orderSeq := orderID })

/-- Statement `INSERT INTO order_items (order_id, quantity, price_at_order, menu_item_id)
VALUES ($1, $2, $3, $4)`. -/
def itemQuery (orderID : Int) (item : OrderItem) (t : Tables) : Tables × Nat :=
  ({ t with order_items := t.order_items ++
      [{ order_id := orderID, quantity := item.Quantity, price_at_order := item.Price,
         menu_item_id := item.MenuItemID }] }, 1)

/-- The `for _, item := range orderItems` loop that inserts the lines of one order. -/
def insertOrderItems (orderID : Int) : List OrderItem → Tx → World → Option GoError × Tx × World
  | [], tx, w => (none, tx, w)
  | item :: rest, tx, w =>
    match tx.Exec w (itemQuery orderID item) with
    | (.error err, tx, w) => (some err, tx, w)
    | (.ok _, tx, w) => insertOrderItems orderID rest tx w

/-- Repository method `OrderRepository.AddOrderRepository`. -/
def AddOrderRepository (w : World) (order : Order) (orderItems : List OrderItem) :
    Option GoError × World :=
  match Begin w with
  | (.error err, w) => (some err, w)
  | (.ok tx, w) =>
    match tx.insertOrder w order with
    | (.error err, _, w) => (some err, w)
    | (.ok orderID, tx, w) =>
      match insertOrderItems orderID orderItems tx w with
      | (some err, _, w) => (some err, w)
      | (none, tx, w) =>
        match tx.Commit w with
        | (some err, w) => (some err, w)
        | (none, w) => (none, w)

/-- Statement `UPDATE orders SET customer_id = $1, total_amount = $2, special_instructions = $3,
payment_method = $4, status = $5, updated_at = NOW() WHERE id = $6`. -/
def updateOrderQuery (id : Int) (order : Order) (now : Nat) (t : Tables) : Tables × Nat :=
  ({ t with orders := t.orders.map fun r =>
      if r.id = id then
        { r with customer_id := order.CustomerID, total_amount := order.TotalAmount,
                 special_instructions := order.SpecialInstructions,
                 payment_method := order.PaymentMethod, status := order.Status,
                 updated_at := now }
      else r },
   (t.orders.filter fun r => r.id = id).length)

/-- Statement `DELETE FROM order_items WHERE order_id = $1`. -/
def itemDeleteQuery (id : Int) (t : Tables) : Tables × Nat :=
  ({ t with order_items := t.order_items.filter fun r => ¬ r.order_id = id },
   (t.order_items.filter fun r => r.order_id = id).length)

/-- Repository method `OrderRepository.updateOrderItems`. -/
def updateOrderItems (tx : Tx) (w : World) (id : Int) (orderItems : List OrderItem) :
    Option GoError × Tx × World :=
  match tx.Exec w (itemDeleteQuery id) with
  | (.error err, tx, w) => (some err, tx, w)
  | (.ok _, tx, w) => insertOrderItems id orderItems tx w

/-- Repository method `OrderRepository.UpdateOrderRepository`. -/
def UpdateOrderRepository (w : World) (id : Int) (order : Order) (orderItems : List OrderItem) :
    Option GoError × World :=
  match Begin w with
  | (.error err, w) => (some err, w)
  | (.ok tx, w) =>
    match tx.Exec w (updateOrderQuery id order w.now) with
    | (.error err, _, w) => (some err, w)
    | (.ok result, tx, w) =>
      match checkRowsAffected result with
      | some err => (some err, w)
      | none =>
        match updateOrderItems tx w id orderItems with
        | (some err, _, w) => (some err, w)
        | (none, tx, w) =>
          match tx.Commit w with
          | (some err, w) => (some err, w)
          | (none, w) => (none, w)

/-- Statement `UPDATE orders SET status = 'close', updated_at = NOW()
WHERE id = $1 AND status = 'open'`. -/
def queryUpdate (id : Int) (now : Nat) (t : Tables) : Tables × Nat :=
  ({ t with orders := t.orders.map fun r =>
      if r.id = id ∧ r.status = "open" then { r with status := "close", updated_at := now }
      else r },
   (t.orders.filter fun r => r.id = id ∧ r.status = "open").length)

/-- Repository method `OrderRepository.CloseOrderRepository`. -/
def CloseOrderRepository (w : World) (id : Int) : Option GoError × World :=
  match dbQueryRow w (fun t => (t.orders.find? fun r => decide (r.id = id)).map
      fun r => r.status) with
  | (.error err, w) =>
    if err = .ErrNoRows then (some .ErrNotExistConflict, w)
    else (some (.wrapf "failed to check status order" err), w)
  | (.ok status, w) =>
    if status = "close" then (some .ErrOrderClosed, w)
    else
      match dbExec w (queryUpdate id w.now) with
      | (.error err, w) => (some err, w)
      | (.ok _, w) => (none, w)

/-- Statement `DELETE FROM orders WHERE id = $1`. -/
def deleteOrderQuery (id : Int) (t : Tables) : Tables × Nat :=
  ({ t with orders := t.orders.filter fun r => ¬ r.id = id },
   (t.orders.filter fun r => r.id = id).length)

/-- Repository method `OrderRepository.DeleteOrderRepository`. -/
def DeleteOrderRepository (w : World) (id : Int) : Option GoError × World :=
  match dbExec w (deleteOrderQuery id) with
  | (.error err, w) => (some err, w)
  | (.ok result, w) =>
    match checkRowsAffected result with
    | some err => (some err, w)
    | none => (none, w)

/-- The `for i := range orders` loop of `AddOrdersRepository`; `orderItems[i]` is the head of
the second list (the service passes two lists of the same length). -/
def AddOrdersRepository.loop :
    List Order → List (List OrderItem) → Tx → World → Option GoError × Tx × World
  | [], _, tx, w => (none, tx, w)
  | order :: orders, orderItems, tx, w =>
    match tx.insertOrder w order with
    | (.error err, tx, w) => (some err, tx, w)
    | (.ok orderID, tx, w) =>
      match insertOrderItems orderID (orderItems.headD []) tx w with
      | (some err, tx, w) => (some err, tx, w)
      | (none, tx, w) => AddOrdersRepository.loop orders orderItems.tail tx w

/-- Repository method `OrderRepository.AddOrdersRepository`. -/
def AddOrdersRepository (w : World) (orders : List Order) (orderItems : List (List OrderItem)) :
    Option GoError × World :=
  match Begin w with
  | (.error err, w) => (some err, w)
  | (.ok tx, w) =>
    match AddOrdersRepository.loop orders orderItems tx w with
    | (some err, _, w) => (some err, w)
    | (none, tx, w) =>
      match tx.Commit w with
      | (some err, w) => (some err, w)
      | (none, w) => (none, w)

/-! ## Order service -/

/-- The first loop of `validateOrder`: `quantitiesInOrder[item.ProductID] += item.Quantity`. -/
def validateOrder.quantities (items : List OrderItemInput) : GoMap Int :=
  items.foldl (fun quantitiesInOrder item =>
    quantitiesInOrder.set item.ProductID
      (wrap64 (quantitiesInOrder.getD item.ProductID 0 + item.Quantity))) []

/-- The second loop of `validateOrder`: the running total, or the error for the first
product that is not in the menu. -/
def validateOrder.total (menuItems : GoMap ℚ) : List OrderItemInput → ℚ → Except GoError ℚ
  | [], totalAmount => .ok totalAmount
  | item :: rest, totalAmount =>
    match menuItems.get? item.ProductID with
    | none => .error (.errorf ("product with ID " ++ item.ProductID ++ " not found in menu"))
    | some price =>
      validateOrder.total menuItems rest
        (add64 totalAmount (mul64 price (float64OfInt item.Quantity)))

/-- Service method `OrderService.validateOrder`. -/
def validateOrder (w : World) (order : CreateOrderRequest) :
    Except GoError (GoMap ℚ × ℚ) × World :=
  let productIDs := order.Items.map fun item => item.ProductID
  let quantitiesInOrder := validateOrder.quantities order.Items
  match GetMenuItemsAndPrice w productIDs with
  | (.error err, w) => (.error err, w)
  | (.ok menuItems, w) =>
    match validateOrder.total menuItems order.Items 0 with
    | .error err => (.error err, w)
    | .ok totalAmount =>
      match CalculateIngredientsForOrder w quantitiesInOrder with
      | (.error err, w) => (.error err, w)
      | (.ok ingredientsRequired, w) =>
        match UpdateInventoryForSale w ingredientsRequired with
        | (some err, w) => (.error err, w)
        | (none, w) => (.ok (menuItems, totalAmount), w)

/-- Service method `OrderService.createObject`. -/
def createObject (w : World) (orderRequest : CreateOrderRequest) :
    Except GoError (Order × List OrderItem) × World :=
  match validateOrder w orderRequest with
  | (.error err, w) => (.error err, w)
  | (.ok (productPrices, totalAmount), w) =>
    match IndentCustomerID w orderRequest.CustomerName orderRequest.Instructions with
    | (.error err, w) => (.error err, w)
    | (.ok customerId, w) =>
      match NewOrder customerId totalAmount orderRequest w.now with
      | .error err => (.error err, w)
      | .ok order =>
        match NewOrderItems orderRequest.Items productPrices with
        | .error err => (.error err, w)
        | .ok orderItems => (.ok (order, orderItems), w)

/-- Service method `OrderService.CreateOrderService`. -/
def CreateOrderService (w : World) (orderRequest : CreateOrderRequest) : Option GoError × World :=
  match createObject w orderRequest with
  | (.error err, w) => (some err, w)
  | (.ok (order, orderItems), w) =>
    match AddOrderRepository w order orderItems with
    | (some err, w) => (some err, w)
    | (none, w) => (none, w)

/-- Service method `OrderService.UpdateOrderService`. -/
def UpdateOrderService (w : World) (id : Int) (orderRequest : CreateOrderRequest) :
    Option GoError × World :=
  match createObject w orderRequest with
  | (.error err, w) => (some err, w)
  | (.ok (order, orderItems), w) =>
    match UpdateOrderRepository w id order orderItems with
    | (some err, w) => (some err, w)
    | (none, w) => (none, w)

/-- Service method `OrderService.DeleteOrderService`. -/
def DeleteOrderService (w : World) (id : Int) : Option GoError × World :=
  match DeleteOrderRepository w id with
  | (some err, w) => (some err, w)
  | (none, w) => (none, w)

/-- Service method `OrderService.CloseOrderService`. -/
def CloseOrderService (w : World) (id : Int) : Option GoError × World :=
  match CloseOrderRepository w id with
  | (some err, w) => (some err, w)
  | (none, w) => (none, w)

/-- The `for _, orderRequest := range ordersRequests` loop of `AddOrdersService`. -/
def AddOrdersService.loop :
    List CreateOrderRequest → List Order → List (List OrderItem) → World →
      Except GoError (List Order × List (List OrderItem)) × World
  | [], orders, orderItemsLists, w => (.ok (orders, orderItemsLists), w)
  | orderRequest :: rest, orders, orderItemsLists, w =>
    match createObject w orderRequest with
    | (.error err, w) => (.error err, w)
    | (.ok (order, orderItemsList), w) =>
      AddOrdersService.loop rest (orders ++ [order]) (orderItemsLists ++ [orderItemsList]) w

/-- Service method `OrderService.AddOrdersService`. -/
def AddOrdersService (w : World) (ordersRequests : List CreateOrderRequest) :
    Option GoError × World :=
  match AddOrdersService.loop ordersRequests [] [] w with
  | (.error err, w) => (some err, w)
  | (.ok (orders, orderItemsLists), w) =>
    match AddOrdersRepository w orders orderItemsLists with
    | (some err, w) => (some err, w)
    | (none, w) => (none, w)

/-! ## Order handler (after the request body has been decoded) -/

/-- Handler `OrderHandler.CreateOrder` on a decoded body: the HTTP status written. -/
def CreateOrder (w : World) (inputOrder : CreateOrderRequest) : Nat × World :=
  match NewCreateOrder inputOrder with
  | .error _ => (400, w)
  | .ok order =>
    match CreateOrderService w order with
    | (some err, w) => (mapAppErrorToStatus err, w)
    | (none, w) => (201, w)

/-- Handler `OrderHandler.UpdateOrder` on a decoded id and body: the HTTP status written. -/
def UpdateOrder (w : World) (id : Int) (inputOrder : CreateOrderRequest) : Nat × World :=
  match NewCreateOrder inputOrder with
  | .error _ => (400, w)
  | .ok order =>
    match UpdateOrderService w id order with
    | (some err, w) => (mapAppErrorToStatus err, w)
    | (none, w) => (200, w)

/-- Handler `OrderHandler.BatchCreateOrders` on a decoded body: the HTTP status written. -/
def BatchCreateOrders (w : World) (inputOrders : List CreateOrderRequest) : Nat × World :=
  match AddOrdersService w inputOrders with
  | (some err, w) => (mapAppErrorToStatus err, w)
  | (none, w) => (201, w)

/-! ## Inventory models and service -/

/-- Go `models.CreateInventoryRequest`. -/
structure CreateInventoryRequest where
  ID : String
  Name : String
  StockLevel : ℚ
  Price : ℚ
  UnitType : String
  deriving DecidableEq, Repr

/-- Go `models.InventoryItem`. -/
structure InventoryItem where
  ID : String
  Name : String
  StockLevel : ℚ
  UnitType : String
  Price : ℚ
  LastUpdated : Nat
  deriving DecidableEq, Repr

/-- Constructor `models.NewCreateInventoryRequest`. -/
def NewCreateInventoryRequest (inventoryRequest : CreateInventoryRequest) :
    Except GoError CreateInventoryRequest :=
  if inventoryRequest.Name = "" ∨ inventoryRequest.UnitType = "" ∨
      inventoryRequest.StockLevel ≤ 0 ∨ inventoryRequest.Price ≤ 0 then
    .error .ErrInvalidInput
  else
    .ok { ID := if inventoryRequest.ID = "" then fromNameToID inventoryRequest.Name
                else inventoryRequest.ID
          Name := inventoryRequest.Name, StockLevel := inventoryRequest.StockLevel,
          Price := inventoryRequest.Price, UnitType := inventoryRequest.UnitType }

/-- Constructor `models.NewInventoryItem`. -/
def NewInventoryItem (dto : CreateInventoryRequest) (now : Nat) : Except GoError InventoryItem :=
  if dto.Name = "" ∨ dto.StockLevel < 0 ∨ dto.UnitType = "" ∨ dto.Price ≤ 0 then
    .error .ErrInvalidInput
  else
    .ok { ID := if dto.ID = "" then fromNameToID dto.Name else dto.ID
          Name := dto.Name, StockLevel := dto.StockLevel, UnitType := dto.UnitType,
          Price := dto.Price, LastUpdated := now }

/-- Service method `InventoryService.createInventoryObjects`. -/
def createInventoryObjects (inventoryItemRequest : CreateInventoryRequest)
    (typeTransaction : String) (now : Nat) :
    Except GoError (InventoryItem × InventoryTransaction) :=
  match NewInventoryItem inventoryItemRequest now with
  | .error err => .error err
  | .ok inventoryItem =>
    match NewInventoryTransaction inventoryItemRequest.ID inventoryItem.StockLevel
        typeTransaction now with
    | .error err => .error err
    | .ok inventoryTransaction => .ok (inventoryItem, inventoryTransaction)

/-- Repository method `InventoryRepository.GetAllInventoryItemsRepository`:
`SELECT id, name, stock, price, unit_type, last_updated FROM inventory`. -/
def GetAllInventoryItemsRepository (w : World) : Except GoError (List InventoryItem) × World :=
  match dbQuery w (fun t => t.inventory.map fun r =>
      ({ ID := r.id, Name := r.name, StockLevel := r.stock, Price := r.price,
         UnitType := r.unit_type, LastUpdated := r.last_updated } : InventoryItem)) with
  | (.error err, w) => (.error err, w)
  | (.ok inventoryItems, w) => (.ok inventoryItems, w)

/-- Statement `UPDATE inventory SET name = $1, stock = stock + $2, unit_type = $3, price = $4,
last_updated = NOW() WHERE id = $5`. -/
def updateInventoryItemQuery (id : String) (inventoryItem : InventoryItem) (now : Nat)
    (t : Tables) : Tables × Nat :=
  ({ t with inventory := t.inventory.map fun r =>
      if r.id = id then
        { r with name := inventoryItem.Name, stock := r.stock + inventoryItem.StockLevel,
                 unit_type := inventoryItem.UnitType, price := inventoryItem.Price,
                 last_updated := now }
      else r },
   (t.inventory.filter fun r => r.id = id).length)

/-- Statement `INSERT INTO inventory_transactions (inventory_id, change_amount,
transaction_type, changed_at) VALUES ($1, $2, $3, $4)` of `UpdateInventoryItemRepository`:
the inventory id is the `id` argument. -/
def transactionQuery (id : String) (tr : InventoryTransaction) (t : Tables) : Tables × Nat :=
  ({ t with inventory_transactions := t.inventory_transactions ++
      [{ inventory_id := id, change_amount := tr.ChangeAmount,
         transaction_type := tr.TransactionType, changed_at := tr.ChangeAt }] }, 1)

/-- Repository method `InventoryRepository.UpdateInventoryItemRepository`. -/
def UpdateInventoryItemRepository (w : World) (id : String) (inventoryItem : InventoryItem)
    (inventoryTransaction : InventoryTransaction) : Option GoError × World :=
  match Begin w with
  | (.error err, w) => (some err, w)
  | (.ok tx, w) =>
    match tx.Exec w (updateInventoryItemQuery id inventoryItem w.now) with
    | (.error err, _, w) => (some err, w)
    | (.ok result, tx, w) =>
      match checkRowsAffected result with
      | some err => (some err, w)
      | none =>
        match tx.Exec w (transactionQuery id inventoryTransaction) with
        | (.error err, _, w) => (some err, w)
        | (.ok _, tx, w) =>
          match tx.Commit w with
          | (some err, w) => (some err, w)
          | (none, w) => (none, w)

/-- Service method `InventoryService.UpdateInventoryItemService`. -/
def UpdateInventoryItemService (w : World) (id : String)
    (inventoryItemRequest : CreateInventoryRequest) : Option GoError × World :=
  let inventoryItemRequest := { inventoryItemRequest with ID := id }
  match createInventoryObjects inventoryItemRequest "added" w.now with
  | .error err => (some err, w)
  | .ok (inventoryItem, inventoryTransaction) =>
    match UpdateInventoryItemRepository w id inventoryItem inventoryTransaction with
    | (some err, w) => (some err, w)
    | (none, w) => (none, w)

/-! ## Leftovers -/

/-- One entry of the `data` list of the leftovers response. -/
structure LeftOver where
  name : String
  quantity : ℚ
  price : ℚ
  deriving DecidableEq, Repr

/-- The leftovers response (`map[string]interface{}` with these five keys). -/
structure LeftOversResponse where
  currentPage : Int
  hasNextPage : Bool
  pageSize : Int
  totalPages : Int
  data : List LeftOver
  deriving DecidableEq, Repr

/-- Query `SELECT name, stock, price FROM inventory ORDER BY CASE WHEN $1 = '' THEN NULL
WHEN $1 = 'price' THEN price WHEN $1 = 'quantity' THEN stock END OFFSET $2 LIMIT $3`.
The store rejects a negative `OFFSET` or `LIMIT` (`none`); rows with equal keys, and all rows
when the key is `NULL`, are taken in stored order. -/
def leftoversQuery (sortBy : String) (offset pageSize : Int) (t : Tables) :
    Option (List LeftOver) :=
  if offset < 0 ∨ pageSize < 0 then none
  else
    let ordered :=
      if sortBy = "price" then t.inventory.insertionSort (fun a b => a.price ≤ b.price)
      else if sortBy = "quantity" then t.inventory.insertionSort (fun a b => a.stock ≤ b.stock)
      else t.inventory
    some (((ordered.drop offset.toNat).take pageSize.toNat).map fun r =>
      { name := r.name, quantity := r.stock, price := r.price })

/-- Call `db.Query(q)` for a query that the store rejects on some arguments. -/
def dbQueryChecked {α : Type} (w : World) (q : Tables → Option α) : Except GoError α × World :=
  if w.fails then (.error .driver, w.next)
  else
    match q w.tables with
    | none => (.error .driver, w.next)
    | some a => (.ok a, w.next)

/-- Repository method `InventoryRepository.GetLeftOversRepository`. -/
def GetLeftOversRepository (w : World) (sortBy : String) (page offset pageSize : Int) :
    Except GoError LeftOversResponse × World :=
  match dbQueryChecked w (leftoversQuery sortBy offset pageSize) with
  | (.error err, w) => (.error err, w)
  | (.ok leftovers, w) =>
    match dbQueryRow w (fun t => some (t.inventory.length : Int)) with
    | (.error err, w) => (.error err, w)
    | (.ok totalItems, w) =>
      if pageSize = 0 then (.error (.panic "runtime error: integer divide by zero"), w)
      else
        let totalPages := wrap64 (Int.tdiv (wrap64 (wrap64 (totalItems + pageSize) - 1)) pageSize)
        let hasNextPage := decide (page < totalPages)
        (.ok { currentPage := page, hasNextPage := hasNextPage, pageSize := pageSize,
               totalPages := totalPages, data := leftovers }, w)

/-- Service method `InventoryService.GetLeftOversService`. -/
def GetLeftOversService (w : World) (sortBy pageParam pageSizeParam : String) :
    Except GoError LeftOversResponse × World :=
  match Atoi pageParam with
  | .error err => (.error err, w)
  | .ok page =>
    match Atoi pageSizeParam with
    | .error err => (.error err, w)
    | .ok pageSize =>
      let offset := wrap64 (wrap64 (page - 1) * pageSize)
      match GetLeftOversRepository w sortBy page offset pageSize with
      | (.error err, w) => (.error err, w)
      | (.ok leftovers, w) => (.ok leftovers, w)

/-! ## Menu models, repository and service -/

/-- Go `models.MenuItemIngredientInput`. -/
structure MenuItemIngredientInput where
  IngredientID : String
  Quantity : ℚ
  deriving DecidableEq, Repr

/-- Go `models.CreateMenuRequest`. -/
structure CreateMenuRequest where
  ID : String
  Name : String
  Description : String
  Price : ℚ
  Size : String
  Ingredients : List MenuItemIngredientInput
  deriving DecidableEq, Repr

/-- Go `models.MenuItem`. -/
structure MenuItem where
  ID : String
  Name : String
  Description : String
  Price : ℚ
  Allergens : List String
  Size : String
  deriving DecidableEq, Repr

/-- Go `models.MenuItemIngredient` (without the store-assigned id). -/
structure MenuItemIngredient where
  MenuItemID : String
  Quantity : ℚ
  IngredientID : String
  deriving DecidableEq, Repr

/-- Constructor `models.NewCreateMenuRequest`. -/
def NewCreateMenuRequest (menuRequest : CreateMenuRequest) : Except GoError CreateMenuRequest :=
  if menuRequest.Name = "" ∨ menuRequest.Price ≤ 0 ∨ menuRequest.Size = "" then
    .error .ErrInvalidInput
  else if menuRequest.Ingredients.any (fun ingredient =>
      decide (ingredient.IngredientID = "" ∨ ingredient.Quantity ≤ 0)) then
    .error .ErrInvalidInput
  else
    .ok { ID := if menuRequest.ID = "" then fromNameToID menuRequest.Name else menuRequest.ID
          Name := menuRequest.Name
          Description :=
            if menuRequest.Description = "" then "No description" else menuRequest.Description
          Price := menuRequest.Price, Size := menuRequest.Size
          Ingredients := menuRequest.Ingredients }

/-- Constructor `models.NewMenuItem`. -/
def NewMenuItem (allergens : List String) (dto : CreateMenuRequest) : Except GoError MenuItem :=
  if dto.Name = "" ∨ dto.Price ≤ 0 ∨ dto.Size = "" then .error .ErrInvalidInput
  else
    .ok { ID := dto.ID, Name := dto.Name
          Description := if dto.Description = "" then "No description" else dto.Description
          Price := dto.Price, Allergens := allergens, Size := dto.Size }

/-- The `for _, item := range items` loop of `NewMenuItemIngredients`. -/
def NewMenuItemIngredients.loop (menuItemID : String) :
    List MenuItemIngredientInput → List MenuItemIngredient →
      Except GoError (List MenuItemIngredient)
  | [], menuItems => .ok menuItems
  | item :: rest, menuItems =>
    if item.Quantity ≤ 0 ∨ item.IngredientID = "" then .error .ErrInvalidInput
    else
      NewMenuItemIngredients.loop menuItemID rest
        (menuItems ++ [{ MenuItemID := menuItemID, Quantity := item.Quantity,
                         IngredientID := item.IngredientID }])

/-- Constructor `models.NewMenuItemIngredients`. -/
def NewMenuItemIngredients (menuItemID : String) (items : List MenuItemIngredientInput) :
    Except GoError (List MenuItemIngredient) :=
  if menuItemID = "" ∨ items.length < 1 then .error .ErrInvalidInput
  else NewMenuItemIngredients.loop menuItemID items []

/-- The table `allergensMap` of `indentAllergens`, in the order of the source. -/
def allergensMap : GoMap (List String) :=
  [("gluten", ["wheat", "barley", "rye"]),
   ("lactose", ["milk", "cheese", "butter"]),
   ("nuts", ["almond", "walnut", "hazelnut"]),
   ("soy", ["soy", "soybean", "tofu"]),
   ("shellfish", ["shrimp", "crab", "lobster"]),
   ("eggs", ["egg", "albumin"]),
   ("fish", ["salmon", "tuna", "cod"]),
   ("peanuts", ["peanut", "groundnut"]),
   ("sesame", ["sesame", "tahini"]),
   ("mustard", ["mustard", "mustard seed"]),
   ("caffeine", ["espresso", "coffee"])]

/-- The `for _, keyword := range keywords` loop of `indentAllergens`: the value of `found`. -/
def indentAllergens.found (id : String) : List String → Bool
  | [] => false
  | keyword :: rest => if id = keyword then true else indentAllergens.found id rest

/-- The `for allergen, keywords := range allergensMap` loop of `indentAllergens` for one
ingredient, the table being visited in the order `table`: the allergen appended, if any. -/
def indentAllergens.scan (id : String) : GoMap (List String) → Option String
  | [] => none
  | (allergen, keywords) :: rest =>
    if indentAllergens.found id keywords then some allergen else indentAllergens.scan id rest

/-- The `for _, item := range items` loop of `indentAllergens`. -/
def indentAllergens.loop (table : GoMap (List String)) :
    List MenuItemIngredientInput → List String → List String
  | [], allergens => allergens
  | item :: rest, allergens =>
    match indentAllergens.scan item.IngredientID table with
    | some allergen => indentAllergens.loop table rest (allergens ++ [allergen])
    | none => indentAllergens.loop table rest allergens

/-- Service method `MenuService.indentAllergens` (its error result is always nil). -/
def indentAllergens (items : List MenuItemIngredientInput) : List String :=
  indentAllergens.loop allergensMap items []

/-- Service method `MenuService.createMenuObjects`. -/
def createMenuObjects (menuItemRequest : CreateMenuRequest) :
    Except GoError (MenuItem × List MenuItemIngredient) :=
  let allergens := indentAllergens menuItemRequest.Ingredients
  match NewMenuItem allergens menuItemRequest with
  | .error err => .error err
  | .ok menuItem =>
    match NewMenuItemIngredients menuItem.ID menuItemRequest.Ingredients with
    | .error err => .error err
    | .ok menuItemIngredients => .ok (menuItem, menuItemIngredients)

/-- The second loop of `validateMenuInventory`: the error for the first ingredient that is
not a key of `inventMap`. -/
def validateMenuInventory.check (inventMap : GoMap InventoryItem) :
    List MenuItemIngredientInput → Option GoError
  | [] => none
  | ingredient :: rest =>
    match inventMap.get? ingredient.IngredientID with
    | none => some (.wrapf "" .ErrNotExistConflict)
    | some _ => validateMenuInventory.check inventMap rest

/-- Service method `MenuService.validateMenuInventory`. -/
def validateMenuInventory (w : World) (ingredients : List MenuItemIngredientInput) :
    Option GoError × World :=
  match GetAllInventoryItemsRepository w with
  | (.error err, w) => (some err, w)
  | (.ok inventory, w) =>
    let inventMap : GoMap InventoryItem :=
      inventory.foldl (fun inventMap item => inventMap.set item.ID item) []
    (validateMenuInventory.check inventMap ingredients, w)

/-- Call `tx.QueryRow(q).Scan(..)`: the first row in the working copy, or `sql.ErrNoRows`. -/
def Tx.QueryRow {α : Type} (tx : Tx) (w : World) (q : Tables → Option α) :
    Except GoError α × World :=
  if w.fails then (.error .driver, w.next)
  else
    match q tx.work with
    | none => (.error .ErrNoRows, w.next)
    | some a => (.ok a, w.next)

/-- Statement `INSERT INTO price_history (menu_item_id, old_price, new_price, changed_at)
VALUES ($1, $2, $3, NOW())`. -/
def priceHistoryQuery (id : String) (oldPrice newPrice : ℚ) (now : Nat) (t : Tables) :
    Tables × Nat :=
  ({ t with price_history := t.price_history ++
      [{ menu_item_id := id, old_price := oldPrice, new_price := newPrice,
         changed_at := now }] }, 1)

/-- Repository method `MenuRepository.addPriceHistory`. -/
def addPriceHistory (tx : Tx) (w : World) (id : String) (newPrice : ℚ) :
    Option GoError × Tx × World :=
  match tx.QueryRow w (fun t => (t.menu_items.find? fun r => decide (r.id = id)).map
      fun r => r.price) with
  | (.error err, w) => (some err, tx, w)
  | (.ok oldPrice, w) =>
    match tx.Exec w (priceHistoryQuery id oldPrice newPrice w.now) with
    | (.error err, tx, w) => (some err, tx, w)
    | (.ok _, tx, w) => (none, tx, w)

/-- Statement `UPDATE menu_items SET name = $1, description = $2, price = $3, allergens = $4,
size = $5 WHERE id = $6`. -/
def updateMenuItemQuery (id : String) (menuItem : MenuItem) (t : Tables) : Tables × Nat :=
  ({ t with menu_items := t.menu_items.map fun r =>
      if r.id = id then
        { r with name := menuItem.Name, description := menuItem.Description,
                 price := menuItem.Price, allergens := menuItem.Allergens,
                 size := menuItem.Size }
      else r },
   (t.menu_items.filter fun r => r.id = id).length)

/-- Statement `DELETE FROM menu_item_ingredients WHERE menu_item_id = $1`. -/
def ingredientDeleteQuery (id : String) (t : Tables) : Tables × Nat :=
  ({ t with menu_item_ingredients := t.menu_item_ingredients.filter fun r =>
      ¬ r.menu_item_id = id },
   (t.menu_item_ingredients.filter fun r => r.menu_item_id = id).length)

/-- Statement `INSERT INTO menu_item_ingredients (menu_item_id, quantity, ingredient_id)
VALUES ($1, $2, $3)`. -/
def ingredientInsertQuery (id : String) (quantity : ℚ) (ingredientID : String) (t : Tables) :
    Tables × Nat :=
  ({ t with menu_item_ingredients := t.menu_item_ingredients ++
      [{ menu_item_id := id, quantity := quantity, ingredient_id := ingredientID }] }, 1)

/-- The `for _, item := range ingredients` loop of `updateMenuItemIngredients`. -/
def updateMenuItemIngredients.loop (id : String) :
    List MenuItemIngredient → Tx → World → Option GoError × Tx × World
  | [], tx, w => (none, tx, w)
  | item :: rest, tx, w =>
    match tx.Exec w (ingredientInsertQuery id item.Quantity item.IngredientID) with
    | (.error err, tx, w) => (some err, tx, w)
    | (.ok _, tx, w) => updateMenuItemIngredients.loop id rest tx w

/-- Repository method `MenuRepository.updateMenuItemIngredients`. -/
def updateMenuItemIngredients (tx : Tx) (w : World) (id : String)
    (ingredients : List MenuItemIngredient) : Option GoError × Tx × World :=
  match tx.Exec w (ingredientDeleteQuery id) with
  | (.error err, tx, w) => (some err, tx, w)
  | (.ok _, tx, w) => updateMenuItemIngredients.loop id ingredients tx w

/-- Repository method `MenuRepository.UpdateMenuItemRepository`. -/
def UpdateMenuItemRepository (w : World) (id : String) (menuItem : MenuItem)
    (menuItemIngredients : List MenuItemIngredient) : Option GoError × World :=
  match Begin w with
  | (.error err, w) => (some err, w)
  | (.ok tx, w) =>
    match addPriceHistory tx w id menuItem.Price with
    | (some err, _, w) => (some err, w)
    | (none, tx, w) =>
      match tx.Exec w (updateMenuItemQuery id menuItem) with
      | (.error err, _, w) => (some err, w)
      | (.ok result, tx, w) =>
        match checkRowsAffected result with
        | some err => (some err, w)
        | none =>
          match updateMenuItemIngredients tx w id menuItemIngredients with
          | (some err, _, w) => (some err, w)
          | (none, tx, w) =>
            match tx.Commit w with
            | (some err, w) => (some err, w)
            | (none, w) => (none, w)

/-- Service method `MenuService.UpdateMenuItemService`. -/
def UpdateMenuItemService (w : World) (id : String) (menuItemRequest : CreateMenuRequest) :
    Option GoError × World :=
  match validateMenuInventory w menuItemRequest.Ingredients with
  | (some err, w) => (some err, w)
  | (none, w) =>
    let menuItemRequest := { menuItemRequest with ID := id }
    match createMenuObjects menuItemRequest with
    | .error err => (some err, w)
    | .ok (menuItem, menuItemIngredients) =>
      match UpdateMenuItemRepository w id menuItem menuItemIngredients with
      | (some err, w) => (some err, w)
      | (none, w) => (none, w)

/-- Handler `MenuHandler.UpdateMenuItem` on a decoded id and body: the HTTP status written. -/
def UpdateMenuItem (w : World) (id : String) (inputMenu : CreateMenuRequest) : Nat × World :=
  match NewCreateMenuRequest inputMenu with
  | .error _ => (400, w)
  | .ok menu =>
    match UpdateMenuItemService w id menu with
    | (some err, w) => (mapAppErrorToStatus err, w)
    | (none, w) => (200, w)

/-! ## Reading orders -/

/-- Repository method `OrderRepository.GetAllOrdersRepository`: `SELECT id, customer_id,
total_amount, status, special_instructions, payment_method, created_at, updated_at
FROM orders`. -/
def GetAllOrdersRepository (w : World) : Except GoError (List Order) × World :=
  match dbQuery w (fun t => t.orders.map fun r =>
      ({ ID := r.id, CustomerID := r.customer_id, TotalAmount := r.total_amount,
         Status := r.status, SpecialInstructions := r.special_instructions,
         PaymentMethod := r.payment_method, CreatedAt := r.created_at,
         UpdatedAt := r.updated_at } : Order)) with
  | (.error err, w) => (.error err, w)
  | (.ok orders, w) => (.ok orders, w)

/-- Repository method `OrderRepository.GetOrderRepository`: `SELECT id, customer_id,
total_amount, status, payment_method, created_at, updated_at FROM orders WHERE id = $1`,
scanned into a fresh `models.Order`; the column `special_instructions` is not selected, so
the field keeps its zero value (the nil `json.RawMessage`). -/
def GetOrderRepository (w : World) (id : Int) : Except GoError Order × World :=
  match dbQueryRow w (fun t => (t.orders.find? fun r => decide (r.id = id)).map fun r =>
      ({ ID := r.id, CustomerID := r.customer_id, TotalAmount := r.total_amount,
         Status := r.status, SpecialInstructions := none,
         PaymentMethod := r.payment_method, CreatedAt := r.created_at,
         UpdatedAt := r.updated_at } : Order)) with
  | (.error err, w) =>
    if err = .ErrNoRows then (.error .ErrNotExistConflict, w)
    else (.error (.wrapf "failed to retrieve order" err), w)
  | (.ok order, w) => (.ok order, w)

/-- Service method `OrderService.GetOrderService`. -/
def GetOrderService (w : World) (id : Int) : Except GoError Order × World :=
  match GetOrderRepository w id with
  | (.error err, w) => (.error err, w)
  | (.ok order, w) => (.ok order, w)

/-- Service method `OrderService.GetAllOrdersService`. -/
def GetAllOrdersService (w : World) : Except GoError (List Order) × World :=
  match GetAllOrdersRepository w with
  | (.error err, w) => (.error err, w)
  | (.ok orders, w) => (.ok orders, w)

/-! ## Creating and deleting inventory items -/

/-- Statement `INSERT INTO inventory (id, name, stock, price, unit_type, last_updated)
VALUES ($1, $2, $3, $4, $5, $6)`. The table definition is not part of the sources: the row
is appended without a key check, and the results on it are stated for an id that is not
stored. -/
def insertInventoryQuery (inventoryItem : InventoryItem) (t : Tables) : Tables × Nat :=
  ({ t with inventory := t.inventory ++
      [{ id := inventoryItem.ID, name := inventoryItem.Name, stock := inventoryItem.StockLevel,
         price := inventoryItem.Price, unit_type := inventoryItem.UnitType,
         last_updated := inventoryItem.LastUpdated }] }, 1)

/-- Repository method `InventoryRepository.AddInventoryItemRepository`; its second statement
is the ledger insert `insertTransactionQuery`. -/
def AddInventoryItemRepository (w : World) (inventoryItem : InventoryItem)
    (inventoryTransaction : InventoryTransaction) : Option GoError × World :=
  match Begin w with
  | (.error err, w) => (some err, w)
  | (.ok tx, w) =>
    match tx.Exec w (insertInventoryQuery inventoryItem) with
    | (.error err, _, w) => (some err, w)
    | (.ok _, tx, w) =>
      match tx.Exec w (insertTransactionQuery inventoryTransaction) with
      | (.error err, _, w) => (some err, w)
      | (.ok _, tx, w) =>
        match tx.Commit w with
        | (some err, w) => (some err, w)
        | (none, w) => (none, w)

/-- Statement `DELETE FROM inventory WHERE id = $1`. -/
def deleteInventoryQuery (id : String) (t : Tables) : Tables × Nat :=
  ({ t with inventory := t.inventory.filter fun r => ¬ r.id = id },
   (t.inventory.filter fun r => r.id = id).length)

/-- Repository method `InventoryRepository.DeleteInventoryItemRepository`. -/
def DeleteInventoryItemRepository (w : World) (id : String) : Option GoError × World :=
  match dbExec w (deleteInventoryQuery id) with
  | (.error err, w) => (some err, w)
  | (.ok result, w) =>
    match checkRowsAffected result with
    | some err => (some err, w)
    | none => (none, w)

/-- Service method `InventoryService.CreateInventoryItemService`. -/
def CreateInventoryItemService (w : World) (inventoryItemRequest : CreateInventoryRequest) :
    Option GoError × World :=
  match createInventoryObjects inventoryItemRequest "created" w.now with
  | .error err => (some err, w)
  | .ok (inventoryItem, inventoryTransaction) =>
    match AddInventoryItemRepository w inventoryItem inventoryTransaction with
    | (some err, w) => (some err, w)
    | (none, w) => (none, w)

/-- Service method `InventoryService.DeleteInventoryItemService`. -/
def DeleteInventoryItemService (w : World) (id : String) : Option GoError × World :=
  match DeleteInventoryItemRepository w id with
  | (some err, w) => (some err, w)
  | (none, w) => (none, w)

/-- The `for _, item := range items` loop of `indentAllergens` when the table is visited in
an order of its own for every ingredient: each ingredient comes with the order of its
visit. -/
def indentAllergens.loopVisiting :
    List (MenuItemIngredientInput × GoMap (List String)) → List String → List String
  | [], allergens => allergens
  | (item, table) :: rest, allergens =>
    match indentAllergens.scan item.IngredientID table with
    | some allergen => indentAllergens.loopVisiting rest (allergens ++ [allergen])
    | none => indentAllergens.loopVisiting rest allergens

/-! ## Specification-side definitions -/

/-- The inventory after the stock of every row whose id is a key of `q` has been lowered by
`q[id]` (and its `last_updated` set); the other rows are as they were. -/
def debitedInventory (q : GoMap ℚ) (now : Nat) (inventory : List InventoryRow) :
    List InventoryRow :=
  inventory.map fun r =>
    match q.get? r.id with
    | some a => { r with stock := r.stock - a, last_updated := now }
    | none => r

/-- One ledger row per entry of `q`: kind `sale`, change `-q[id]`. -/
def saleLedgerRows (q : GoMap ℚ) (now : Nat) : List LedgerRow :=
  q.map fun e =>
    { inventory_id := e.1, change_amount := -e.2, transaction_type := "sale", changed_at := now }

/-- The amount of ingredient `ing` required by the units sold `u`: the sum, over the recipe
rows for `ing` whose menu item id is a key of `u`, of row quantity × `u[menu item id]`. -/
def requiredAmount (rows : List RecipeRow) (u : GoMap Int) (ing : String) : ℚ :=
  ((rows.filter fun r =>
      decide (r.ingredient_id = ing) && (u.get? r.menu_item_id).isSome).map
    fun r => r.quantity * ((u.getD r.menu_item_id 0 : Int) : ℚ)).sum

/-- The accumulation that the code runs over terms (amount, count), from `start`:
`s += amount * float64(count)` for each term in order, every product and every partial sum
a `float64`. -/
def sum64 (terms : List (ℚ × Int)) (start : ℚ) : ℚ :=
  terms.foldl (fun s t => add64 s (mul64 t.1 (float64OfInt t.2))) start

/-- The value `x` lies in the range of the finite `float64` values. -/
def finite64 (x : ℚ) : Bool := decide (-(2 ^ 1024) < x) && decide (x < 2 ^ 1024)

/-- Every step of `sum64` stays in the range of the finite `float64` values (every amount,
every product and every partial sum), where the rounding of the model is that of the
code. -/
def finiteSum64 : List (ℚ × Int) → ℚ → Bool
  | [], _ => true
  | (x, n) :: rest, s =>
    finite64 x && finite64 (mul64 x (float64OfInt n)) &&
      finite64 (add64 s (mul64 x (float64OfInt n))) &&
      finiteSum64 rest (add64 s (mul64 x (float64OfInt n)))

/-- No step of `sum64` rounds: every amount and every count is a `float64`, and so is
every product and every partial sum. -/
def exactSum64 : List (ℚ × Int) → ℚ → Bool
  | [], _ => true
  | (x, n) :: rest, s =>
    decide (round64 x = x) && decide (float64OfInt n = (n : ℚ)) &&
      decide (mul64 x (n : ℚ) = x * (n : ℚ)) &&
      decide (add64 s (x * (n : ℚ)) = s + x * (n : ℚ)) && exactSum64 rest (s + x * (n : ℚ))

/-- The terms that `CalculateIngredientsForOrder` accumulates for the ingredient `ing`: for
each recipe row of `ing` whose menu item id is a key of `u`, in the order of the rows, the
scanned row quantity and `u[menu item id]`. -/
def recipeTerms (rows : List RecipeRow) (u : GoMap Int) (ing : String) : List (ℚ × Int) :=
  (rows.filter fun r =>
      decide (r.ingredient_id = ing) && (u.get? r.menu_item_id).isSome).map
    fun r => (scanFloat64 r.quantity, u.getD r.menu_item_id 0)

/-- The amount of ingredient `ing` that the code accumulates for the units sold `u`, in
`float64` and in the order of the recipe rows. -/
def accumulatedAmount (rows : List RecipeRow) (u : GoMap Int) (ing : String) : ℚ :=
  sum64 (recipeTerms rows u ing) 0

/-- The terms that `validateOrder` accumulates for the total: price and quantity of each
line. -/
def orderTerms (items : List OrderItem) : List (ℚ × Int) :=
  items.map fun it => (it.Price, it.Quantity)

/-- The world `w1` holds the same orders as `w`: same `orders` and `order_items` tables,
same order id sequence, same clock. -/
def SameOrders (w w1 : World) : Prop :=
  w1.tables.orders = w.tables.orders ∧ w1.tables.order_items = w.tables.order_items ∧
  w1.orderSeq = w.orderSeq ∧ w1.now = w.now

/-- The operations of the order service that write orders. -/
inductive OrderOp where
  | create (req : CreateOrderRequest)
  | update (id : Int) (req : CreateOrderRequest)
  | close (id : Int)
  | delete (id : Int)
  | batch (reqs : List CreateOrderRequest)
  deriving DecidableEq, Repr

/-- The world after one operation of the order service, whether it succeeds or fails. -/
def OrderOp.run (w : World) : OrderOp → World
  | .create req => (CreateOrderService w req).2
  | .update id req => (UpdateOrderService w id req).2
  | .close id => (CloseOrderService w id).2
  | .delete id => (DeleteOrderService w id).2
  | .batch reqs => (AddOrdersService w reqs).2

/-- The operation is an update addressed to the order `id`. -/
def OrderOp.updatesId : OrderOp → Int → Bool
  | .update i _, id => decide (i = id)
  | _, _ => false

/-- The world after a sequence of operations of the order service. -/
def runOps (w : World) (ops : List OrderOp) : World :=
  ops.foldl OrderOp.run w

/-- The id `id` has been issued by the order sequence and every stored order with that id is
closed (the order is closed or has been deleted). -/
def ClosedOrGone (id : Int) (orders : List OrderRow) (orderSeq : Int) : Prop :=
  id ≤ orderSeq ∧ ∀ r ∈ orders, r.id = id → r.status = "close"

/-- The order `id` is closed or gone both in the committed tables and in the working copy of
the open transaction. -/
def ClosedInTx (id : Int) (tx : Tx) (w : World) : Prop :=
  ClosedOrGone id tx.work.orders w.orderSeq ∧ ClosedOrGone id w.tables.orders w.orderSeq

/-- The allergen category under which the fixed table lists the keyword `id`, if any. -/
def allergenOf (id : String) : Option String :=
  (allergensMap.find? fun e => decide (id ∈ e.2)).map Prod.fst

/-- No keyword of the table is listed under two categories. -/
def KeywordsDisjoint (table : GoMap (List String)) : Prop :=
  ∀ e1 ∈ table, ∀ e2 ∈ table, ∀ k ∈ e1.2, k ∈ e2.2 → e1.1 = e2.1

/-- The row of `order_items` that the code writes for a line item of the order `id`. -/
def orderItemRow (id : Int) (item : OrderItem) : OrderItemRow :=
  { order_id := id, quantity := item.Quantity, price_at_order := item.Price,
    menu_item_id := item.MenuItemID }

/-- The store after a successful update of the order `id`: the header of that order
replaced, its line items replaced, everything else as before. -/
def updatedOrderTables (t : Tables) (id : Int) (order : Order) (items : List OrderItem)
    (now : Nat) : Tables :=
  { t with
    orders := t.orders.map fun r =>
      if r.id = id then
        { r with customer_id := order.CustomerID, total_amount := order.TotalAmount,
                 special_instructions := order.SpecialInstructions,
                 payment_method := order.PaymentMethod, status := order.Status,
                 updated_at := now }
      else r
    order_items := (t.order_items.filter fun r => ¬ r.order_id = id) ++
      items.map (orderItemRow id) }

/-- The row of `customers` that a first order under the name `name` creates: the id that
the store assigns, the placeholder email, and the preferences payload or its default. -/
def createdCustomerRow (id : Int) (name : String) (instructions : Option String) :
    CustomerRow :=
  { id := id, name := name, email := fromNameToID name ++ "@gmail.com"
    preferences := match instructions with
      | none => some "\x7b\"preferences\": true\x7d"
      | some j => some j }

/-- The ingredient requirement of the line items `items` under the recipes stored in `t`:
the map that `CalculateIngredientsForOrder` builds from the recipe rows for the quantities
that `validateOrder` passes to it. -/
def requiredIngredients (t : Tables) (items : List OrderItemInput) : GoMap ℚ :=
  (t.menu_item_ingredients.filter fun r =>
      decide (r.menu_item_id ∈ GoMap.keys (validateOrder.quantities items))).foldl
    (CalculateIngredientsForOrder.step (validateOrder.quantities items)) []

/-- The stock side of the store is the same in `w1` as in `w`: inventory, ledger and
recipes. -/
def SameStock (w w1 : World) : Prop :=
  w1.tables.inventory = w.tables.inventory ∧
  w1.tables.inventory_transactions = w.tables.inventory_transactions ∧
  w1.tables.menu_item_ingredients = w.tables.menu_item_ingredients

/-- The sum of `change_amount` over the ledger rows that carry the inventory id `id`. -/
def ledgerSum (ledger : List LedgerRow) (id : String) : ℚ :=
  ((ledger.filter fun l => decide (l.inventory_id = id)).map fun l => l.change_amount).sum

/-- Stock and ledger agree: the stock level of every stored inventory item is the sum of the
ledger rows that carry its id. -/
def StockMatchesLedger (t : Tables) : Prop :=
  ∀ r ∈ t.inventory, r.stock = ledgerSum t.inventory_transactions r.id

instance (t : Tables) : Decidable (StockMatchesLedger t) := by
  unfold StockMatchesLedger
  infer_instance

/-- The operations that write the inventory and its ledger: the three inventory services and
the sale debit that an order drives. -/
inductive InventoryOp where
  | create (req : CreateInventoryRequest)
  | update (id : String) (req : CreateInventoryRequest)
  | delete (id : String)
  | sale (quantities : GoMap ℚ)
  deriving DecidableEq, Repr

/-- Running one operation: its error, if any, and the store after it. -/
def InventoryOp.run (w : World) : InventoryOp → Option GoError × World
  | .create req => CreateInventoryItemService w req
  | .update id req => UpdateInventoryItemService w id req
  | .delete id => DeleteInventoryItemService w id
  | .sale quantities => UpdateInventoryForSale w quantities

/-- Running operations one after the other: the store after the last one when every one of
them succeeds. -/
def runInventoryOps (w : World) : List InventoryOp → Option World
  | [] => some w
  | op :: rest =>
    match op.run w with
    | (some _, _) => none
    | (none, w1) => runInventoryOps w1 rest

/-- A create uses an id that the store does not know: neither an inventory row nor a ledger
row carries it. Every other operation passes. -/
def InventoryOp.freshId (t : Tables) : InventoryOp → Bool
  | .create req =>
    !(t.inventory.any fun r => decide (r.id = req.ID)) &&
      !(t.inventory_transactions.any fun l => decide (l.inventory_id = req.ID))
  | _ => true

/-- Every create of the run uses an id that the store does not know at that point. -/
def freshIds (w : World) : List InventoryOp → Bool
  | [] => true
  | op :: rest => op.freshId w.tables && freshIds (op.run w).2 rest

/-! ## A small store for running the code on concrete inputs -/

/-- Tables of a cafe with two ingredients, one menu item (a latte at 5/2 made of 2 milk and
1 beans) and one known customer. -/
def cafeTables : Tables :=
  { inventory := [⟨"milk", "Milk", 10, 2, "ml", 0⟩, ⟨"beans", "Beans", 5, 3, "g", 0⟩]
    inventory_transactions := []
    menu_items := [⟨"latte", "Latte", "", 5 / 2, [], "M"⟩]
    menu_item_ingredients := [⟨"latte", 2, "milk"⟩, ⟨"latte", 1, "beans"⟩]
    price_history := []
    customers := [⟨1, "Ann", "ann@gmail.com", none⟩]
    orders := []
    order_items := [] }

/-- The cafe with a store that never fails. -/
def cafe : World :=
  { tables := cafeTables, customerSeq := 1, orderSeq := 0, faults := [], now := 7 }

/-- The cafe with a store whose fourth statement fails. -/
def cafeFourthFails : World :=
  { cafe with faults := [false, false, false, true] }

/-- A store whose inventory has 25 rows, with ids "a" to "y", and that never fails. -/
def stockroom : World :=
  { cafe with
    tables := { cafeTables with
      inventory := (List.range 25).map fun i =>
        { id := String.singleton (Char.ofNat (97 + i)), name := "Item", stock := (i : ℚ),
          price := 1, unit_type := "g", last_updated := 0 } } }

/-- The cafe with two stored orders of Ann: order 1 (two lattes, by card) and order 2 (one
latte, in cash). -/
def cafeOrdered : World :=
  { cafe with
    tables := { cafeTables with
      orders := [⟨1, 1, 5, "open", none, "card", 3, 3⟩, ⟨2, 1, 5 / 2, "open", none, "cash", 4, 4⟩]
      order_items := [⟨1, 2, 5 / 2, "latte"⟩, ⟨2, 1, 5 / 2, "latte"⟩] }
    orderSeq := 2 }

/-- The cafe before any inventory item was created: no inventory row, no ledger row. -/
def cafeUnstocked : World :=
  { cafe with tables := { cafeTables with inventory := [], inventory_transactions := [] } }

/-- The cafe with the latte priced at 0.1 and made of 0.1 milk. -/
def cafeTenth : World :=
  { cafe with
    tables := { cafeTables with
      menu_items := [⟨"latte", "Latte", "", 1 / 10, [], "M"⟩]
      menu_item_ingredients := [⟨"latte", 1 / 10, "milk"⟩] } }

/-- The cafe with three recipe rows of milk for the latte, the large one first. -/
def cafeLargeFirst : World :=
  { cafe with
    tables := { cafeTables with
      menu_item_ingredients :=
        [⟨"latte", 9007199254740992, "milk"⟩, ⟨"latte", 1, "milk"⟩, ⟨"latte", 1, "milk"⟩] } }

/-- The same three recipe rows, the large one last. -/
def cafeLargeLast : World :=
  { cafe with
    tables := { cafeTables with
      menu_item_ingredients :=
        [⟨"latte", 1, "milk"⟩, ⟨"latte", 1, "milk"⟩, ⟨"latte", 9007199254740992, "milk"⟩] } }

/-! # Theorems -/

/-! ## Frame lemmas for the store primitives -/

@[simp] theorem next_tables (w : World) : w.next.tables = w.tables := rfl
@[simp] theorem next_now (w : World) : w.next.now = w.now := rfl
@[simp] theorem next_orderSeq (w : World) : w.next.orderSeq = w.orderSeq := rfl
@[simp] theorem next_customerSeq (w : World) : w.next.customerSeq = w.customerSeq := rfl

theorem Begin_frame (w : World) :
    (Begin w).2.tables = w.tables ∧ (Begin w).2.now = w.now ∧
    (Begin w).2.orderSeq = w.orderSeq ∧ (Begin w).2.customerSeq = w.customerSeq := by
  unfold Begin
  split <;> simp

theorem Begin_work (w w1 : World) (tx : Tx) (h : Begin w = (.ok tx, w1)) : tx.work = w.tables := by
  unfold Begin at h
  split at h <;> simp at h
  rw [← h.1]

theorem Exec_frame (tx : Tx) (w : World) (stmt : Tables → Tables × Nat) :
    (tx.Exec w stmt).2.2.tables = w.tables ∧ (tx.Exec w stmt).2.2.now = w.now ∧
    (tx.Exec w stmt).2.2.orderSeq = w.orderSeq ∧
    (tx.Exec w stmt).2.2.customerSeq = w.customerSeq := by
  unfold Tx.Exec
  split <;> simp

theorem Exec_ok (tx tx1 : Tx) (w w1 : World) (stmt : Tables → Tables × Nat) (n : Nat)
    (h : tx.Exec w stmt = (.ok n, tx1, w1)) : tx1.work = (stmt tx.work).1 := by
  unfold Tx.Exec at h
  split at h <;> simp at h
  rw [← h.2.1]

theorem Exec_error (tx tx1 : Tx) (w w1 : World) (stmt : Tables → Tables × Nat) (err : GoError)
    (h : tx.Exec w stmt = (.error err, tx1, w1)) : tx1 = tx ∧ err = .driver := by
  unfold Tx.Exec at h
  split at h <;> simp at h
  exact ⟨h.2.1.symm, h.1.symm⟩

theorem Commit_error (tx : Tx) (w w1 : World) (err : GoError)
    (h : tx.Commit w = (some err, w1)) :
    w1.tables = w.tables ∧ w1.orderSeq = w.orderSeq ∧ err = .driver := by
  unfold Tx.Commit at h
  split at h <;> simp at h
  obtain ⟨h1, h2⟩ := h
  subst h1 h2
  exact ⟨rfl, rfl, rfl⟩

theorem Commit_ok (tx : Tx) (w w1 : World)
    (h : tx.Commit w = (none, w1)) :
    w1.tables = tx.work ∧ w1.now = w.now ∧ w1.orderSeq = w.orderSeq ∧
    w1.customerSeq = w.customerSeq := by
  unfold Tx.Commit at h
  split at h <;> simp at h
  subst h
  exact ⟨rfl, rfl, rfl, rfl⟩

/-! ## Go maps: lookup after assignment -/

theorem GoMap.get?_eq_none_of_not_mem_keys {β : Type} (m : GoMap β) (k : String)
    (h : k ∉ m.keys) : m.get? k = none := by
  induction m with
  | nil => rfl
  | cons e rest ih =>
    obtain ⟨k1, v1⟩ := e
    simp only [GoMap.keys, List.map_cons, List.mem_cons, not_or] at h
    have h1 : ¬ k1 = k := fun hk => h.1 hk.symm
    simp only [GoMap.get?, h1, if_false]
    exact ih h.2

/-! ## The inventory debit -/

theorem NewInventoryTransaction_sale (id : String) (a : ℚ) (now : Nat) (tr : InventoryTransaction)
    (h : NewInventoryTransaction id a "sale" now = .ok tr) :
    tr = { InventoryID := id, ChangeAmount := -a, TransactionType := "sale", ChangeAt := now } := by
  unfold NewInventoryTransaction at h
  split at h
  · cases h
  · split at h
    · cases h
    · simp at h
      rw [← h]

theorem UpdateInventoryForSale_loop_frame (q : GoMap ℚ) : ∀ (tx : Tx) (w : World),
    (UpdateInventoryForSale.loop q tx w).2.2.tables = w.tables ∧
    (UpdateInventoryForSale.loop q tx w).2.2.now = w.now ∧
    (UpdateInventoryForSale.loop q tx w).2.2.orderSeq = w.orderSeq ∧
    (UpdateInventoryForSale.loop q tx w).2.2.customerSeq = w.customerSeq := by
  induction q with
  | nil => intro tx w; simp [UpdateInventoryForSale.loop]
  | cons e rest ih =>
    intro tx w
    obtain ⟨k, a⟩ := e
    have hE := Exec_frame tx w (updateInventoryQuery a k w.now)
    rcases hx : tx.Exec w (updateInventoryQuery a k w.now) with ⟨r, tx1, w1⟩
    rw [hx] at hE
    simp only at hE
    simp only [UpdateInventoryForSale.loop, hx]
    cases r with
    | error err => simpa using hE
    | ok n =>
      simp only
      cases hT : NewInventoryTransaction k a "sale" w1.now with
      | error err => simpa using hE
      | ok tr =>
        simp only
        have hE2 := Exec_frame tx1 w1 (insertTransactionQuery tr)
        rcases hx2 : tx1.Exec w1 (insertTransactionQuery tr) with ⟨r2, tx2, w2⟩
        rw [hx2] at hE2
        simp only at hE2
        cases r2 with
        | error err => simp only; exact ⟨hE2.1.trans hE.1, hE2.2.1.trans hE.2.1,
            hE2.2.2.1.trans hE.2.2.1, hE2.2.2.2.trans hE.2.2.2⟩
        | ok n2 =>
          simp only
          have := ih tx2 w2
          exact ⟨this.1.trans (hE2.1.trans hE.1), this.2.1.trans (hE2.2.1.trans hE.2.1),
            this.2.2.1.trans (hE2.2.2.1.trans hE.2.2.1),
            this.2.2.2.trans (hE2.2.2.2.trans hE.2.2.2)⟩

theorem debitedInventory_cons (k : String) (a : ℚ) (rest : GoMap ℚ) (now : Nat)
    (inventory : List InventoryRow) (hk : k ∉ GoMap.keys rest) :
    debitedInventory rest now
      (inventory.map fun r =>
        if r.id = k then { r with stock := r.stock - a, last_updated := now } else r) =
    debitedInventory ((k, a) :: rest) now inventory := by
  unfold debitedInventory
  rw [List.map_map]
  apply List.map_congr_left
  intro r _
  by_cases hr : r.id = k
  · have h1 : GoMap.get? rest k = none := GoMap.get?_eq_none_of_not_mem_keys rest k hk
    simp [hr, GoMap.get?, h1]
  · have h2 : ¬ k = r.id := fun h => hr h.symm
    simp [hr, h2, GoMap.get?]

theorem UpdateInventoryForSale_loop_ok (q : GoMap ℚ) : ∀ (tx tx1 : Tx) (w w1 : World),
    (GoMap.keys q).Nodup → UpdateInventoryForSale.loop q tx w = (none, tx1, w1) →
    tx1.work = { tx.work with
      inventory := debitedInventory q w.now tx.work.inventory
      inventory_transactions := tx.work.inventory_transactions ++ saleLedgerRows q w.now } := by
  induction q with
  | nil =>
    intro tx tx1 w w1 _ h
    simp [UpdateInventoryForSale.loop] at h
    simp [debitedInventory, GoMap.get?, saleLedgerRows, ← h.1]
  | cons e rest ih =>
    intro tx tx1 w w1 hnd h
    obtain ⟨k, a⟩ := e
    simp only [GoMap.keys, List.map_cons, List.nodup_cons] at hnd
    have hE := Exec_frame tx w (updateInventoryQuery a k w.now)
    rcases hx : tx.Exec w (updateInventoryQuery a k w.now) with ⟨r, tx2, w2⟩
    rw [hx] at hE
    simp only at hE
    simp only [UpdateInventoryForSale.loop, hx] at h
    cases r with
    | error err => simp at h
    | ok n =>
      simp only at h
      have hw2 := Exec_ok tx tx2 w w2 _ n hx
      cases hT : NewInventoryTransaction k a "sale" w2.now with
      | error err => simp [hT] at h
      | ok tr =>
        simp only [hT] at h
        have htr := NewInventoryTransaction_sale k a w2.now tr hT
        have hE2 := Exec_frame tx2 w2 (insertTransactionQuery tr)
        rcases hx2 : tx2.Exec w2 (insertTransactionQuery tr) with ⟨r2, tx3, w3⟩
        rw [hx2] at hE2 h
        simp only at hE2
        cases r2 with
        | error err => simp at h
        | ok n2 =>
          simp only at h
          have hw3 := Exec_ok tx2 tx3 w2 w3 _ n2 hx2
          have := ih tx3 tx1 w3 w1 hnd.2 h
          rw [this, hw3, hw2, htr, hE2.2.1, hE.2.1]
          simp only [insertTransactionQuery, updateInventoryQuery, saleLedgerRows, List.map_cons,
            List.append_assoc, List.singleton_append]
          rw [debitedInventory_cons k a rest w.now tx.work.inventory hnd.1]

theorem UpdateInventoryForSale_frame (w : World) (q : GoMap ℚ) :
    (UpdateInventoryForSale w q).2.now = w.now ∧
    (UpdateInventoryForSale w q).2.orderSeq = w.orderSeq ∧
    (UpdateInventoryForSale w q).2.customerSeq = w.customerSeq := by
  have hB := Begin_frame w
  unfold UpdateInventoryForSale
  rcases hb : Begin w with ⟨r, w1⟩
  rw [hb] at hB
  simp only at hB
  cases r with
  | error err => exact hB.2
  | ok tx =>
    simp only
    have hL := UpdateInventoryForSale_loop_frame q tx w1
    rcases hl : UpdateInventoryForSale.loop q tx w1 with ⟨r2, tx2, w2⟩
    rw [hl] at hL
    simp only at hL
    cases r2 with
    | some err => exact ⟨hL.2.1.trans hB.2.1, hL.2.2.1.trans hB.2.2.1, hL.2.2.2.trans hB.2.2.2⟩
    | none =>
      simp only
      rcases hc : tx2.Commit w2 with ⟨r3, w3⟩
      cases r3 with
      | some err =>
        simp only
        unfold Tx.Commit at hc
        split at hc <;> simp at hc
        rw [← hc.2]
        exact ⟨hL.2.1.trans hB.2.1, hL.2.2.1.trans hB.2.2.1, hL.2.2.2.trans hB.2.2.2⟩
      | none =>
        simp only
        have := Commit_ok tx2 w2 w3 hc
        exact ⟨this.2.1.trans (hL.2.1.trans hB.2.1), this.2.2.1.trans (hL.2.2.1.trans hB.2.2.1),
          this.2.2.2.trans (hL.2.2.2.trans hB.2.2.2)⟩

theorem UpdateInventoryForSale_error_tables (w : World) (q : GoMap ℚ)
    (h : (UpdateInventoryForSale w q).1 ≠ none) :
    (UpdateInventoryForSale w q).2.tables = w.tables := by
  have hB := Begin_frame w
  unfold UpdateInventoryForSale at h ⊢
  rcases hb : Begin w with ⟨r, w1⟩
  rw [hb] at hB h
  simp only at hB h
  cases r with
  | error err => exact hB.1
  | ok tx =>
    simp only at h ⊢
    have hL := UpdateInventoryForSale_loop_frame q tx w1
    rcases hl : UpdateInventoryForSale.loop q tx w1 with ⟨r2, tx2, w2⟩
    rw [hl] at hL h
    simp only at hL h
    cases r2 with
    | some err => exact hL.1.trans hB.1
    | none =>
      simp only at h ⊢
      rcases hc : tx2.Commit w2 with ⟨r3, w3⟩
      rw [hc] at h
      cases r3 with
      | some err =>
        simp only
        exact (Commit_error tx2 w2 w3 err hc).1.trans (hL.1.trans hB.1)
      | none => simp at h

theorem UpdateInventoryForSale_ok_tables (w : World) (q : GoMap ℚ) (hq : (GoMap.keys q).Nodup)
    (h : (UpdateInventoryForSale w q).1 = none) :
    (UpdateInventoryForSale w q).2.tables = { w.tables with
      inventory := debitedInventory q w.now w.tables.inventory
      inventory_transactions := w.tables.inventory_transactions ++ saleLedgerRows q w.now } := by
  have hB := Begin_frame w
  unfold UpdateInventoryForSale at h ⊢
  rcases hb : Begin w with ⟨r, w1⟩
  rw [hb] at hB h
  simp only at hB h
  cases r with
  | error err => simp at h
  | ok tx =>
    simp only at h ⊢
    have hwork := Begin_work w w1 tx hb
    rcases hl : UpdateInventoryForSale.loop q tx w1 with ⟨r2, tx2, w2⟩
    rw [hl] at h
    cases r2 with
    | some err => simp at h
    | none =>
      simp only at h ⊢
      have hL := UpdateInventoryForSale_loop_ok q tx tx2 w1 w2 hq hl
      rcases hc : tx2.Commit w2 with ⟨r3, w3⟩
      rw [hc] at h
      cases r3 with
      | some err => simp at h
      | none =>
        simp only
        rw [(Commit_ok tx2 w2 w3 hc).1, hL, hwork, hB.2.1]

/-! ## Claims C2 and C3: the sale debit -/

/-- C2: when `UpdateInventoryForSale q` succeeds for a map `q`, every inventory row whose id is
a key of `q` has its stock lowered by `q[id]` and every other row is unchanged
(`debitedInventory`), the ledger has gained exactly one row per key of `q`, of type "sale" and
with change amount `-q[id]` (`saleLedgerRows`), and no other table has changed. -/
theorem UpdateInventoryForSale_debits_and_records (w : World) (q : GoMap ℚ)
    (hq : (GoMap.keys q).Nodup) (h : (UpdateInventoryForSale w q).1 = none) :
    (UpdateInventoryForSale w q).2.tables.inventory =
        debitedInventory q w.now w.tables.inventory ∧
    (UpdateInventoryForSale w q).2.tables.inventory_transactions =
        w.tables.inventory_transactions ++ saleLedgerRows q w.now ∧
    (UpdateInventoryForSale w q).2.tables =
      { w.tables with
        inventory := (UpdateInventoryForSale w q).2.tables.inventory
        inventory_transactions := (UpdateInventoryForSale w q).2.tables.inventory_transactions } := by
  have := UpdateInventoryForSale_ok_tables w q hq h
  rw [this]
  exact ⟨rfl, rfl, rfl⟩

/-- Witness for C2: a debit of 3/2 milk and 1 beans in the cafe. -/
theorem UpdateInventoryForSale_debits_and_records_witness :
    (UpdateInventoryForSale cafe [("milk", 3 / 2), ("beans", 1)]).2.tables.inventory =
        [⟨"milk", "Milk", 17 / 2, 2, "ml", 7⟩, ⟨"beans", "Beans", 4, 3, "g", 7⟩] ∧
    (UpdateInventoryForSale cafe [("milk", 3 / 2), ("beans", 1)]).2.tables.inventory_transactions =
        [⟨"milk", -3 / 2, "sale", 7⟩, ⟨"beans", -1, "sale", 7⟩] := by
  have h := UpdateInventoryForSale_debits_and_records cafe [("milk", 3 / 2), ("beans", 1)]
    (by decide) (by decide!)
  refine ⟨h.1.trans (by decide!), h.2.1.trans (by decide!)⟩

/-- C3: whenever `UpdateInventoryForSale` returns an error (a statement of the transaction
fails, `NewInventoryTransaction` rejects an amount, or the commit fails), the inventory rows,
the ledger rows and every other table are exactly what they were before the call. -/
theorem UpdateInventoryForSale_atomic (w : World) (q : GoMap ℚ) (err : GoError)
    (h : (UpdateInventoryForSale w q).1 = some err) :
    (UpdateInventoryForSale w q).2.tables.inventory = w.tables.inventory ∧
    (UpdateInventoryForSale w q).2.tables.inventory_transactions =
        w.tables.inventory_transactions ∧
    (UpdateInventoryForSale w q).2.tables = w.tables := by
  have := UpdateInventoryForSale_error_tables w q (by rw [h]; simp)
  rw [this]
  exact ⟨rfl, rfl, rfl⟩

/-- Witness for C3: the store fails on the debit of the second ingredient, after the first
ingredient has been debited and recorded inside the transaction. -/
theorem UpdateInventoryForSale_atomic_witness :
    (UpdateInventoryForSale cafeFourthFails [("milk", 1), ("beans", 1)]).1 = some .driver ∧
    (UpdateInventoryForSale cafeFourthFails [("milk", 1), ("beans", 1)]).2.tables =
      cafeFourthFails.tables :=
  ⟨by decide!,
   (UpdateInventoryForSale_atomic cafeFourthFails [("milk", 1), ("beans", 1)] .driver
      (by decide!)).2.2⟩

/-! ## Claim C4: the recipe resolver -/

theorem GoMap.get?_set {β : Type} (m : GoMap β) (k k1 : String) (v : β) :
    (m.set k v).get? k1 = if k = k1 then some v else m.get? k1 := by
  induction m with
  | nil => simp [GoMap.set, GoMap.get?]
  | cons e rest ih =>
    obtain ⟨k2, v2⟩ := e
    by_cases h2 : k2 = k
    · subst h2
      by_cases h1 : k2 = k1 <;> simp [GoMap.set, GoMap.get?, h1]
    · by_cases h1 : k2 = k1
      · subst h1
        have : ¬ k = k2 := fun h => h2 h.symm
        simp [GoMap.set, GoMap.get?, h2, this]
      · simp [GoMap.set, GoMap.get?, h2, h1, ih]

theorem GoMap.keys_set {β : Type} (m : GoMap β) (k : String) (v : β) :
    (m.set k v).keys = if k ∈ m.keys then m.keys else m.keys ++ [k] := by
  induction m with
  | nil => simp [GoMap.set, GoMap.keys]
  | cons e rest ih =>
    obtain ⟨k2, v2⟩ := e
    by_cases h2 : k2 = k
    · subst h2
      simp [GoMap.set, GoMap.keys]
    · have h3 : ¬ k = k2 := fun h => h2 h.symm
      simp only [GoMap.keys] at ih
      simp only [GoMap.set, h2, if_false, GoMap.keys, List.map_cons, List.mem_cons, h3,
        false_or, ih]
      split <;> simp

theorem GoMap.nodup_keys_set {β : Type} (m : GoMap β) (k : String) (v : β)
    (h : m.keys.Nodup) : (m.set k v).keys.Nodup := by
  rw [GoMap.keys_set]
  split
  · exact h
  · rename_i hk
    rw [List.nodup_append]
    refine ⟨h, List.nodup_singleton k, ?_⟩
    intro a ha hb
    simp only [List.mem_singleton] at hb
    subst hb
    exact hk ha

theorem GoMap.get?_isSome_iff {β : Type} (m : GoMap β) (k : String) :
    (m.get? k).isSome = true ↔ k ∈ m.keys := by
  induction m with
  | nil => simp [GoMap.get?, GoMap.keys]
  | cons e rest ih =>
    obtain ⟨k2, v2⟩ := e
    simp only [GoMap.keys] at ih
    by_cases h2 : k2 = k
    · simp [GoMap.get?, GoMap.keys, h2]
    · have h3 : ¬ k = k2 := fun h => h2 h.symm
      simp [GoMap.get?, GoMap.keys, h2, h3, ih]

theorem CalculateIngredientsForOrder.foldl_nodup (u : GoMap Int) (rows : List RecipeRow) :
    ∀ acc : GoMap ℚ, acc.keys.Nodup →
      (rows.foldl (CalculateIngredientsForOrder.step u) acc).keys.Nodup := by
  induction rows with
  | nil => intro acc h; exact h
  | cons r rest ih =>
    intro acc h
    simp only [List.foldl_cons]
    apply ih
    unfold CalculateIngredientsForOrder.step
    split
    · exact GoMap.nodup_keys_set _ _ _ h
    · exact h

theorem requiredAmount_eq_zero (rows : List RecipeRow) (u : GoMap Int) (ing : String)
    (h : ¬ ∃ r ∈ rows, r.ingredient_id = ing ∧ (u.get? r.menu_item_id).isSome = true) :
    requiredAmount rows u ing = 0 := by
  unfold requiredAmount
  have : (rows.filter fun r =>
      decide (r.ingredient_id = ing) && (u.get? r.menu_item_id).isSome) = [] := by
    rw [List.filter_eq_nil_iff]
    intro r hr hc
    simp only [Bool.and_eq_true, decide_eq_true_eq] at hc
    exact h ⟨r, hr, hc⟩
  rw [this]
  simp

theorem recipeTerms_eq_nil (rows : List RecipeRow) (u : GoMap Int) (ing : String)
    (h : ¬ ∃ r ∈ rows, r.ingredient_id = ing ∧ (u.get? r.menu_item_id).isSome = true) :
    recipeTerms rows u ing = [] := by
  unfold recipeTerms
  have : (rows.filter fun r =>
      decide (r.ingredient_id = ing) && (u.get? r.menu_item_id).isSome) = [] := by
    rw [List.filter_eq_nil_iff]
    intro r hr hc
    simp only [Bool.and_eq_true, decide_eq_true_eq] at hc
    exact h ⟨r, hr, hc⟩
  rw [this]
  rfl

theorem sum64_cons (x : ℚ) (n : Int) (rest : List (ℚ × Int)) (s : ℚ) :
    sum64 ((x, n) :: rest) s = sum64 rest (add64 s (mul64 x (float64OfInt n))) := rfl

theorem sum64_exact (terms : List (ℚ × Int)) : ∀ s : ℚ, exactSum64 terms s = true →
    sum64 terms s = s + (terms.map fun t => t.1 * (t.2 : ℚ)).sum := by
  induction terms with
  | nil => intro s _; simp [sum64]
  | cons t rest ih =>
    obtain ⟨x, n⟩ := t
    intro s h
    simp only [exactSum64, Bool.and_eq_true, decide_eq_true_eq] at h
    obtain ⟨⟨⟨⟨_, hn⟩, hm⟩, ha⟩, hrest⟩ := h
    rw [sum64_cons, hn, hm, ha, ih _ hrest]
    simp [add_assoc]

theorem CalculateIngredientsForOrder.foldl_get? (u : GoMap Int) (ing : String)
    (rows : List RecipeRow) : ∀ acc : GoMap ℚ,
    (rows.foldl (CalculateIngredientsForOrder.step u) acc).get? ing =
      if ∃ r ∈ rows, r.ingredient_id = ing ∧ (u.get? r.menu_item_id).isSome = true then
        some (sum64 (recipeTerms rows u ing) (acc.getD ing 0))
      else acc.get? ing := by
  induction rows with
  | nil => intro acc; simp
  | cons r rest ih =>
    intro acc
    simp only [List.foldl_cons]
    rw [ih]
    cases hu : u.get? r.menu_item_id with
    | none =>
      have hstep : CalculateIngredientsForOrder.step u acc r = acc := by
        simp [CalculateIngredientsForOrder.step, hu]
      have hterms : recipeTerms (r :: rest) u ing = recipeTerms rest u ing := by
        simp [recipeTerms, List.filter_cons, hu]
      rw [hstep, hterms]
      simp [hu]
    | some qty =>
      have hstep : CalculateIngredientsForOrder.step u acc r =
          acc.set r.ingredient_id
            (add64 (acc.getD r.ingredient_id 0)
              (mul64 (scanFloat64 r.quantity) (float64OfInt qty))) := by
        simp [CalculateIngredientsForOrder.step, hu]
      rw [hstep]
      by_cases hi : r.ingredient_id = ing
      · have hterms : recipeTerms (r :: rest) u ing =
            (scanFloat64 r.quantity, qty) :: recipeTerms rest u ing := by
          simp [recipeTerms, List.filter_cons, hu, hi, GoMap.getD]
        have hex : ∃ r1 ∈ r :: rest, r1.ingredient_id = ing ∧
            (u.get? r1.menu_item_id).isSome = true := ⟨r, List.mem_cons_self _ _, hi, by simp [hu]⟩
        rw [if_pos hex, hterms, sum64_cons]
        have hgetD : (acc.set r.ingredient_id
            (add64 (acc.getD r.ingredient_id 0)
              (mul64 (scanFloat64 r.quantity) (float64OfInt qty)))).getD ing 0 =
            add64 (acc.getD ing 0) (mul64 (scanFloat64 r.quantity) (float64OfInt qty)) := by
          simp [GoMap.getD, GoMap.get?_set, hi]
        split
        · rw [hgetD]
        · rename_i hne
          rw [recipeTerms_eq_nil rest u ing hne, GoMap.get?_set, if_pos hi]
          simp [sum64, hi, GoMap.getD]
      · have hterms : recipeTerms (r :: rest) u ing = recipeTerms rest u ing := by
          simp [recipeTerms, List.filter_cons, hi]
        have hget : (acc.set r.ingredient_id
            (add64 (acc.getD r.ingredient_id 0)
              (mul64 (scanFloat64 r.quantity) (float64OfInt qty)))).get? ing = acc.get? ing := by
          rw [GoMap.get?_set, if_neg hi]
        have hgetD : (acc.set r.ingredient_id
            (add64 (acc.getD r.ingredient_id 0)
              (mul64 (scanFloat64 r.quantity) (float64OfInt qty)))).getD ing 0 =
            acc.getD ing 0 := by
          unfold GoMap.getD
          rw [GoMap.get?_set, if_neg hi]
        rw [hterms, hget, hgetD]
        simp [hi]

theorem requiredAmount_filter (rows : List RecipeRow) (u : GoMap Int) (ing : String) :
    requiredAmount (rows.filter fun r => decide (r.menu_item_id ∈ GoMap.keys u)) u ing =
      requiredAmount rows u ing := by
  unfold requiredAmount
  rw [List.filter_filter]
  congr 2
  apply List.filter_congr
  intro r _
  by_cases hk : r.menu_item_id ∈ GoMap.keys u
  · simp [hk]
  · have : (u.get? r.menu_item_id).isSome = false := by
      rw [GoMap.get?_eq_none_of_not_mem_keys u _ hk]; rfl
    simp [hk, this]

theorem recipeTerms_filter (rows : List RecipeRow) (u : GoMap Int) (ing : String) :
    recipeTerms (rows.filter fun r => decide (r.menu_item_id ∈ GoMap.keys u)) u ing =
      recipeTerms rows u ing := by
  unfold recipeTerms
  rw [List.filter_filter]
  congr 1
  apply List.filter_congr
  intro r _
  by_cases hk : r.menu_item_id ∈ GoMap.keys u
  · simp [hk]
  · have : (u.get? r.menu_item_id).isSome = false := by
      rw [GoMap.get?_eq_none_of_not_mem_keys u _ hk]; rfl
    simp [hk, this]

theorem accumulatedAmount_exact (rows : List RecipeRow) (u : GoMap Int) (ing : String)
    (hscan : ∀ r ∈ rows, scanFloat64 r.quantity = r.quantity)
    (h : exactSum64 (recipeTerms rows u ing) 0 = true) :
    accumulatedAmount rows u ing = requiredAmount rows u ing := by
  unfold accumulatedAmount
  rw [sum64_exact _ 0 h, zero_add]
  unfold recipeTerms requiredAmount
  rw [List.map_map]
  congr 1
  apply List.map_congr_left
  intro r hr
  simp only [Function.comp]
  rw [hscan r (List.mem_filter.1 hr).1]

/-- C4, as the code has it: the amounts are accumulated in `float64`.  With the recipe row
(latte, 0.1 milk) and 3 units of latte the map holds 0.30000000000000004 for milk (the
`float64` product of the scanned 0.1 and 3), which is neither 0.1 × 3 = 3/10 nor three times
the scanned quantity; and the same three recipe rows give 9007199254740992 when the store
returns the large one first and 9007199254740994 when it returns it last. -/
theorem CalculateIngredientsForOrder_rounds :
    (CalculateIngredientsForOrder cafeTenth [("latte", 3)]).1 =
      .ok [("milk", 1351079888211149 / 4503599627370496)] ∧
    requiredAmount cafeTenth.tables.menu_item_ingredients [("latte", 3)] "milk" = 3 / 10 ∧
    scanFloat64 (1 / 10) * 3 = 10808639105689191 / 36028797018963968 ∧
    (1351079888211149 / 4503599627370496 : ℚ) ≠ 3 / 10 ∧
    (1351079888211149 / 4503599627370496 : ℚ) ≠ 10808639105689191 / 36028797018963968 ∧
    (CalculateIngredientsForOrder cafeLargeFirst [("latte", 1)]).1 =
      .ok [("milk", 9007199254740992)] ∧
    (CalculateIngredientsForOrder cafeLargeLast [("latte", 1)]).1 =
      .ok [("milk", 9007199254740994)] ∧
    cafeLargeLast.tables.menu_item_ingredients.Perm
      cafeLargeFirst.tables.menu_item_ingredients := by
  refine ⟨by decide!, by decide!, by decide!, by decide!, by decide!, by decide!, by decide!,
    ?_⟩
  decide

/-- C4, amended: when the store answers the recipe query, `CalculateIngredientsForOrder u`
returns a map (no repeated key) whose value at each ingredient id is, as long as the
amounts stay within the finite `float64` values, the `float64` accumulation, over the
recipe rows for that ingredient whose menu item id is a key of `u` and in the order in
which the store returns them, of row quantity × `u[menu item id]` (`accumulatedAmount`:
every product and every partial sum rounded to `float64`); that value is the exact sum
`requiredAmount` when the stored quantities are `float64` values and no step rounds; an
ingredient without such a row is absent; when no recipe row belongs to a key of `u` (`u`
empty or made of unknown product ids) the map is empty; nothing is written. -/
theorem CalculateIngredientsForOrder_sums (w : World) (u : GoMap Int) (h : w.fails = false) :
    ∃ m : GoMap ℚ, (CalculateIngredientsForOrder w u).1 = .ok m ∧ m.keys.Nodup ∧
      (∀ ing : String,
        finiteSum64 (recipeTerms w.tables.menu_item_ingredients u ing) 0 = true →
        m.get? ing =
          if ∃ r ∈ w.tables.menu_item_ingredients,
              r.ingredient_id = ing ∧ r.menu_item_id ∈ GoMap.keys u then
            some (accumulatedAmount w.tables.menu_item_ingredients u ing)
          else none) ∧
      (∀ ing : String,
        (∀ r ∈ w.tables.menu_item_ingredients, scanFloat64 r.quantity = r.quantity) →
        exactSum64 (recipeTerms w.tables.menu_item_ingredients u ing) 0 = true →
        accumulatedAmount w.tables.menu_item_ingredients u ing =
          requiredAmount w.tables.menu_item_ingredients u ing) ∧
      (∀ ing : String, (∀ r ∈ w.tables.menu_item_ingredients,
          ¬(r.ingredient_id = ing ∧ r.menu_item_id ∈ GoMap.keys u)) → m.get? ing = none) ∧
      ((∀ r ∈ w.tables.menu_item_ingredients, r.menu_item_id ∉ GoMap.keys u) → m = []) ∧
      (CalculateIngredientsForOrder w u).2.tables = w.tables := by
  refine ⟨(w.tables.menu_item_ingredients.filter fun r =>
      decide (r.menu_item_id ∈ GoMap.keys u)).foldl (CalculateIngredientsForOrder.step u) [],
    ?_, ?_, ?_, ?_, ?_, ?_, ?_⟩
  · simp [CalculateIngredientsForOrder, dbQuery, h]
  · exact CalculateIngredientsForOrder.foldl_nodup u _ [] (by simp [GoMap.keys])
  · intro ing _
    rw [CalculateIngredientsForOrder.foldl_get?, recipeTerms_filter]
    have hiff : (∃ r ∈ w.tables.menu_item_ingredients.filter fun r =>
          decide (r.menu_item_id ∈ GoMap.keys u),
          r.ingredient_id = ing ∧ (u.get? r.menu_item_id).isSome = true) ↔
        (∃ r ∈ w.tables.menu_item_ingredients,
          r.ingredient_id = ing ∧ r.menu_item_id ∈ GoMap.keys u) := by
      constructor
      · rintro ⟨r, hr, hi, _⟩
        simp only [List.mem_filter, decide_eq_true_eq] at hr
        exact ⟨r, hr.1, hi, hr.2⟩
      · rintro ⟨r, hr, hi, hk⟩
        refine ⟨r, ?_, hi, (GoMap.get?_isSome_iff u _).2 hk⟩
        simp only [List.mem_filter, decide_eq_true_eq]
        exact ⟨hr, hk⟩
    by_cases hex : ∃ r ∈ w.tables.menu_item_ingredients,
        r.ingredient_id = ing ∧ r.menu_item_id ∈ GoMap.keys u
    · rw [if_pos (hiff.2 hex), if_pos hex]
      simp [GoMap.getD, GoMap.get?, accumulatedAmount]
    · rw [if_neg (fun hc => hex (hiff.1 hc)), if_neg hex]
      rfl
  · intro ing hscan hexact
    exact accumulatedAmount_exact _ u ing hscan hexact
  · intro ing hnone
    rw [CalculateIngredientsForOrder.foldl_get?, if_neg]
    · rfl
    · rintro ⟨r, hr, hi, hk⟩
      simp only [List.mem_filter, decide_eq_true_eq] at hr
      exact hnone r hr.1 ⟨hi, hr.2⟩
  · intro hnone
    have : (w.tables.menu_item_ingredients.filter fun r =>
        decide (r.menu_item_id ∈ GoMap.keys u)) = [] := by
      rw [List.filter_eq_nil_iff]
      intro r hr hc
      simp only [decide_eq_true_eq] at hc
      exact hnone r hr hc
    rw [this]
    rfl
  · simp [CalculateIngredientsForOrder, dbQuery, h]

/-- Witness for C4: two lattes in the cafe need 4 milk and 2 beans, and no step rounds. -/
theorem CalculateIngredientsForOrder_sums_witness :
    ∃ m : GoMap ℚ, (CalculateIngredientsForOrder cafe [("latte", 2)]).1 = .ok m ∧
      m.get? "milk" = some 4 ∧ m.get? "beans" = some 2 ∧ m.get? "sugar" = none ∧
      accumulatedAmount cafe.tables.menu_item_ingredients [("latte", 2)] "milk" =
        requiredAmount cafe.tables.menu_item_ingredients [("latte", 2)] "milk" := by
  obtain ⟨m, h1, _, h3, h4, h5, _, _⟩ :=
    CalculateIngredientsForOrder_sums cafe [("latte", 2)] (by decide)
  refine ⟨m, h1, ?_, ?_, ?_, h4 "milk" (by decide!) (by decide!)⟩
  · rw [h3 "milk" (by decide!)]; decide!
  · rw [h3 "beans" (by decide!)]; decide!
  · exact h5 "sugar" (by decide)

/-! ## Claim C1: the order total and the frozen prices -/

theorem NewOrderItems_loop_spec (prices : GoMap ℚ) (items : List OrderItemInput) :
    ∀ (acc r : List OrderItem), NewOrderItems.loop prices items acc = .ok r →
      ∃ new : List OrderItem, r = acc ++ new ∧
        (∀ it ∈ new, prices.get? it.MenuItemID = some it.Price) ∧
        new.map (fun it => it.MenuItemID) = items.map (fun item => item.ProductID) ∧
        new.map (fun it => it.Quantity) = items.map (fun item => item.Quantity) ∧
        ∀ t0 t : ℚ, validateOrder.total prices items t0 = .ok t →
          t = sum64 (orderTerms new) t0 := by
  induction items with
  | nil =>
    intro acc r h
    simp only [NewOrderItems.loop, Except.ok.injEq] at h
    refine ⟨[], by simp [h], by simp, rfl, rfl, ?_⟩
    intro t0 t ht
    simp only [validateOrder.total, Except.ok.injEq] at ht
    simp [ht, sum64, orderTerms]
  | cons item rest ih =>
    intro acc r h
    unfold NewOrderItems.loop at h
    cases hp : prices.get? item.ProductID with
    | none => simp [hp] at h
    | some price =>
      simp only [hp] at h
      obtain ⟨new, hr, hprice, hids, hqs, htot⟩ := ih _ r h
      refine ⟨{ ID := "", OrderID := 0, MenuItemID := item.ProductID,
                Quantity := item.Quantity, Price := price } :: new, ?_, ?_, ?_, ?_, ?_⟩
      · rw [hr]; simp
      · intro it hit
        rcases List.mem_cons.1 hit with h1 | h1
        · subst h1; exact hp
        · exact hprice it h1
      · simp [hids]
      · simp [hqs]
      · intro t0 t ht
        unfold validateOrder.total at ht
        simp only [hp] at ht
        rw [htot _ t ht]
        rfl

theorem validateOrder_ok (w : World) (req : CreateOrderRequest) (prices : GoMap ℚ) (total : ℚ)
    (h : (validateOrder w req).1 = .ok (prices, total)) :
    (GetMenuItemsAndPrice w (req.Items.map fun item => item.ProductID)).1 = .ok prices ∧
    validateOrder.total prices req.Items 0 = .ok total := by
  unfold validateOrder at h
  simp only at h
  rcases hg : GetMenuItemsAndPrice w (req.Items.map fun item => item.ProductID) with ⟨r, w1⟩
  rw [hg] at h
  cases r with
  | error err => simp at h
  | ok menuItems =>
    simp only at h
    cases ht : validateOrder.total menuItems req.Items 0 with
    | error err => simp [ht] at h
    | ok totalAmount =>
      simp only [ht] at h
      rcases hc : CalculateIngredientsForOrder w1 (validateOrder.quantities req.Items) with ⟨r2, w2⟩
      rw [hc] at h
      cases r2 with
      | error err => simp at h
      | ok ing =>
        simp only at h
        rcases hu : UpdateInventoryForSale w2 ing with ⟨r3, w3⟩
        rw [hu] at h
        cases r3 with
        | some err => simp at h
        | none =>
          simp only [Except.ok.injEq, Prod.mk.injEq] at h
          obtain ⟨h1, h2⟩ := h
          subst h1 h2
          exact ⟨by rw [hg], ht⟩

theorem createObject_ok (w : World) (req : CreateOrderRequest) (order : Order)
    (items : List OrderItem) (h : (createObject w req).1 = .ok (order, items)) :
    ∃ (prices : GoMap ℚ) (total : ℚ) (customerId : Int) (now : Nat),
      (validateOrder w req).1 = .ok (prices, total) ∧
      NewOrder customerId total req now = .ok order ∧
      NewOrderItems req.Items prices = .ok items := by
  unfold createObject at h
  rcases hv : validateOrder w req with ⟨r, w1⟩
  rw [hv] at h
  cases r with
  | error err => simp at h
  | ok pt =>
    obtain ⟨prices, total⟩ := pt
    simp only at h
    rcases hi : IndentCustomerID w1 req.CustomerName req.Instructions with ⟨r2, w2⟩
    rw [hi] at h
    cases r2 with
    | error err => simp at h
    | ok customerId =>
      simp only at h
      cases hn : NewOrder customerId total req w2.now with
      | error err => simp [hn] at h
      | ok order1 =>
        simp only [hn] at h
        cases hit : NewOrderItems req.Items prices with
        | error err => simp [hit] at h
        | ok items1 =>
          simp only [hit, Except.ok.injEq, Prod.mk.injEq] at h
          obtain ⟨h1, h2⟩ := h
          subst h1 h2
          exact ⟨prices, total, customerId, w2.now, rfl, hn, hit⟩

theorem NewOrder_ok (customerID : Int) (totalAmount : ℚ) (dto : CreateOrderRequest) (now : Nat)
    (order : Order) (h : NewOrder customerID totalAmount dto now = .ok order) :
    order.TotalAmount = totalAmount ∧ order.Status = "open" ∧ order.CustomerID = customerID := by
  unfold NewOrder at h
  split at h
  · cases h
  · split at h
    · cases h
    · simp only [Except.ok.injEq] at h
      subst h
      exact ⟨rfl, rfl, rfl⟩

/-- C1, as the code has it: the total is accumulated in `float64`.  With the latte priced
at 0.1, an order of three lattes gets the total 0.30000000000000004 (the `float64` product
of the scanned price and 3), while the sum over the returned items of price × quantity is
three times the scanned price, a different number (and not a `float64`). -/
theorem createObject_total_rounds :
    (createObject cafeTenth ⟨"Ann", "card", [⟨"latte", 3⟩], none⟩).1 =
      .ok (⟨0, 1, 1351079888211149 / 4503599627370496, "open",
            some "\x7b\"special_request\":\"no\"\x7d", "card", 7, 7⟩,
           [⟨"", 0, 3, 3602879701896397 / 36028797018963968, "latte"⟩]) ∧
    ([(⟨"", 0, 3, 3602879701896397 / 36028797018963968, "latte"⟩ : OrderItem)].map
      fun it => it.Price * (it.Quantity : ℚ)).sum = 10808639105689191 / 36028797018963968 ∧
    (1351079888211149 / 4503599627370496 : ℚ) ≠ 10808639105689191 / 36028797018963968 ∧
    round64 (10808639105689191 / 36028797018963968) ≠ 10808639105689191 / 36028797018963968 := by
  decide!

/-- C1, amended: whenever `createObject` succeeds, the total of the returned order is, as
long as the amounts stay within the finite `float64` values, the `float64` accumulation,
over the returned order items in order, of price × quantity (`sum64`: every product and
every partial sum rounded to `float64`), which is the exact sum when no step rounds; every
returned item carries the price that the menu lookup of that call (`GetMenuItemsAndPrice`
on the product ids of the request) returned for its product id, and the returned items are
the lines of the request, in order. -/
theorem createObject_total_and_prices (w : World) (req : CreateOrderRequest) (order : Order)
    (items : List OrderItem) (h : (createObject w req).1 = .ok (order, items)) :
    (finiteSum64 (orderTerms items) 0 = true →
      order.TotalAmount = sum64 (orderTerms items) 0 ∧
      (exactSum64 (orderTerms items) 0 = true →
        order.TotalAmount = (items.map fun it => it.Price * (it.Quantity : ℚ)).sum)) ∧
    (∃ menuItems : GoMap ℚ,
      (GetMenuItemsAndPrice w (req.Items.map fun item => item.ProductID)).1 = .ok menuItems ∧
      ∀ it ∈ items, menuItems.get? it.MenuItemID = some it.Price) ∧
    items.map (fun it => it.MenuItemID) = req.Items.map (fun item => item.ProductID) ∧
    items.map (fun it => it.Quantity) = req.Items.map (fun item => item.Quantity) := by
  obtain ⟨prices, total, customerId, now, hv, hn, hit⟩ := createObject_ok w req order items h
  obtain ⟨hg, ht⟩ := validateOrder_ok w req prices total hv
  unfold NewOrderItems at hit
  split at hit
  · cases hit
  · obtain ⟨new, hr, hprice, hids, hqs, htot⟩ := NewOrderItems_loop_spec prices req.Items [] items hit
    simp only [List.nil_append] at hr
    subst hr
    have htotal : order.TotalAmount = sum64 (orderTerms items) 0 := by
      rw [(NewOrder_ok customerId total req now order hn).1, htot 0 total ht]
    refine ⟨fun _ => ⟨htotal, ?_⟩, ⟨prices, hg, hprice⟩, hids, hqs⟩
    intro hexact
    rw [htotal, sum64_exact _ 0 hexact, zero_add]
    unfold orderTerms
    rw [List.map_map]
    rfl

/-- Witness for C1: Ann orders two lattes and one more latte in the cafe; no step rounds. -/
theorem createObject_total_and_prices_witness :
    (createObject cafe ⟨"Ann", "card", [⟨"latte", 2⟩, ⟨"latte", 1⟩], none⟩).1 =
      .ok (⟨0, 1, 15 / 2, "open", some "\x7b\"special_request\":\"no\"\x7d", "card", 7, 7⟩,
           [⟨"", 0, 2, 5 / 2, "latte"⟩, ⟨"", 0, 1, 5 / 2, "latte"⟩]) ∧
    (15 / 2 : ℚ) =
      sum64 (orderTerms [⟨"", 0, 2, 5 / 2, "latte"⟩, ⟨"", 0, 1, 5 / 2, "latte"⟩]) 0 ∧
    (15 / 2 : ℚ) = ([(⟨"", 0, 2, 5 / 2, "latte"⟩ : OrderItem), ⟨"", 0, 1, 5 / 2, "latte"⟩].map
      fun it => it.Price * (it.Quantity : ℚ)).sum :=
  ⟨by decide!,
   ((createObject_total_and_prices cafe ⟨"Ann", "card", [⟨"latte", 2⟩, ⟨"latte", 1⟩], none⟩
      ⟨0, 1, 15 / 2, "open", some "\x7b\"special_request\":\"no\"\x7d", "card", 7, 7⟩
      [⟨"", 0, 2, 5 / 2, "latte"⟩, ⟨"", 0, 1, 5 / 2, "latte"⟩] (by decide!)).1
      (by decide!)).1,
   ((createObject_total_and_prices cafe ⟨"Ann", "card", [⟨"latte", 2⟩, ⟨"latte", 1⟩], none⟩
      ⟨0, 1, 15 / 2, "open", some "\x7b\"special_request\":\"no\"\x7d", "card", 7, 7⟩
      [⟨"", 0, 2, 5 / 2, "latte"⟩, ⟨"", 0, 1, 5 / 2, "latte"⟩] (by decide!)).1
      (by decide!)).2 (by decide!)⟩

/-! ## What the steps of `createObject` leave untouched -/

theorem SameOrders.refl (w : World) : SameOrders w w := ⟨rfl, rfl, rfl, rfl⟩

theorem SameOrders.trans {w w1 w2 : World} (h1 : SameOrders w w1) (h2 : SameOrders w1 w2) :
    SameOrders w w2 :=
  ⟨h2.1.trans h1.1, h2.2.1.trans h1.2.1, h2.2.2.1.trans h1.2.2.1, h2.2.2.2.trans h1.2.2.2⟩

theorem SameOrders.of_tables {w w1 : World} (ht : w1.tables = w.tables)
    (hs : w1.orderSeq = w.orderSeq) (hn : w1.now = w.now) : SameOrders w w1 :=
  ⟨by rw [ht], by rw [ht], hs, hn⟩

theorem GetMenuItemsAndPrice_world (w : World) (ids : List String) :
    (GetMenuItemsAndPrice w ids).2 = w.next := by
  unfold GetMenuItemsAndPrice dbQuery
  cases hf : w.fails <;> simp

theorem CalculateIngredientsForOrder_world (w : World) (u : GoMap Int) :
    (CalculateIngredientsForOrder w u).2 = w.next := by
  unfold CalculateIngredientsForOrder dbQuery
  cases hf : w.fails <;> simp

theorem dbQueryRow_world {α : Type} (w : World) (q : Tables → Option α) :
    (dbQueryRow w q).2 = w.next := by
  unfold dbQueryRow
  cases hf : w.fails
  · cases hq : q w.tables <;> simp
  · simp

theorem insertCustomer_sameOrders (w : World) (c : Customer) :
    SameOrders w (insertCustomer w c).2 ∧
    (insertCustomer w c).2.tables.inventory = w.tables.inventory ∧
    (insertCustomer w c).2.tables.inventory_transactions = w.tables.inventory_transactions := by
  unfold insertCustomer
  cases hf : w.fails <;> exact ⟨⟨rfl, rfl, rfl, rfl⟩, rfl, rfl⟩

theorem UpdateInventoryForSale_loop_work (q : GoMap ℚ) : ∀ (tx : Tx) (w : World),
    (UpdateInventoryForSale.loop q tx w).2.1.work.orders = tx.work.orders ∧
    (UpdateInventoryForSale.loop q tx w).2.1.work.order_items = tx.work.order_items ∧
    (UpdateInventoryForSale.loop q tx w).2.1.work.customers = tx.work.customers := by
  induction q with
  | nil => intro tx w; simp [UpdateInventoryForSale.loop]
  | cons e rest ih =>
    intro tx w
    obtain ⟨k, a⟩ := e
    rcases hx : tx.Exec w (updateInventoryQuery a k w.now) with ⟨r, tx1, w1⟩
    simp only [UpdateInventoryForSale.loop, hx]
    cases r with
    | error err =>
      rw [(Exec_error tx tx1 w w1 _ err hx).1]
      exact ⟨rfl, rfl, rfl⟩
    | ok n =>
      have h1 := Exec_ok tx tx1 w w1 _ n hx
      have h1o : tx1.work.orders = tx.work.orders ∧ tx1.work.order_items = tx.work.order_items ∧
          tx1.work.customers = tx.work.customers := by
        rw [h1]; exact ⟨rfl, rfl, rfl⟩
      simp only
      cases hT : NewInventoryTransaction k a "sale" w1.now with
      | error err => exact h1o
      | ok tr =>
        simp only
        rcases hx2 : tx1.Exec w1 (insertTransactionQuery tr) with ⟨r2, tx2, w2⟩
        cases r2 with
        | error err =>
          simp only
          rw [(Exec_error tx1 tx2 w1 w2 _ err hx2).1]
          exact h1o
        | ok n2 =>
          simp only
          have h2 := Exec_ok tx1 tx2 w1 w2 _ n2 hx2
          have h2o : tx2.work.orders = tx1.work.orders ∧
              tx2.work.order_items = tx1.work.order_items ∧
              tx2.work.customers = tx1.work.customers := by
            rw [h2]; exact ⟨rfl, rfl, rfl⟩
          have := ih tx2 w2
          exact ⟨this.1.trans (h2o.1.trans h1o.1), this.2.1.trans (h2o.2.1.trans h1o.2.1),
            this.2.2.trans (h2o.2.2.trans h1o.2.2)⟩

theorem UpdateInventoryForSale_sameOrders (w : World) (q : GoMap ℚ) :
    SameOrders w (UpdateInventoryForSale w q).2 ∧
    (UpdateInventoryForSale w q).2.tables.customers = w.tables.customers := by
  have hF := UpdateInventoryForSale_frame w q
  cases hr : (UpdateInventoryForSale w q).1 with
  | some err =>
    have ht := UpdateInventoryForSale_error_tables w q (by rw [hr]; simp)
    exact ⟨SameOrders.of_tables ht hF.2.1 hF.1, by rw [ht]⟩
  | none =>
    have hB := Begin_frame w
    unfold UpdateInventoryForSale at hr ⊢
    rcases hb : Begin w with ⟨r, w1⟩
    rw [hb] at hB hr
    simp only at hB hr
    cases r with
    | error err => simp at hr
    | ok tx =>
      simp only at hr ⊢
      have hwork := Begin_work w w1 tx hb
      have hW := UpdateInventoryForSale_loop_work q tx w1
      have hL := UpdateInventoryForSale_loop_frame q tx w1
      rcases hl : UpdateInventoryForSale.loop q tx w1 with ⟨r2, tx2, w2⟩
      rw [hl] at hr hW hL
      simp only at hW hL
      cases r2 with
      | some err => simp at hr
      | none =>
        simp only at hr ⊢
        rcases hc : tx2.Commit w2 with ⟨r3, w3⟩
        rw [hc] at hr
        cases r3 with
        | some err => simp at hr
        | none =>
          simp only
          have hC := Commit_ok tx2 w2 w3 hc
          rw [hwork] at hW
          exact ⟨⟨by rw [hC.1]; exact hW.1, by rw [hC.1]; exact hW.2.1,
            hC.2.2.1.trans (hL.2.2.1.trans hB.2.2.1), hC.2.1.trans (hL.2.1.trans hB.2.1)⟩,
            by rw [hC.1]; exact hW.2.2⟩

theorem IndentCustomerID_sameOrders (w : World) (name : String) (instr : Option String) :
    SameOrders w (IndentCustomerID w name instr).2 ∧
    (IndentCustomerID w name instr).2.tables.inventory = w.tables.inventory ∧
    (IndentCustomerID w name instr).2.tables.inventory_transactions =
      w.tables.inventory_transactions := by
  unfold IndentCustomerID
  split
  · rename_i customerID w1 heq
    have hQ := dbQueryRow_world w (fun t =>
      (t.customers.find? fun c => decide (c.name = name)).map fun c => c.id)
    rw [heq] at hQ
    simp only at hQ
    subst hQ
    exact ⟨⟨rfl, rfl, rfl, rfl⟩, rfl, rfl⟩
  · rename_i err w1 heq
    have hQ := dbQueryRow_world w (fun t =>
      (t.customers.find? fun c => decide (c.name = name)).map fun c => c.id)
    rw [heq] at hQ
    simp only at hQ
    subst hQ
    split
    · cases hc : NewCustomer name instr with
      | error e => exact ⟨⟨rfl, rfl, rfl, rfl⟩, rfl, rfl⟩
      | ok customer =>
        simp only
        have hI := insertCustomer_sameOrders w.next customer
        rcases hi : insertCustomer w.next customer with ⟨r2, w2⟩
        rw [hi] at hI
        cases r2 <;> exact hI
    · exact ⟨⟨rfl, rfl, rfl, rfl⟩, rfl, rfl⟩

theorem validateOrder_sameOrders (w : World) (req : CreateOrderRequest) :
    SameOrders w (validateOrder w req).2 := by
  have hG := GetMenuItemsAndPrice_world w (req.Items.map fun item => item.ProductID)
  unfold validateOrder
  simp only
  split
  · rename_i err w1 heq
    rw [heq] at hG
    simp only at hG
    subst hG
    exact ⟨rfl, rfl, rfl, rfl⟩
  · rename_i menuItems w1 heq
    rw [heq] at hG
    simp only at hG
    subst hG
    split
    · exact ⟨rfl, rfl, rfl, rfl⟩
    · have hC := CalculateIngredientsForOrder_world w.next (validateOrder.quantities req.Items)
      split
      · rename_i err w2 heq2
        rw [heq2] at hC
        simp only at hC
        subst hC
        exact ⟨rfl, rfl, rfl, rfl⟩
      · rename_i ing w2 heq2
        rw [heq2] at hC
        simp only at hC
        subst hC
        have hU := (UpdateInventoryForSale_sameOrders w.next.next ing).1
        split
        · rename_i err w3 heq3
          rw [heq3] at hU
          exact hU
        · rename_i w3 heq3
          rw [heq3] at hU
          exact hU

theorem validateOrder_error_tables (w : World) (req : CreateOrderRequest) (e : GoError)
    (h : (validateOrder w req).1 = .error e) : (validateOrder w req).2.tables = w.tables := by
  have hG := GetMenuItemsAndPrice_world w (req.Items.map fun item => item.ProductID)
  unfold validateOrder at h ⊢
  simp only at h ⊢
  split
  · rename_i err w1 heq
    rw [heq] at hG
    simp only at hG
    subst hG
    rfl
  · rename_i menuItems w1 heq
    rw [heq] at hG h
    simp only at hG h
    subst hG
    split
    · rfl
    · rename_i total htot
      rw [htot] at h
      simp only at h
      have hC := CalculateIngredientsForOrder_world w.next (validateOrder.quantities req.Items)
      split
      · rename_i err w2 heq2
        rw [heq2] at hC
        simp only at hC
        subst hC
        rfl
      · rename_i ing w2 heq2
        rw [heq2] at hC h
        simp only at hC h
        subst hC
        split
        · rename_i err w3 heq3
          have hU := UpdateInventoryForSale_error_tables w.next.next ing (by rw [heq3]; simp)
          rw [heq3] at hU
          exact hU
        · rename_i w3 heq3
          rw [heq3] at h
          simp at h

theorem createObject_sameOrders (w : World) (req : CreateOrderRequest) :
    SameOrders w (createObject w req).2 := by
  have hV := validateOrder_sameOrders w req
  unfold createObject
  split
  · rename_i err w1 heq
    rw [heq] at hV
    exact hV
  · rename_i prices total w1 heq
    rw [heq] at hV
    simp only at hV
    have hI := (IndentCustomerID_sameOrders w1 req.CustomerName req.Instructions).1
    split
    · rename_i err w2 heq2
      rw [heq2] at hI
      exact hV.trans hI
    · rename_i customerId w2 heq2
      rw [heq2] at hI
      have := hV.trans hI
      split
      · exact this
      · split <;> exact this

theorem createObject_error_of_validateOrder (w : World) (req : CreateOrderRequest) (e : GoError)
    (h : (validateOrder w req).1 = .error e) :
    (createObject w req).1 = .error e ∧ (createObject w req).2.tables = w.tables := by
  have ht := validateOrder_error_tables w req e h
  unfold createObject
  split
  · rename_i err w1 heq
    rw [heq] at h ht
    simp only [Except.error.injEq] at h
    subst h
    exact ⟨rfl, ht⟩
  · rename_i prices total w1 heq
    rw [heq] at h
    simp at h

/-! ## The order repository: frames -/

theorem insertOrder_frame (tx : Tx) (w : World) (order : Order) :
    (tx.insertOrder w order).2.2.tables = w.tables ∧ (tx.insertOrder w order).2.2.now = w.now ∧
    w.orderSeq ≤ (tx.insertOrder w order).2.2.orderSeq ∧
    (tx.insertOrder w order).2.1.work.order_items = tx.work.order_items := by
  unfold Tx.insertOrder
  cases hf : w.fails <;> simp

theorem insertOrderItems_frame (orderID : Int) (items : List OrderItem) : ∀ (tx : Tx) (w : World),
    (insertOrderItems orderID items tx w).2.2.tables = w.tables ∧
    (insertOrderItems orderID items tx w).2.2.now = w.now ∧
    (insertOrderItems orderID items tx w).2.2.orderSeq = w.orderSeq ∧
    (insertOrderItems orderID items tx w).2.1.work.orders = tx.work.orders := by
  induction items with
  | nil => intro tx w; simp [insertOrderItems]
  | cons item rest ih =>
    intro tx w
    have hE := Exec_frame tx w (itemQuery orderID item)
    rcases hx : tx.Exec w (itemQuery orderID item) with ⟨r, tx1, w1⟩
    rw [hx] at hE
    simp only at hE
    simp only [insertOrderItems, hx]
    cases r with
    | error err =>
      simp only
      rw [(Exec_error tx tx1 w w1 _ err hx).1]
      exact ⟨hE.1, hE.2.1, hE.2.2.1, rfl⟩
    | ok n =>
      simp only
      have h1 := Exec_ok tx tx1 w w1 _ n hx
      have := ih tx1 w1
      refine ⟨this.1.trans hE.1, this.2.1.trans hE.2.1, this.2.2.1.trans hE.2.2.1, ?_⟩
      rw [this.2.2.2, h1]
      rfl

theorem AddOrderRepository_error_tables (w : World) (order : Order) (items : List OrderItem)
    (h : (AddOrderRepository w order items).1 ≠ none) :
    (AddOrderRepository w order items).2.tables = w.tables := by
  have hB := Begin_frame w
  unfold AddOrderRepository at h ⊢
  rcases hb : Begin w with ⟨r, w1⟩
  rw [hb] at hB h
  simp only at hB h
  cases r with
  | error err => exact hB.1
  | ok tx =>
    simp only at h ⊢
    have hI := insertOrder_frame tx w1 order
    rcases hi : tx.insertOrder w1 order with ⟨r2, tx2, w2⟩
    rw [hi] at hI h
    simp only at hI h
    cases r2 with
    | error err => exact hI.1.trans hB.1
    | ok orderID =>
      simp only at h ⊢
      have hL := insertOrderItems_frame orderID items tx2 w2
      rcases hl : insertOrderItems orderID items tx2 w2 with ⟨r3, tx3, w3⟩
      rw [hl] at hL h
      simp only at hL h
      cases r3 with
      | some err => exact hL.1.trans (hI.1.trans hB.1)
      | none =>
        simp only at h ⊢
        rcases hc : tx3.Commit w3 with ⟨r4, w4⟩
        rw [hc] at h
        cases r4 with
        | some err => exact (Commit_error tx3 w3 w4 err hc).1.trans (hL.1.trans (hI.1.trans hB.1))
        | none => simp at h

theorem AddOrdersRepository_loop_frame (orders : List Order) :
    ∀ (orderItems : List (List OrderItem)) (tx : Tx) (w : World),
    (AddOrdersRepository.loop orders orderItems tx w).2.2.tables = w.tables ∧
    (AddOrdersRepository.loop orders orderItems tx w).2.2.now = w.now ∧
    w.orderSeq ≤ (AddOrdersRepository.loop orders orderItems tx w).2.2.orderSeq := by
  induction orders with
  | nil => intro orderItems tx w; simp [AddOrdersRepository.loop]
  | cons order rest ih =>
    intro orderItems tx w
    have hI := insertOrder_frame tx w order
    rcases hi : tx.insertOrder w order with ⟨r2, tx2, w2⟩
    rw [hi] at hI
    simp only at hI
    simp only [AddOrdersRepository.loop, hi]
    cases r2 with
    | error err => exact ⟨hI.1, hI.2.1, hI.2.2.1⟩
    | ok orderID =>
      simp only
      have hL := insertOrderItems_frame orderID (orderItems.headD []) tx2 w2
      rcases hl : insertOrderItems orderID (orderItems.headD []) tx2 w2 with ⟨r3, tx3, w3⟩
      rw [hl] at hL
      simp only at hL
      cases r3 with
      | some err =>
        exact ⟨hL.1.trans hI.1, hL.2.1.trans hI.2.1, by rw [hL.2.2.1]; exact hI.2.2.1⟩
      | none =>
        simp only
        have := ih orderItems.tail tx3 w3
        exact ⟨this.1.trans (hL.1.trans hI.1), this.2.1.trans (hL.2.1.trans hI.2.1),
          le_trans hI.2.2.1 (by rw [← hL.2.2.1]; exact this.2.2)⟩

theorem AddOrdersRepository_error_tables (w : World) (orders : List Order)
    (orderItems : List (List OrderItem)) (h : (AddOrdersRepository w orders orderItems).1 ≠ none) :
    (AddOrdersRepository w orders orderItems).2.tables = w.tables := by
  have hB := Begin_frame w
  unfold AddOrdersRepository at h ⊢
  rcases hb : Begin w with ⟨r, w1⟩
  rw [hb] at hB h
  simp only at hB h
  cases r with
  | error err => exact hB.1
  | ok tx =>
    simp only at h ⊢
    have hL := AddOrdersRepository_loop_frame orders orderItems tx w1
    rcases hl : AddOrdersRepository.loop orders orderItems tx w1 with ⟨r3, tx3, w3⟩
    rw [hl] at hL h
    simp only at hL h
    cases r3 with
    | some err => exact hL.1.trans hB.1
    | none =>
      simp only at h ⊢
      rcases hc : tx3.Commit w3 with ⟨r4, w4⟩
      rw [hc] at h
      cases r4 with
      | some err => exact (Commit_error tx3 w3 w4 err hc).1.trans (hL.1.trans hB.1)
      | none => simp at h

theorem AddOrdersService_loop_sameOrders (reqs : List CreateOrderRequest) :
    ∀ (orders : List Order) (lists : List (List OrderItem)) (w : World),
    SameOrders w (AddOrdersService.loop reqs orders lists w).2 := by
  induction reqs with
  | nil => intro orders lists w; exact SameOrders.refl w
  | cons req rest ih =>
    intro orders lists w
    have hC := createObject_sameOrders w req
    unfold AddOrdersService.loop
    split
    · rename_i err w1 heq
      rw [heq] at hC
      exact hC
    · rename_i order items w1 heq
      rw [heq] at hC
      exact hC.trans (ih _ _ w1)

/-! ## Claim C5: an unknown product id -/

theorem GetMenuItemsAndPrice.foldl_get?_none (k : String) (rows : List MenuItemRow) :
    ∀ acc : GoMap ℚ, acc.get? k = none → (∀ r ∈ rows, r.id ≠ k) →
      (rows.foldl (fun menuItems r => menuItems.set r.id (scanFloat64 r.price)) acc).get? k =
        none := by
  induction rows with
  | nil => intro acc h _; exact h
  | cons r rest ih =>
    intro acc h hr
    simp only [List.foldl_cons]
    apply ih
    · rw [GoMap.get?_set, if_neg (hr r (List.mem_cons_self _ _))]
      exact h
    · intro r1 h1
      exact hr r1 (List.mem_cons_of_mem _ h1)

theorem validateOrder.total_unknown (menuItems : GoMap ℚ) (item : OrderItemInput)
    (hitem : menuItems.get? item.ProductID = none) (items : List OrderItemInput) :
    ∀ t0 : ℚ, item ∈ items →
      ∃ msg : String, validateOrder.total menuItems items t0 = .error (.errorf msg) := by
  induction items with
  | nil => intro t0 h; cases h
  | cons i rest ih =>
    intro t0 h
    unfold validateOrder.total
    cases hp : menuItems.get? i.ProductID with
    | none => exact ⟨_, rfl⟩
    | some price =>
      simp only
      rcases List.mem_cons.1 h with h1 | h1
      · subst h1
        rw [hitem] at hp
        cases hp
      · exact ih _ h1

/-- Every request with a line whose product id has no menu item makes `validateOrder` fail,
when the store answers the menu query, with a plain `fmt.Errorf` error: it is not
`ErrNotExistConflict` under `errors.Is`, and `mapAppErrorToStatus` maps it to 500. -/
theorem validateOrder_unknown_product (w : World) (req : CreateOrderRequest)
    (item : OrderItemInput) (hitem : item ∈ req.Items)
    (hmenu : ∀ r ∈ w.tables.menu_items, r.id ≠ item.ProductID) (hf : w.fails = false) :
    ∃ msg : String, (validateOrder w req).1 = .error (.errorf msg) ∧
      errorsIs (.errorf msg) .ErrNotExistConflict = false ∧
      mapAppErrorToStatus (.errorf msg) = 500 := by
  have hget : (List.foldl (fun (menuItems : GoMap ℚ) (r : MenuItemRow) =>
        menuItems.set r.id (scanFloat64 r.price)) []
      (w.tables.menu_items.filter fun r =>
        decide (r.id ∈ req.Items.map fun item => item.ProductID))).get? item.ProductID = none := by
    apply GetMenuItemsAndPrice.foldl_get?_none
    · rfl
    · intro r hr
      exact hmenu r (List.mem_filter.1 hr).1
  obtain ⟨msg, hmsg⟩ := validateOrder.total_unknown _ item hget req.Items 0 hitem
  refine ⟨msg, ?_, ?_, ?_⟩
  · simp only [validateOrder, GetMenuItemsAndPrice, dbQuery, hf, Bool.false_eq_true, if_false, hmsg]
  · simp [errorsIs]
  · simp [mapAppErrorToStatus, errorsIs]

/-- C5 at a concrete request: in the cafe, an order for the unknown product "ghost" fails in
`validateOrder` with the error built by `fmt.Errorf`, which is not `ErrNotExistConflict`
under `errors.Is`; the create, update and batch handlers answer 500, not 404. -/
theorem validateOrder_unknown_product_is_500 :
    (validateOrder cafe ⟨"Ann", "card", [⟨"ghost", 1⟩], none⟩).1 =
      .error (.errorf "product with ID ghost not found in menu") ∧
    errorsIs (.errorf "product with ID ghost not found in menu") .ErrNotExistConflict = false ∧
    (CreateOrder cafe ⟨"Ann", "card", [⟨"ghost", 1⟩], none⟩).1 = 500 ∧
    (UpdateOrder cafe 1 ⟨"Ann", "card", [⟨"ghost", 1⟩], none⟩).1 = 500 ∧
    (BatchCreateOrders cafe [⟨"Ann", "card", [⟨"ghost", 1⟩], none⟩]).1 = 500 := by
  decide!

/-! ## Claims C6 and C10: what a failed order creation leaves behind -/

/-- C6 as stated fails: in the cafe, an order paid by "bitcoin" for a new customer fails with
`ErrInvalidInput` in `NewOrder`, after the sale debit has been committed and the customer
inserted. -/
theorem CreateOrderService_invalid_input_after_debit :
    (CreateOrderService cafe ⟨"Bob", "bitcoin", [⟨"latte", 2⟩], none⟩).1 =
      some .ErrInvalidInput ∧
    (CreateOrderService cafe ⟨"Bob", "bitcoin", [⟨"latte", 2⟩], none⟩).2.tables.inventory =
      [⟨"milk", "Milk", 6, 2, "ml", 7⟩, ⟨"beans", "Beans", 3, 3, "g", 7⟩] ∧
    (CreateOrderService cafe ⟨"Bob", "bitcoin", [⟨"latte", 2⟩], none⟩).2.tables.inventory ≠
      cafe.tables.inventory ∧
    (CreateOrderService cafe ⟨"Bob", "bitcoin", [⟨"latte", 2⟩], none⟩).2.tables.inventory_transactions =
      [⟨"milk", -4, "sale", 7⟩, ⟨"beans", -2, "sale", 7⟩] ∧
    (CreateOrderService cafe ⟨"Bob", "bitcoin", [⟨"latte", 2⟩], none⟩).2.tables.inventory_transactions ≠
      cafe.tables.inventory_transactions ∧
    (CreateOrderService cafe ⟨"Bob", "bitcoin", [⟨"latte", 2⟩], none⟩).2.tables.customers ≠
      cafe.tables.customers := by
  decide!

/-- C6, amended: whenever `CreateOrderService` fails, the `orders` and `order_items` tables are
what they were before the call; and when the failure is raised inside `validateOrder` (store
error, unknown product, `ErrInvalidInput` from the sale debit) every table is what it was. -/
theorem CreateOrderService_failure_keeps_orders (w : World) (req : CreateOrderRequest)
    (err : GoError) (h : (CreateOrderService w req).1 = some err) :
    (CreateOrderService w req).2.tables.orders = w.tables.orders ∧
    (CreateOrderService w req).2.tables.order_items = w.tables.order_items ∧
    (∀ e : GoError, (validateOrder w req).1 = .error e →
      (CreateOrderService w req).2.tables = w.tables) := by
  have hC := createObject_sameOrders w req
  refine ⟨?_, ?_, ?_⟩
  · unfold CreateOrderService at h ⊢
    split
    · rename_i e w1 heq
      rw [heq] at hC
      exact hC.1
    · rename_i order items w1 heq
      rw [heq] at hC h
      simp only at h hC
      have hA := AddOrderRepository_error_tables w1 order items
      split
      · rename_i e w2 heq2
        rw [heq2] at hA
        rw [hA (by simp)]
        exact hC.1
      · rename_i w2 heq2
        rw [heq2] at h
        simp at h
  · unfold CreateOrderService at h ⊢
    split
    · rename_i e w1 heq
      rw [heq] at hC
      exact hC.2.1
    · rename_i order items w1 heq
      rw [heq] at hC h
      simp only at h hC
      have hA := AddOrderRepository_error_tables w1 order items
      split
      · rename_i e w2 heq2
        rw [heq2] at hA
        rw [hA (by simp)]
        exact hC.2.1
      · rename_i w2 heq2
        rw [heq2] at h
        simp at h
  · intro e he
    obtain ⟨h1, h2⟩ := createObject_error_of_validateOrder w req e he
    unfold CreateOrderService
    split
    · rename_i e1 w1 heq
      rw [heq] at h2
      exact h2
    · rename_i order items w1 heq
      rw [heq] at h1
      simp at h1

/-- Witness for the amended C6: the "bitcoin" order of Bob in the cafe. -/
theorem CreateOrderService_failure_keeps_orders_witness :
    (CreateOrderService cafe ⟨"Bob", "bitcoin", [⟨"latte", 2⟩], none⟩).2.tables.orders =
      cafe.tables.orders ∧
    (CreateOrderService cafe ⟨"Bob", "bitcoin", [⟨"latte", 2⟩], none⟩).2.tables.order_items =
      cafe.tables.order_items :=
  ⟨(CreateOrderService_failure_keeps_orders cafe ⟨"Bob", "bitcoin", [⟨"latte", 2⟩], none⟩
      .ErrInvalidInput (by decide!)).1,
   (CreateOrderService_failure_keeps_orders cafe ⟨"Bob", "bitcoin", [⟨"latte", 2⟩], none⟩
      .ErrInvalidInput (by decide!)).2.1⟩

/-- C10: whenever `AddOrdersService` returns an error (a request fails validation or object
construction, or a statement of `AddOrdersRepository` fails), the `orders` table and the
`order_items` table are exactly what they were before the call. -/
theorem AddOrdersService_failure_keeps_orders (w : World) (reqs : List CreateOrderRequest)
    (err : GoError) (h : (AddOrdersService w reqs).1 = some err) :
    (AddOrdersService w reqs).2.tables.orders = w.tables.orders ∧
    (AddOrdersService w reqs).2.tables.order_items = w.tables.order_items := by
  have hL := AddOrdersService_loop_sameOrders reqs [] [] w
  unfold AddOrdersService at h ⊢
  split
  · rename_i e w1 heq
    rw [heq] at hL
    exact ⟨hL.1, hL.2.1⟩
  · rename_i orders lists w1 heq
    rw [heq] at hL h
    simp only at h hL
    have hA := AddOrdersRepository_error_tables w1 orders lists
    split
    · rename_i e w2 heq2
      rw [heq2] at hA
      rw [hA (by simp)]
      exact ⟨hL.1, hL.2.1⟩
    · rename_i w2 heq2
      rw [heq2] at h
      simp at h

/-- Witness for C10: a batch of three orders in the cafe whose third order names the unknown
product "ghost". -/
theorem AddOrdersService_failure_keeps_orders_witness :
    (AddOrdersService cafe [⟨"Ann", "card", [⟨"latte", 1⟩], none⟩,
        ⟨"Ann", "cash", [⟨"latte", 2⟩], none⟩, ⟨"Ann", "card", [⟨"ghost", 1⟩], none⟩]).1 =
      some (.errorf "product with ID ghost not found in menu") ∧
    (AddOrdersService cafe [⟨"Ann", "card", [⟨"latte", 1⟩], none⟩,
        ⟨"Ann", "cash", [⟨"latte", 2⟩], none⟩, ⟨"Ann", "card", [⟨"ghost", 1⟩], none⟩]).2.tables.orders =
      cafe.tables.orders :=
  ⟨by decide!,
   (AddOrdersService_failure_keeps_orders cafe _
      (.errorf "product with ID ghost not found in menu") (by decide!)).1⟩

/-! ## Claim C7: non-positive quantities -/

/-- The single-order handlers reject a request with a line of zero or negative quantity
before the service is called: status 400, world untouched. -/
theorem CreateOrder_rejects_nonpositive_quantity (w : World) (req : CreateOrderRequest)
    (item : OrderItemInput) (hitem : item ∈ req.Items) (hq : item.Quantity ≤ 0) :
    NewCreateOrder req = .error .ErrInvalidInput ∧ CreateOrder w req = (400, w) := by
  have hN : NewCreateOrder req = .error .ErrInvalidInput := by
    unfold NewCreateOrder
    split
    · rfl
    · rw [if_pos]
      rw [List.any_eq_true]
      exact ⟨item, hitem, by simp [hq]⟩
  refine ⟨hN, ?_⟩
  unfold CreateOrder
  rw [hN]

/-- C7 at a concrete request: in the cafe, a batch holding one order for -1 latte is accepted
(status 201): the order and its line of quantity -1 are persisted and the inventory is
credited, while the single-order handler rejects the same request with status 400. -/
theorem BatchCreateOrders_accepts_negative_quantity :
    (BatchCreateOrders cafe [⟨"Ann", "card", [⟨"latte", -1⟩], none⟩]).1 = 201 ∧
    (BatchCreateOrders cafe [⟨"Ann", "card", [⟨"latte", -1⟩], none⟩]).2.tables.orders =
      [⟨1, 1, -5 / 2, "open", some "\x7b\"special_request\":\"no\"\x7d", "card", 7, 7⟩] ∧
    (BatchCreateOrders cafe [⟨"Ann", "card", [⟨"latte", -1⟩], none⟩]).2.tables.order_items =
      [⟨1, -1, 5 / 2, "latte"⟩] ∧
    (BatchCreateOrders cafe [⟨"Ann", "card", [⟨"latte", -1⟩], none⟩]).2.tables.inventory =
      [⟨"milk", "Milk", 12, 2, "ml", 7⟩, ⟨"beans", "Beans", 6, 3, "g", 7⟩] ∧
    CreateOrder cafe ⟨"Ann", "card", [⟨"latte", -1⟩], none⟩ = (400, cafe) := by
  decide!

/-! ## Claim C8: closing an order twice -/

theorem fails_of_noFaults (w : World) (hf : ∀ b ∈ w.faults, b = false) :
    w.fails = false ∧ ∀ b ∈ w.next.faults, b = false := by
  unfold World.fails World.next
  cases hw : w.faults with
  | nil => simp
  | cons b rest =>
    rw [hw] at hf
    simp only [List.headD_cons, List.tail_cons]
    exact ⟨hf b (List.mem_cons_self _ _), fun c hc => hf c (List.mem_cons_of_mem _ hc)⟩

theorem find?_id_map (id : Int) (f : OrderRow → OrderRow) (hf : ∀ r, (f r).id = r.id)
    (orders : List OrderRow) :
    (orders.map f).find? (fun r => decide (r.id = id)) =
      (orders.find? fun r => decide (r.id = id)).map f := by
  induction orders with
  | nil => rfl
  | cons r rest ih =>
    by_cases h : r.id = id
    · simp [List.find?_cons, hf, h]
    · simp [List.find?_cons, hf, h, ih]

theorem CloseOrderRepository_of_open (w : World) (id : Int) (o : OrderRow)
    (hfind : w.tables.orders.find? (fun r => decide (r.id = id)) = some o)
    (hopen : o.status = "open") (hf0 : w.fails = false) (hf1 : w.next.fails = false) :
    CloseOrderRepository w id =
      (none, { w.next.next with tables := (queryUpdate id w.now w.tables).1 }) := by
  simp [CloseOrderRepository, dbQueryRow, dbExec, hf0, hf1, hfind, hopen]

theorem CloseOrderRepository_of_closed (w : World) (id : Int) (o : OrderRow)
    (hfind : w.tables.orders.find? (fun r => decide (r.id = id)) = some o)
    (hclosed : o.status = "close") (hf0 : w.fails = false) :
    CloseOrderRepository w id = (some .ErrOrderClosed, w.next) := by
  simp [CloseOrderRepository, dbQueryRow, hf0, hfind, hclosed]

/-- C8: for a stored order that is open and a store that does not fail, the first
`CloseOrderRepository(id)` succeeds and leaves that order with status "close"; a second
`CloseOrderRepository` on the same id fails with `ErrOrderClosed` and changes no table. -/
theorem CloseOrderRepository_twice (w : World) (id : Int) (o : OrderRow)
    (hfind : w.tables.orders.find? (fun r => decide (r.id = id)) = some o)
    (hopen : o.status = "open") (hf : ∀ b ∈ w.faults, b = false) :
    (CloseOrderRepository w id).1 = none ∧
    (CloseOrderRepository w id).2.tables.orders.find? (fun r => decide (r.id = id)) =
      some { o with status := "close", updated_at := w.now } ∧
    (CloseOrderRepository (CloseOrderRepository w id).2 id).1 = some .ErrOrderClosed ∧
    (CloseOrderRepository (CloseOrderRepository w id).2 id).2.tables =
      (CloseOrderRepository w id).2.tables := by
  obtain ⟨hf0, hf1⟩ := fails_of_noFaults w hf
  obtain ⟨hf1a, hf2⟩ := fails_of_noFaults w.next hf1
  obtain ⟨hf2a, _⟩ := fails_of_noFaults w.next.next hf2
  have hid : o.id = id := by
    have := List.find?_some hfind
    simpa using this
  have hfind2 : (queryUpdate id w.now w.tables).1.orders.find? (fun r => decide (r.id = id)) =
      some { o with status := "close", updated_at := w.now } := by
    simp only [queryUpdate]
    rw [find?_id_map id _ (by intro r; split <;> rfl), hfind]
    simp [hid, hopen]
  have h2 := CloseOrderRepository_of_closed
    ({ w.next.next with tables := (queryUpdate id w.now w.tables).1 } : World) id _ hfind2 rfl hf2a
  rw [CloseOrderRepository_of_open w id o hfind hopen hf0 hf1a]
  refine ⟨rfl, hfind2, ?_, ?_⟩
  · show (CloseOrderRepository
      ({ w.next.next with tables := (queryUpdate id w.now w.tables).1 } : World) id).1 = _
    rw [h2]
  · show (CloseOrderRepository
      ({ w.next.next with tables := (queryUpdate id w.now w.tables).1 } : World) id).2.tables = _
    rw [h2]
    rfl

/-- Witness for C8: the open order that Ann has just placed in the cafe. -/
theorem CloseOrderRepository_twice_witness :
    (CloseOrderRepository (CreateOrderService cafe ⟨"Ann", "card", [⟨"latte", 2⟩], none⟩).2 1).1
      = none ∧
    (CloseOrderRepository (CloseOrderRepository
      (CreateOrderService cafe ⟨"Ann", "card", [⟨"latte", 2⟩], none⟩).2 1).2 1).1 =
        some .ErrOrderClosed :=
  ⟨(CloseOrderRepository_twice (CreateOrderService cafe ⟨"Ann", "card", [⟨"latte", 2⟩], none⟩).2 1
      ⟨1, 1, 5, "open", some "\x7b\"special_request\":\"no\"\x7d", "card", 7, 7⟩
      (by decide!) (by decide) (by decide!)).1,
   (CloseOrderRepository_twice (CreateOrderService cafe ⟨"Ann", "card", [⟨"latte", 2⟩], none⟩).2 1
      ⟨1, 1, 5, "open", some "\x7b\"special_request\":\"no\"\x7d", "card", 7, 7⟩
      (by decide!) (by decide) (by decide!)).2.2.1⟩

/-! ## Claim C9: a closed order under the operations of the order service -/

theorem ClosedOrGone.mono {id : Int} {orders : List OrderRow} {s s1 : Int}
    (h : ClosedOrGone id orders s) (hs : s ≤ s1) : ClosedOrGone id orders s1 :=
  ⟨le_trans h.1 hs, h.2⟩

theorem insertOrder_closedInTx (id : Int) (tx : Tx) (w : World) (order : Order)
    (h : ClosedInTx id tx w) :
    ClosedInTx id (tx.insertOrder w order).2.1 (tx.insertOrder w order).2.2 := by
  unfold Tx.insertOrder
  cases hf : w.fails
  · simp only [Bool.false_eq_true, if_false]
    refine ⟨⟨?_, ?_⟩, ⟨?_, ?_⟩⟩
    · show id ≤ w.orderSeq + 1
      have := h.1.1
      omega
    · intro r hr hid
      rcases List.mem_append.1 hr with h1 | h1
      · exact h.1.2 r h1 hid
      · simp only [List.mem_singleton] at h1
        subst h1
        have := h.1.1
        simp only at hid
        omega
    · show id ≤ w.orderSeq + 1
      have := h.2.1
      omega
    · exact h.2.2
  · exact h

theorem Exec_closedInTx (id : Int) (tx : Tx) (w : World) (stmt : Tables → Tables × Nat)
    (hstmt : ∀ t : Tables, (∀ r ∈ t.orders, r.id = id → r.status = "close") →
      ∀ r ∈ (stmt t).1.orders, r.id = id → r.status = "close")
    (h : ClosedInTx id tx w) : ClosedInTx id (tx.Exec w stmt).2.1 (tx.Exec w stmt).2.2 := by
  unfold Tx.Exec
  cases hf : w.fails
  · exact ⟨⟨h.1.1, hstmt tx.work h.1.2⟩, h.2⟩
  · exact h

theorem insertOrderItems_closedInTx (id orderID : Int) (items : List OrderItem) :
    ∀ (tx : Tx) (w : World), ClosedInTx id tx w →
      ClosedInTx id (insertOrderItems orderID items tx w).2.1
        (insertOrderItems orderID items tx w).2.2 := by
  induction items with
  | nil => intro tx w h; exact h
  | cons item rest ih =>
    intro tx w h
    have hE := Exec_closedInTx id tx w (itemQuery orderID item) (fun t ht => ht) h
    rcases hx : tx.Exec w (itemQuery orderID item) with ⟨r, tx1, w1⟩
    rw [hx] at hE
    simp only [insertOrderItems, hx]
    cases r with
    | error err => exact hE
    | ok n => exact ih tx1 w1 hE

theorem Commit_closed (id : Int) (tx : Tx) (w : World) (h : ClosedInTx id tx w) :
    ClosedOrGone id (tx.Commit w).2.tables.orders (tx.Commit w).2.orderSeq := by
  unfold Tx.Commit
  cases hf : w.fails
  · exact h.1
  · exact h.2

theorem Begin_closedInTx (id : Int) (w : World)
    (h : ClosedOrGone id w.tables.orders w.orderSeq) :
    ClosedOrGone id (Begin w).2.tables.orders (Begin w).2.orderSeq ∧
    ∀ tx : Tx, (Begin w).1 = .ok tx → ClosedInTx id tx (Begin w).2 := by
  unfold Begin
  cases hf : w.fails
  · refine ⟨h, ?_⟩
    intro tx htx
    simp only [Bool.false_eq_true, if_false, Except.ok.injEq] at htx
    subst htx
    exact ⟨h, h⟩
  · refine ⟨h, ?_⟩
    intro tx htx
    simp at htx

theorem AddOrderRepository_closed (id : Int) (w : World) (order : Order)
    (items : List OrderItem) (h : ClosedOrGone id w.tables.orders w.orderSeq) :
    ClosedOrGone id (AddOrderRepository w order items).2.tables.orders
      (AddOrderRepository w order items).2.orderSeq := by
  have hB := Begin_closedInTx id w h
  unfold AddOrderRepository
  rcases hb : Begin w with ⟨r, w1⟩
  rw [hb] at hB
  simp only at hB
  cases r with
  | error err => exact hB.1
  | ok tx =>
    simp only
    have hI := insertOrder_closedInTx id tx w1 order (hB.2 tx rfl)
    rcases hi : tx.insertOrder w1 order with ⟨r2, tx2, w2⟩
    rw [hi] at hI
    simp only at hI
    cases r2 with
    | error err => exact hI.2
    | ok orderID =>
      simp only
      have hL := insertOrderItems_closedInTx id orderID items tx2 w2 hI
      rcases hl : insertOrderItems orderID items tx2 w2 with ⟨r3, tx3, w3⟩
      rw [hl] at hL
      simp only at hL
      cases r3 with
      | some err => exact hL.2
      | none =>
        simp only
        have hC := Commit_closed id tx3 w3 hL
        rcases hc : tx3.Commit w3 with ⟨r4, w4⟩
        rw [hc] at hC
        cases r4 <;> exact hC

theorem AddOrdersRepository_loop_closedInTx (id : Int) (orders : List Order) :
    ∀ (orderItems : List (List OrderItem)) (tx : Tx) (w : World), ClosedInTx id tx w →
      ClosedInTx id (AddOrdersRepository.loop orders orderItems tx w).2.1
        (AddOrdersRepository.loop orders orderItems tx w).2.2 := by
  induction orders with
  | nil => intro orderItems tx w h; exact h
  | cons order rest ih =>
    intro orderItems tx w h
    have hI := insertOrder_closedInTx id tx w order h
    rcases hi : tx.insertOrder w order with ⟨r2, tx2, w2⟩
    rw [hi] at hI
    simp only at hI
    simp only [AddOrdersRepository.loop, hi]
    cases r2 with
    | error err => exact hI
    | ok orderID =>
      simp only
      have hL := insertOrderItems_closedInTx id orderID (orderItems.headD []) tx2 w2 hI
      rcases hl : insertOrderItems orderID (orderItems.headD []) tx2 w2 with ⟨r3, tx3, w3⟩
      rw [hl] at hL
      simp only at hL
      cases r3 with
      | some err => exact hL
      | none => exact ih orderItems.tail tx3 w3 hL

theorem AddOrdersRepository_closed (id : Int) (w : World) (orders : List Order)
    (orderItems : List (List OrderItem)) (h : ClosedOrGone id w.tables.orders w.orderSeq) :
    ClosedOrGone id (AddOrdersRepository w orders orderItems).2.tables.orders
      (AddOrdersRepository w orders orderItems).2.orderSeq := by
  have hB := Begin_closedInTx id w h
  unfold AddOrdersRepository
  rcases hb : Begin w with ⟨r, w1⟩
  rw [hb] at hB
  simp only at hB
  cases r with
  | error err => exact hB.1
  | ok tx =>
    simp only
    have hL := AddOrdersRepository_loop_closedInTx id orders orderItems tx w1 (hB.2 tx rfl)
    rcases hl : AddOrdersRepository.loop orders orderItems tx w1 with ⟨r3, tx3, w3⟩
    rw [hl] at hL
    simp only at hL
    cases r3 with
    | some err => exact hL.2
    | none =>
      simp only
      have hC := Commit_closed id tx3 w3 hL
      rcases hc : tx3.Commit w3 with ⟨r4, w4⟩
      rw [hc] at hC
      cases r4 <;> exact hC

theorem UpdateOrderRepository_closed (id id1 : Int) (hne : id1 ≠ id) (w : World) (order : Order)
    (items : List OrderItem) (h : ClosedOrGone id w.tables.orders w.orderSeq) :
    ClosedOrGone id (UpdateOrderRepository w id1 order items).2.tables.orders
      (UpdateOrderRepository w id1 order items).2.orderSeq := by
  have hB := Begin_closedInTx id w h
  unfold UpdateOrderRepository
  rcases hb : Begin w with ⟨r, w1⟩
  rw [hb] at hB
  simp only at hB
  cases r with
  | error err => exact hB.1
  | ok tx =>
    simp only
    have hstmt : ∀ t : Tables, (∀ r ∈ t.orders, r.id = id → r.status = "close") →
        ∀ r ∈ (updateOrderQuery id1 order w1.now t).1.orders, r.id = id → r.status = "close" := by
      intro t ht r hr hid
      simp only [updateOrderQuery, List.mem_map] at hr
      obtain ⟨r0, hr0, hr1⟩ := hr
      by_cases h0 : r0.id = id1
      · rw [if_pos h0] at hr1
        subst hr1
        simp only at hid
        exact absurd (h0.symm.trans hid) hne
      · rw [if_neg h0] at hr1
        subst hr1
        exact ht r0 hr0 hid
    have hE := Exec_closedInTx id tx w1 (updateOrderQuery id1 order w1.now) hstmt (hB.2 tx rfl)
    rcases hx : tx.Exec w1 (updateOrderQuery id1 order w1.now) with ⟨r2, tx2, w2⟩
    rw [hx] at hE
    simp only at hE
    cases r2 with
    | error err => exact hE.2
    | ok result =>
      simp only
      cases hcr : checkRowsAffected result with
      | some err => exact hE.2
      | none =>
        simp only
        have hstmt2 : ∀ t : Tables, (∀ r ∈ t.orders, r.id = id → r.status = "close") →
            ∀ r ∈ (itemDeleteQuery id1 t).1.orders, r.id = id → r.status = "close" :=
          fun t ht => ht
        have hD := Exec_closedInTx id tx2 w2 (itemDeleteQuery id1) hstmt2 hE
        unfold updateOrderItems
        rcases hx2 : tx2.Exec w2 (itemDeleteQuery id1) with ⟨r3, tx3, w3⟩
        rw [hx2] at hD
        simp only at hD
        cases r3 with
        | error err => exact hD.2
        | ok n =>
          simp only
          have hL := insertOrderItems_closedInTx id id1 items tx3 w3 hD
          rcases hl : insertOrderItems id1 items tx3 w3 with ⟨r4, tx4, w4⟩
          rw [hl] at hL
          simp only at hL
          cases r4 with
          | some err => exact hL.2
          | none =>
            simp only
            have hC := Commit_closed id tx4 w4 hL
            rcases hc : tx4.Commit w4 with ⟨r5, w5⟩
            rw [hc] at hC
            cases r5 <;> exact hC

theorem dbExec_closed (id : Int) (w : World) (stmt : Tables → Tables × Nat)
    (hstmt : ∀ t : Tables, (∀ r ∈ t.orders, r.id = id → r.status = "close") →
      ∀ r ∈ (stmt t).1.orders, r.id = id → r.status = "close")
    (h : ClosedOrGone id w.tables.orders w.orderSeq) :
    ClosedOrGone id (dbExec w stmt).2.tables.orders (dbExec w stmt).2.orderSeq := by
  unfold dbExec
  cases hf : w.fails
  · exact ⟨h.1, hstmt w.tables h.2⟩
  · exact h

theorem CloseOrderRepository_closed (id id1 : Int) (w : World)
    (h : ClosedOrGone id w.tables.orders w.orderSeq) :
    ClosedOrGone id (CloseOrderRepository w id1).2.tables.orders
      (CloseOrderRepository w id1).2.orderSeq := by
  have hQ := dbQueryRow_world w (fun t =>
    (t.orders.find? fun r => decide (r.id = id1)).map fun r => r.status)
  unfold CloseOrderRepository
  split
  · rename_i err w1 heq
    rw [heq] at hQ
    simp only at hQ
    subst hQ
    split <;> exact h
  · rename_i status w1 heq
    rw [heq] at hQ
    simp only at hQ
    subst hQ
    split
    · exact h
    · have hstmt : ∀ t : Tables, (∀ r ∈ t.orders, r.id = id → r.status = "close") →
          ∀ r ∈ (queryUpdate id1 w.next.now t).1.orders, r.id = id → r.status = "close" := by
        intro t ht r hr hid
        simp only [queryUpdate, List.mem_map] at hr
        obtain ⟨r0, hr0, hr1⟩ := hr
        split at hr1
        · subst hr1
          rfl
        · subst hr1
          exact ht r0 hr0 hid
      have hE := dbExec_closed id w.next (queryUpdate id1 w.next.now) hstmt h
      rcases hx : dbExec w.next (queryUpdate id1 w.next.now) with ⟨r2, w2⟩
      rw [hx] at hE
      cases r2 <;> exact hE

theorem DeleteOrderRepository_closed (id id1 : Int) (w : World)
    (h : ClosedOrGone id w.tables.orders w.orderSeq) :
    ClosedOrGone id (DeleteOrderRepository w id1).2.tables.orders
      (DeleteOrderRepository w id1).2.orderSeq := by
  have hstmt : ∀ t : Tables, (∀ r ∈ t.orders, r.id = id → r.status = "close") →
      ∀ r ∈ (deleteOrderQuery id1 t).1.orders, r.id = id → r.status = "close" := by
    intro t ht r hr hid
    simp only [deleteOrderQuery] at hr
    exact ht r (List.mem_filter.1 hr).1 hid
  have hE := dbExec_closed id w (deleteOrderQuery id1) hstmt h
  unfold DeleteOrderRepository
  rcases hx : dbExec w (deleteOrderQuery id1) with ⟨r2, w2⟩
  rw [hx] at hE
  cases r2 with
  | error err => exact hE
  | ok result =>
    simp only
    cases checkRowsAffected result <;> exact hE

theorem ClosedOrGone.of_sameOrders {id : Int} {w w1 : World} (hs : SameOrders w w1)
    (h : ClosedOrGone id w.tables.orders w.orderSeq) :
    ClosedOrGone id w1.tables.orders w1.orderSeq := by
  rw [hs.1, hs.2.2.1]
  exact h

theorem OrderOp.run_closed (id : Int) (w : World) (op : OrderOp)
    (hop : op.updatesId id = false)
    (h : ClosedOrGone id w.tables.orders w.orderSeq) :
    ClosedOrGone id (op.run w).tables.orders (op.run w).orderSeq := by
  cases op with
  | create req =>
    have hC := ClosedOrGone.of_sameOrders (createObject_sameOrders w req) h
    simp only [OrderOp.run, CreateOrderService]
    split
    · rename_i err w1 heq
      rw [heq] at hC
      exact hC
    · rename_i order items w1 heq
      rw [heq] at hC
      have hA := AddOrderRepository_closed id w1 order items hC
      split
      · rename_i err w2 heq2
        rw [heq2] at hA
        exact hA
      · rename_i w2 heq2
        rw [heq2] at hA
        exact hA
  | update id1 req =>
    have hne : id1 ≠ id := by
      simpa [OrderOp.updatesId] using hop
    have hC := ClosedOrGone.of_sameOrders (createObject_sameOrders w req) h
    simp only [OrderOp.run, UpdateOrderService]
    split
    · rename_i err w1 heq
      rw [heq] at hC
      exact hC
    · rename_i order items w1 heq
      rw [heq] at hC
      have hA := UpdateOrderRepository_closed id id1 hne w1 order items hC
      split
      · rename_i err w2 heq2
        rw [heq2] at hA
        exact hA
      · rename_i w2 heq2
        rw [heq2] at hA
        exact hA
  | close id1 =>
    have hA := CloseOrderRepository_closed id id1 w h
    simp only [OrderOp.run, CloseOrderService]
    split
    · rename_i err w2 heq2
      rw [heq2] at hA
      exact hA
    · rename_i w2 heq2
      rw [heq2] at hA
      exact hA
  | delete id1 =>
    have hA := DeleteOrderRepository_closed id id1 w h
    simp only [OrderOp.run, DeleteOrderService]
    split
    · rename_i err w2 heq2
      rw [heq2] at hA
      exact hA
    · rename_i w2 heq2
      rw [heq2] at hA
      exact hA
  | batch reqs =>
    have hC := ClosedOrGone.of_sameOrders (AddOrdersService_loop_sameOrders reqs [] [] w) h
    simp only [OrderOp.run, AddOrdersService]
    split
    · rename_i err w1 heq
      rw [heq] at hC
      exact hC
    · rename_i orders lists w1 heq
      rw [heq] at hC
      have hA := AddOrdersRepository_closed id w1 orders lists hC
      split
      · rename_i err w2 heq2
        rw [heq2] at hA
        exact hA
      · rename_i w2 heq2
        rw [heq2] at hA
        exact hA

theorem runOps_closed (id : Int) (ops : List OrderOp) : ∀ w : World,
    (∀ op ∈ ops, op.updatesId id = false) →
    ClosedOrGone id w.tables.orders w.orderSeq →
    ClosedOrGone id (runOps w ops).tables.orders (runOps w ops).orderSeq := by
  induction ops with
  | nil => intro w _ h; exact h
  | cons op rest ih =>
    intro w hops h
    simp only [runOps, List.foldl_cons]
    exact ih (op.run w) (fun o ho => hops o (List.mem_cons_of_mem _ ho))
      (OrderOp.run_closed id w op (hops op (List.mem_cons_self _ _)) h)

/-- C9 as stated fails: in the cafe, Ann's order 1 is created and closed; a later
`UpdateOrderService` on order 1 succeeds and the stored status is "open" again. -/
theorem UpdateOrderService_reopens_closed_order :
    (runOps cafe [.create ⟨"Ann", "card", [⟨"latte", 2⟩], none⟩, .close 1]).tables.orders.map
      (fun r => (r.id, r.status)) = [(1, "close")] ∧
    (UpdateOrderService
      (runOps cafe [.create ⟨"Ann", "card", [⟨"latte", 2⟩], none⟩, .close 1]) 1
      ⟨"Ann", "card", [⟨"latte", 1⟩], none⟩).1 = none ∧
    (UpdateOrderService
      (runOps cafe [.create ⟨"Ann", "card", [⟨"latte", 2⟩], none⟩, .close 1]) 1
      ⟨"Ann", "card", [⟨"latte", 1⟩], none⟩).2.tables.orders.map
      (fun r => (r.id, r.status)) = [(1, "open")] := by
  decide!

/-- C9, amended: once every stored order with id `id` is closed (and `id` has been issued by
the order sequence), no sequence of create, batch create, close and delete operations, and of
updates addressed to other ids, makes a stored order with that id open again: after the
sequence every stored order with that id still has status "close". -/
theorem closed_order_stays_closed (w : World) (id : Int) (ops : List OrderOp)
    (hseq : id ≤ w.orderSeq)
    (hclosed : ∀ r ∈ w.tables.orders, r.id = id → r.status = "close")
    (hops : ∀ op ∈ ops, op.updatesId id = false) :
    ∀ r ∈ (runOps w ops).tables.orders, r.id = id → r.status = "close" :=
  (runOps_closed id ops w hops ⟨hseq, hclosed⟩).2

/-- Witness for the amended C9: order 1 of the cafe, created and closed, then a new order, a
second close, an update of order 2 and a batch. -/
theorem closed_order_stays_closed_witness :
    ((runOps (runOps cafe [.create ⟨"Ann", "card", [⟨"latte", 2⟩], none⟩, .close 1])
        [.create ⟨"Ann", "cash", [⟨"latte", 1⟩], none⟩, .close 1,
         .update 2 ⟨"Ann", "card", [⟨"latte", 1⟩], none⟩,
         .batch [⟨"Ann", "card", [⟨"latte", 1⟩], none⟩]]).tables.orders.all
      fun r => decide (r.id = 1 → r.status = "close")) = true :=
  List.all_eq_true.2 fun r hr => decide_eq_true
    (closed_order_stays_closed
      (runOps cafe [.create ⟨"Ann", "card", [⟨"latte", 2⟩], none⟩, .close 1]) 1
      [.create ⟨"Ann", "cash", [⟨"latte", 1⟩], none⟩, .close 1,
       .update 2 ⟨"Ann", "card", [⟨"latte", 1⟩], none⟩,
       .batch [⟨"Ann", "card", [⟨"latte", 1⟩], none⟩]]
      (by decide!) (by decide!) (by decide) r hr)

/-! ## Claims C15 and C17: the sign rules of `NewInventoryTransaction` -/

/-- C15: for every non-empty inventory id, `NewInventoryTransaction(id, a, "added")` succeeds;
for a negative amount `a` the returned transaction has type "written off" and change amount
`a`, for a positive `a` it has type "added" and change amount `a`. -/
theorem NewInventoryTransaction_added_sign (id : String) (a : ℚ) (now : Nat) (hid : id ≠ "") :
    (a < 0 → NewInventoryTransaction id a "added" now =
      .ok { InventoryID := id, ChangeAmount := a, TransactionType := "written off",
            ChangeAt := now }) ∧
    (0 < a → NewInventoryTransaction id a "added" now =
      .ok { InventoryID := id, ChangeAmount := a, TransactionType := "added",
            ChangeAt := now }) := by
  constructor
  · intro ha
    have h0 : a ≠ 0 := ne_of_lt ha
    simp [NewInventoryTransaction, hid, h0, ha]
  · intro ha
    have h0 : a ≠ 0 := ne_of_gt ha
    have hn : ¬ a < 0 := not_lt.2 (le_of_lt ha)
    simp [NewInventoryTransaction, hid, h0, hn]

/-- Witness for C15: an "added" change of -5 milk is a write-off of -5. -/
theorem NewInventoryTransaction_added_sign_witness :
    NewInventoryTransaction "milk" (-5) "added" 7 =
      .ok { InventoryID := "milk", ChangeAmount := -5, TransactionType := "written off",
            ChangeAt := 7 } :=
  (NewInventoryTransaction_added_sign "milk" (-5) 7 (by decide)).1 (by decide)

/-- For a non-empty id and a non-zero amount, a "sale" transaction carries the negated
amount: negative for a positive amount, positive for a negative one. -/
theorem NewInventoryTransaction_sale_value (id : String) (a : ℚ) (now : Nat) (hid : id ≠ "")
    (ha : a ≠ 0) :
    NewInventoryTransaction id a "sale" now =
      .ok { InventoryID := id, ChangeAmount := -a, TransactionType := "sale",
            ChangeAt := now } := by
  simp [NewInventoryTransaction, hid, ha]

/-- C17 at a concrete input: the "sale" transaction built for the non-zero amount -1 has
change amount 1, which is not less than zero. -/
theorem NewInventoryTransaction_sale_of_negative_amount :
    NewInventoryTransaction "milk" (-1) "sale" 7 =
      .ok { InventoryID := "milk", ChangeAmount := 1, TransactionType := "sale",
            ChangeAt := 7 } ∧
    ¬ ((1 : ℚ) < 0) := by
  decide!

/-! ## Claim C20: allergens -/

theorem indentAllergens_found_iff (id : String) (keywords : List String) :
    indentAllergens.found id keywords = true ↔ id ∈ keywords := by
  induction keywords with
  | nil => simp [indentAllergens.found]
  | cons k rest ih =>
    by_cases h : id = k
    · simp [indentAllergens.found, h]
    · simp [indentAllergens.found, h, ih]

theorem KeywordsDisjoint.tail {e : String × List String} {rest : GoMap (List String)}
    (h : KeywordsDisjoint (e :: rest)) : KeywordsDisjoint rest :=
  fun e1 h1 e2 h2 k hk1 hk2 =>
    h e1 (List.mem_cons_of_mem _ h1) e2 (List.mem_cons_of_mem _ h2) k hk1 hk2

theorem indentAllergens_scan_eq_some_iff (id c : String) (table : GoMap (List String))
    (hd : KeywordsDisjoint table) :
    indentAllergens.scan id table = some c ↔ ∃ kws, (c, kws) ∈ table ∧ id ∈ kws := by
  induction table with
  | nil => simp [indentAllergens.scan]
  | cons e rest ih =>
    obtain ⟨a, ks⟩ := e
    unfold indentAllergens.scan
    by_cases hf : indentAllergens.found id ks = true
    · rw [if_pos hf]
      have hmem := (indentAllergens_found_iff id ks).1 hf
      constructor
      · intro h
        simp only [Option.some.injEq] at h
        subst h
        exact ⟨ks, List.mem_cons_self _ _, hmem⟩
      · rintro ⟨kws, hin, hid⟩
        have := hd (a, ks) (List.mem_cons_self _ _) (c, kws) hin id hmem hid
        simp only at this
        rw [this]
    · rw [if_neg hf]
      rw [ih hd.tail]
      constructor
      · rintro ⟨kws, hin, hid⟩
        exact ⟨kws, List.mem_cons_of_mem _ hin, hid⟩
      · rintro ⟨kws, hin, hid⟩
        rcases List.mem_cons.1 hin with h1 | h1
        · simp only [Prod.mk.injEq] at h1
          rw [h1.2] at hid
          exact absurd ((indentAllergens_found_iff id ks).2 hid) hf
        · exact ⟨kws, h1, hid⟩

theorem indentAllergens_scan_eq_find (id : String) (table : GoMap (List String)) :
    indentAllergens.scan id table =
      (table.find? fun e => decide (id ∈ e.2)).map Prod.fst := by
  induction table with
  | nil => rfl
  | cons e rest ih =>
    obtain ⟨a, ks⟩ := e
    unfold indentAllergens.scan
    by_cases hf : indentAllergens.found id ks = true
    · have hmem := (indentAllergens_found_iff id ks).1 hf
      simp [hf, List.find?_cons, hmem]
    · have hmem : ¬ id ∈ ks := fun h => hf ((indentAllergens_found_iff id ks).2 h)
      simp [hf, List.find?_cons, hmem, ih]

theorem allergensMap_disjoint : KeywordsDisjoint allergensMap := by
  unfold KeywordsDisjoint
  decide!

theorem KeywordsDisjoint.of_perm {t1 t2 : GoMap (List String)} (hp : t1.Perm t2)
    (h : KeywordsDisjoint t2) : KeywordsDisjoint t1 :=
  fun e1 h1 e2 h2 k hk1 hk2 => h e1 (hp.mem_iff.1 h1) e2 (hp.mem_iff.1 h2) k hk1 hk2

theorem indentAllergens_scan_perm (id : String) (table : GoMap (List String))
    (hp : table.Perm allergensMap) : indentAllergens.scan id table = allergenOf id := by
  have h1 : ∀ c, indentAllergens.scan id table = some c ↔
      indentAllergens.scan id allergensMap = some c := by
    intro c
    rw [indentAllergens_scan_eq_some_iff id c table (allergensMap_disjoint.of_perm hp),
      indentAllergens_scan_eq_some_iff id c allergensMap allergensMap_disjoint]
    constructor
    · rintro ⟨kws, hin, hid⟩
      exact ⟨kws, hp.mem_iff.1 hin, hid⟩
    · rintro ⟨kws, hin, hid⟩
      exact ⟨kws, hp.mem_iff.2 hin, hid⟩
  have h2 : indentAllergens.scan id table = indentAllergens.scan id allergensMap := by
    cases hs : indentAllergens.scan id table with
    | some c => exact ((h1 c).1 hs).symm
    | none =>
      cases hs2 : indentAllergens.scan id allergensMap with
      | none => rfl
      | some c =>
        have := (h1 c).2 hs2
        rw [hs] at this
        cases this
  rw [h2, indentAllergens_scan_eq_find]
  rfl

theorem indentAllergens_loop_eq (table : GoMap (List String))
    (items : List MenuItemIngredientInput) : ∀ acc : List String,
    indentAllergens.loop table items acc =
      acc ++ items.filterMap fun item => indentAllergens.scan item.IngredientID table := by
  induction items with
  | nil => intro acc; simp [indentAllergens.loop]
  | cons item rest ih =>
    intro acc
    unfold indentAllergens.loop
    cases hs : indentAllergens.scan item.IngredientID table with
    | none => simp [ih, List.filterMap_cons, hs]
    | some c => simp [ih, List.filterMap_cons, hs]

/-- C20: `indentAllergens` returns, in ingredient order, for each ingredient whose id is
equal to a keyword of the fixed table the category that keyword is listed under
(`allergenOf`), and nothing for an ingredient that equals no keyword, in whatever order the
table is visited for an ingredient; repeats are kept, ids are compared case-sensitively, and
the output is never longer than the input. -/
theorem indentAllergens_spec (items : List MenuItemIngredientInput) :
    indentAllergens items = items.filterMap (fun item => allergenOf item.IngredientID) ∧
    (∀ id c : String, allergenOf id = some c ↔ ∃ kws, (c, kws) ∈ allergensMap ∧ id ∈ kws) ∧
    (∀ (id : String) (table : GoMap (List String)), table.Perm allergensMap →
      indentAllergens.scan id table = allergenOf id) ∧
    (indentAllergens items).length ≤ items.length ∧
    (∀ q1 q2 : ℚ, indentAllergens [⟨"milk", q1⟩, ⟨"milk", q2⟩] = ["lactose", "lactose"]) ∧
    (∀ q : ℚ, indentAllergens [⟨"Milk", q⟩] = []) := by
  have hscan : ∀ id : String, indentAllergens.scan id allergensMap = allergenOf id :=
    fun id => indentAllergens_scan_perm id allergensMap (List.Perm.refl _)
  have hmain : indentAllergens items =
      items.filterMap (fun item => allergenOf item.IngredientID) := by
    unfold indentAllergens
    rw [indentAllergens_loop_eq, List.nil_append]
    apply List.filterMap_congr
    intro item _
    exact hscan item.IngredientID
  refine ⟨hmain, ?_, ?_, ?_, ?_, ?_⟩
  · intro id c
    rw [← hscan id]
    exact indentAllergens_scan_eq_some_iff id c allergensMap allergensMap_disjoint
  · intro id table hp
    exact indentAllergens_scan_perm id table hp
  · rw [hmain]
    exact List.length_filterMap_le _ _
  · intro q1 q2
    rfl
  · intro q
    rfl

/-! ## Claim C12: the ingredient check of a menu update -/

theorem GoMap.foldl_set_get?_isSome {α β : Type} (key : α → String) (val : α → β)
    (l : List α) : ∀ (acc : GoMap β) (k : String),
    ((l.foldl (fun m x => m.set (key x) (val x)) acc).get? k).isSome = true ↔
      ((acc.get? k).isSome = true ∨ ∃ x ∈ l, key x = k) := by
  induction l with
  | nil => intro acc k; simp
  | cons a rest ih =>
    intro acc k
    simp only [List.foldl_cons]
    rw [ih, GoMap.get?_set]
    by_cases h : key a = k
    · simp [h]
    · simp [h]

theorem validateMenuInventory_check_none (inventMap : GoMap InventoryItem)
    (ingredients : List MenuItemIngredientInput)
    (h : ∀ ing ∈ ingredients, (inventMap.get? ing.IngredientID).isSome = true) :
    validateMenuInventory.check inventMap ingredients = none := by
  induction ingredients with
  | nil => rfl
  | cons ing rest ih =>
    unfold validateMenuInventory.check
    have h1 := h ing (List.mem_cons_self _ _)
    cases hg : inventMap.get? ing.IngredientID with
    | none => rw [hg] at h1; cases h1
    | some item =>
      simp only
      exact ih fun i hi => h i (List.mem_cons_of_mem _ hi)

theorem validateMenuInventory_check_missing (inventMap : GoMap InventoryItem)
    (ingredients : List MenuItemIngredientInput) (ing : MenuItemIngredientInput)
    (hin : ing ∈ ingredients) (h : inventMap.get? ing.IngredientID = none) :
    validateMenuInventory.check inventMap ingredients =
      some (.wrapf "" .ErrNotExistConflict) := by
  induction ingredients with
  | nil => cases hin
  | cons i rest ih =>
    unfold validateMenuInventory.check
    cases hg : inventMap.get? i.IngredientID with
    | none => rfl
    | some item =>
      simp only
      rcases List.mem_cons.1 hin with h1 | h1
      · subst h1
        rw [h] at hg
        cases hg
      · exact ih h1

theorem validateMenuInventory_eq (w : World) (ingredients : List MenuItemIngredientInput)
    (hf : w.fails = false) :
    validateMenuInventory w ingredients =
      (validateMenuInventory.check
        ((w.tables.inventory.map fun r =>
          ({ ID := r.id, Name := r.name, StockLevel := r.stock, Price := r.price,
             UnitType := r.unit_type, LastUpdated := r.last_updated } : InventoryItem)).foldl
          (fun inventMap item => inventMap.set item.ID item) []) ingredients, w.next) := by
  simp [validateMenuInventory, GetAllInventoryItemsRepository, dbQuery, hf]

theorem inventMap_isSome_iff (w : World) (k : String) :
    ((((w.tables.inventory.map fun r =>
        ({ ID := r.id, Name := r.name, StockLevel := r.stock, Price := r.price,
           UnitType := r.unit_type, LastUpdated := r.last_updated } : InventoryItem)).foldl
        (fun (inventMap : GoMap InventoryItem) item => inventMap.set item.ID item) []).get?
          k).isSome = true) ↔ ∃ r ∈ w.tables.inventory, r.id = k := by
  rw [GoMap.foldl_set_get?_isSome (fun item : InventoryItem => item.ID) (fun item => item)]
  simp [GoMap.get?]

/-- C12: when the store answers the inventory query, a menu update request in which some
recipe edge names an ingredient id that no inventory item has makes `UpdateMenuItemService`
fail with an error that is `ErrNotExistConflict` under `errors.Is` (status 404), and every
table (menu items, recipe edges and price history included) is unchanged; and when every
edge names an existing inventory item, `validateMenuInventory` returns no error. -/
theorem UpdateMenuItemService_ingredient_check (w : World) (id : String)
    (req : CreateMenuRequest) (hf : w.fails = false) :
    ((∃ ing ∈ req.Ingredients, ∀ r ∈ w.tables.inventory, r.id ≠ ing.IngredientID) →
      (UpdateMenuItemService w id req).1 = some (.wrapf "" .ErrNotExistConflict) ∧
      errorsIs (.wrapf "" .ErrNotExistConflict) .ErrNotExistConflict = true ∧
      mapAppErrorToStatus (.wrapf "" .ErrNotExistConflict) = 404 ∧
      (UpdateMenuItemService w id req).2.tables = w.tables) ∧
    ((∀ ing ∈ req.Ingredients, ∃ r ∈ w.tables.inventory, r.id = ing.IngredientID) →
      (validateMenuInventory w req.Ingredients).1 = none) := by
  constructor
  · rintro ⟨ing, hin, hmiss⟩
    have hnone : (((w.tables.inventory.map fun r =>
        ({ ID := r.id, Name := r.name, StockLevel := r.stock, Price := r.price,
           UnitType := r.unit_type, LastUpdated := r.last_updated } : InventoryItem)).foldl
        (fun (inventMap : GoMap InventoryItem) item => inventMap.set item.ID item) []).get?
          ing.IngredientID) = none := by
      rw [← Option.not_isSome_iff_eq_none, inventMap_isSome_iff]
      rintro ⟨r, hr, hid⟩
      exact hmiss r hr hid
    have hcheck := validateMenuInventory_check_missing _ req.Ingredients ing hin hnone
    have hv := validateMenuInventory_eq w req.Ingredients hf
    rw [hcheck] at hv
    refine ⟨?_, by decide, by decide, ?_⟩
    · simp only [UpdateMenuItemService, hv]
    · simp only [UpdateMenuItemService, hv]
      rfl
  · intro hall
    rw [validateMenuInventory_eq w req.Ingredients hf]
    apply validateMenuInventory_check_none
    intro ing hin
    rw [inventMap_isSome_iff]
    exact hall ing hin

/-- Witness for C12: an update of the latte whose recipe names "sugar", which the cafe does
not stock. -/
theorem UpdateMenuItemService_ingredient_check_witness :
    (UpdateMenuItemService cafe "latte"
        ⟨"", "Latte", "", 3, "L", [⟨"milk", 1⟩, ⟨"sugar", 1⟩]⟩).1 =
      some (.wrapf "" .ErrNotExistConflict) ∧
    (UpdateMenuItemService cafe "latte"
        ⟨"", "Latte", "", 3, "L", [⟨"milk", 1⟩, ⟨"sugar", 1⟩]⟩).2.tables = cafe.tables :=
  have h := (UpdateMenuItemService_ingredient_check cafe "latte"
    ⟨"", "Latte", "", 3, "L", [⟨"milk", 1⟩, ⟨"sugar", 1⟩]⟩ (by decide)).1
    ⟨⟨"sugar", 1⟩, by decide!, by decide!⟩
  ⟨h.1, h.2.2.2⟩

/-! ## Claims C13 and C14: the menu update transaction -/

theorem QueryRow_world {α : Type} (tx : Tx) (w : World) (q : Tables → Option α) :
    (tx.QueryRow w q).2 = w.next := by
  unfold Tx.QueryRow
  cases hf : w.fails
  · cases hq : q tx.work <;> simp
  · simp

theorem QueryRow_ok {α : Type} (tx : Tx) (w w1 : World) (q : Tables → Option α) (a : α)
    (h : tx.QueryRow w q = (.ok a, w1)) : q tx.work = some a := by
  unfold Tx.QueryRow at h
  cases hf : w.fails
  · cases hq : q tx.work with
    | none => simp [hf, hq] at h
    | some b =>
      simp [hf, hq] at h
      rw [h.1]
  · simp [hf] at h

theorem addPriceHistory_frame (tx : Tx) (w : World) (id : String) (newPrice : ℚ) :
    (addPriceHistory tx w id newPrice).2.2.tables = w.tables ∧
    (addPriceHistory tx w id newPrice).2.2.now = w.now := by
  have hQ := QueryRow_world tx w (fun t =>
    (t.menu_items.find? fun r => decide (r.id = id)).map fun r => r.price)
  unfold addPriceHistory
  split
  · rename_i err w1 heq
    rw [heq] at hQ
    simp only at hQ
    subst hQ
    exact ⟨rfl, rfl⟩
  · rename_i oldPrice w1 heq
    rw [heq] at hQ
    simp only at hQ
    subst hQ
    have hE := Exec_frame tx w.next (priceHistoryQuery id oldPrice newPrice w.next.now)
    split
    · rename_i err tx2 w2 heq2
      rw [heq2] at hE
      exact ⟨hE.1, hE.2.1⟩
    · rename_i n tx2 w2 heq2
      rw [heq2] at hE
      exact ⟨hE.1, hE.2.1⟩

theorem addPriceHistory_ok (tx tx1 : Tx) (w w1 : World) (id : String) (newPrice : ℚ)
    (h : addPriceHistory tx w id newPrice = (none, tx1, w1)) :
    ∃ x : MenuItemRow, tx.work.menu_items.find? (fun r => decide (r.id = id)) = some x ∧
      tx1.work = (priceHistoryQuery id x.price newPrice w.now tx.work).1 := by
  have hQ := QueryRow_world tx w (fun t =>
    (t.menu_items.find? fun r => decide (r.id = id)).map fun r => r.price)
  unfold addPriceHistory at h
  split at h
  · simp at h
  · rename_i oldPrice w2 heq
    rw [heq] at hQ
    simp only at hQ
    subst hQ
    have hq := QueryRow_ok tx w w.next _ oldPrice heq
    simp only [Option.map_eq_some'] at hq
    obtain ⟨x, hx, hp⟩ := hq
    split at h
    · simp at h
    · rename_i n tx2 w3 heq2
      simp only [Prod.mk.injEq, true_and] at h
      have := Exec_ok tx tx2 w.next w3 _ n heq2
      rw [← h.1, this, ← hp]
      exact ⟨x, hx, rfl⟩

theorem updateMenuItemIngredients_loop_frame (id : String) (items : List MenuItemIngredient) :
    ∀ (tx : Tx) (w : World),
    (updateMenuItemIngredients.loop id items tx w).2.2.tables = w.tables ∧
    (updateMenuItemIngredients.loop id items tx w).2.2.now = w.now := by
  induction items with
  | nil => intro tx w; simp [updateMenuItemIngredients.loop]
  | cons item rest ih =>
    intro tx w
    have hE := Exec_frame tx w (ingredientInsertQuery id item.Quantity item.IngredientID)
    rcases hx : tx.Exec w (ingredientInsertQuery id item.Quantity item.IngredientID)
      with ⟨r, tx1, w1⟩
    rw [hx] at hE
    simp only at hE
    simp only [updateMenuItemIngredients.loop, hx]
    cases r with
    | error err => exact ⟨hE.1, hE.2.1⟩
    | ok n =>
      have := ih tx1 w1
      exact ⟨this.1.trans hE.1, this.2.trans hE.2.1⟩

theorem updateMenuItemIngredients_loop_ok (id : String) (items : List MenuItemIngredient) :
    ∀ (tx tx1 : Tx) (w w1 : World),
    updateMenuItemIngredients.loop id items tx w = (none, tx1, w1) →
    tx1.work = { tx.work with
      menu_item_ingredients := tx.work.menu_item_ingredients ++ items.map fun item =>
        { menu_item_id := id, quantity := item.Quantity,
          ingredient_id := item.IngredientID } } := by
  induction items with
  | nil =>
    intro tx tx1 w w1 h
    simp only [updateMenuItemIngredients.loop, Prod.mk.injEq, true_and] at h
    rw [← h.1]
    simp
  | cons item rest ih =>
    intro tx tx1 w w1 h
    rcases hx : tx.Exec w (ingredientInsertQuery id item.Quantity item.IngredientID)
      with ⟨r, tx2, w2⟩
    simp only [updateMenuItemIngredients.loop, hx] at h
    cases r with
    | error err => simp at h
    | ok n =>
      simp only at h
      rw [ih tx2 tx1 w2 w1 h, Exec_ok tx tx2 w w2 _ n hx]
      simp [ingredientInsertQuery]

theorem updateMenuItemIngredients_frame (tx : Tx) (w : World) (id : String)
    (items : List MenuItemIngredient) :
    (updateMenuItemIngredients tx w id items).2.2.tables = w.tables ∧
    (updateMenuItemIngredients tx w id items).2.2.now = w.now := by
  have hE := Exec_frame tx w (ingredientDeleteQuery id)
  unfold updateMenuItemIngredients
  split
  · rename_i err tx2 w2 heq
    rw [heq] at hE
    exact ⟨hE.1, hE.2.1⟩
  · rename_i n tx2 w2 heq
    rw [heq] at hE
    have := updateMenuItemIngredients_loop_frame id items tx2 w2
    exact ⟨this.1.trans hE.1, this.2.trans hE.2.1⟩

theorem updateMenuItemIngredients_ok (tx tx1 : Tx) (w w1 : World) (id : String)
    (items : List MenuItemIngredient)
    (h : updateMenuItemIngredients tx w id items = (none, tx1, w1)) :
    tx1.work = { tx.work with
      menu_item_ingredients :=
        (tx.work.menu_item_ingredients.filter fun r => ¬ r.menu_item_id = id) ++
          items.map fun item =>
            { menu_item_id := id, quantity := item.Quantity,
              ingredient_id := item.IngredientID } } := by
  unfold updateMenuItemIngredients at h
  split at h
  · simp at h
  · rename_i n tx2 w2 heq
    rw [updateMenuItemIngredients_loop_ok id items tx2 tx1 w2 w1 h,
      Exec_ok tx tx2 w w2 _ n heq]
    rfl

theorem UpdateMenuItemRepository_ok_tables (w : World) (id : String) (menuItem : MenuItem)
    (items : List MenuItemIngredient)
    (h : (UpdateMenuItemRepository w id menuItem items).1 = none) :
    ∃ x : MenuItemRow, w.tables.menu_items.find? (fun r => decide (r.id = id)) = some x ∧
      (UpdateMenuItemRepository w id menuItem items).2.tables =
        { w.tables with
          price_history := w.tables.price_history ++
            [{ menu_item_id := id, old_price := x.price, new_price := menuItem.Price,
               changed_at := w.now }]
          menu_items := w.tables.menu_items.map fun r =>
            if r.id = id then
              { r with name := menuItem.Name, description := menuItem.Description,
                       price := menuItem.Price, allergens := menuItem.Allergens,
                       size := menuItem.Size }
            else r
          menu_item_ingredients :=
            (w.tables.menu_item_ingredients.filter fun r => ¬ r.menu_item_id = id) ++
              items.map fun item =>
                { menu_item_id := id, quantity := item.Quantity,
                  ingredient_id := item.IngredientID } } := by
  have hB := Begin_frame w
  unfold UpdateMenuItemRepository at h ⊢
  rcases hb : Begin w with ⟨r, w1⟩
  rw [hb] at hB h
  simp only at hB h
  cases r with
  | error err => simp at h
  | ok tx =>
    simp only at h ⊢
    have hwork := Begin_work w w1 tx hb
    rcases hp : addPriceHistory tx w1 id menuItem.Price with ⟨r2, tx2, w2⟩
    rw [hp] at h
    cases r2 with
    | some err => simp at h
    | none =>
      simp only at h ⊢
      obtain ⟨x, hx, hw2⟩ := addPriceHistory_ok tx tx2 w1 w2 id menuItem.Price hp
      rcases he : tx2.Exec w2 (updateMenuItemQuery id menuItem) with ⟨r3, tx3, w3⟩
      rw [he] at h
      cases r3 with
      | error err => simp at h
      | ok result =>
        simp only at h ⊢
        have hw3 := Exec_ok tx2 tx3 w2 w3 _ result he
        cases hc : checkRowsAffected result with
        | some err => simp [hc] at h
        | none =>
          simp only [hc] at h ⊢
          rcases hu : updateMenuItemIngredients tx3 w3 id items with ⟨r4, tx4, w4⟩
          rw [hu] at h
          cases r4 with
          | some err => simp at h
          | none =>
            simp only at h ⊢
            have hw4 := updateMenuItemIngredients_ok tx3 tx4 w3 w4 id items hu
            rcases hcm : tx4.Commit w4 with ⟨r5, w5⟩
            rw [hcm] at h
            cases r5 with
            | some err => simp at h
            | none =>
              simp only
              rw [hwork] at hx
              refine ⟨x, hx, ?_⟩
              rw [(Commit_ok tx4 w4 w5 hcm).1, hw4, hw3, hw2, hwork, hB.2.1]
              rfl

/-- C13: for a stored menu item `x` with id `id`, a successful `UpdateMenuItemRepository`
appends exactly one `price_history` row, with that id, the old price of `x` and the price of
the update; afterwards the stored item has the price of the update and the recipe edges
stored for `id` are exactly the edges of the update. -/
theorem UpdateMenuItemRepository_price_history (w : World) (id : String) (menuItem : MenuItem)
    (items : List MenuItemIngredient) (x : MenuItemRow)
    (hfind : w.tables.menu_items.find? (fun r => decide (r.id = id)) = some x)
    (h : (UpdateMenuItemRepository w id menuItem items).1 = none) :
    (UpdateMenuItemRepository w id menuItem items).2.tables.price_history =
      w.tables.price_history ++
        [{ menu_item_id := id, old_price := x.price, new_price := menuItem.Price,
           changed_at := w.now }] ∧
    ((UpdateMenuItemRepository w id menuItem items).2.tables.menu_items.find?
        (fun r => decide (r.id = id))).map (fun r => r.price) = some menuItem.Price ∧
    ((UpdateMenuItemRepository w id menuItem items).2.tables.menu_item_ingredients.filter
        fun r => decide (r.menu_item_id = id)) =
      items.map (fun item =>
        { menu_item_id := id, quantity := item.Quantity,
          ingredient_id := item.IngredientID }) := by
  obtain ⟨x1, hx1, ht⟩ := UpdateMenuItemRepository_ok_tables w id menuItem items h
  rw [hfind] at hx1
  simp only [Option.some.injEq] at hx1
  subst hx1
  have hid : x.id = id := by
    have := List.find?_some hfind
    simpa using this
  rw [ht]
  refine ⟨rfl, ?_, ?_⟩
  · simp only
    have hmap : ∀ (l : List MenuItemRow) (y : MenuItemRow),
        l.find? (fun r => decide (r.id = id)) = some y →
        ((l.map fun r =>
          if r.id = id then
            { r with name := menuItem.Name, description := menuItem.Description,
                     price := menuItem.Price, allergens := menuItem.Allergens,
                     size := menuItem.Size }
          else r).find? (fun r => decide (r.id = id))).map (fun r => r.price) =
          some menuItem.Price := by
      intro l
      induction l with
      | nil => intro y hy; cases hy
      | cons r rest ih =>
        intro y hy
        by_cases hr : r.id = id
        · simp [List.find?_cons, hr]
        · simp only [List.find?_cons, hr, decide_False] at hy
          simp only [List.map_cons, hr, if_false, List.find?_cons, decide_False]
          exact ih y hy
    exact hmap _ x hfind
  · simp only
    rw [List.filter_append]
    have h1 : ((w.tables.menu_item_ingredients.filter fun r => ¬ r.menu_item_id = id).filter
        fun r => decide (r.menu_item_id = id)) = [] := by
      rw [List.filter_eq_nil_iff]
      intro r hr
      have := (List.mem_filter.1 hr).2
      simpa using this
    have h2 : ((items.map fun item =>
        ({ menu_item_id := id, quantity := item.Quantity,
           ingredient_id := item.IngredientID } : RecipeRow)).filter
        fun r => decide (r.menu_item_id = id)) =
        items.map fun item =>
          { menu_item_id := id, quantity := item.Quantity,
            ingredient_id := item.IngredientID } := by
      rw [List.filter_eq_self]
      intro r hr
      obtain ⟨item, _, hitem⟩ := List.mem_map.1 hr
      subst hitem
      simp
    rw [h1, h2, List.nil_append]

/-- Witness for C13: the latte of the cafe goes from 5/2 to 3 with a recipe of 1 milk. -/
theorem UpdateMenuItemRepository_price_history_witness :
    (UpdateMenuItemRepository cafe "latte" ⟨"latte", "Latte", "No description", 3, [], "L"⟩
        [⟨"latte", 1, "milk"⟩]).2.tables.price_history = [⟨"latte", 5 / 2, 3, 7⟩] :=
  (UpdateMenuItemRepository_price_history cafe "latte"
    ⟨"latte", "Latte", "No description", 3, [], "L"⟩ [⟨"latte", 1, "milk"⟩]
    ⟨"latte", "Latte", "", 5 / 2, [], "M"⟩ (by decide!) (by decide!)).1

/-- For an id that no stored menu item has, and a store that does not fail,
`UpdateMenuItemRepository` stops in `addPriceHistory` and returns `sql.ErrNoRows` as it is;
the tables are unchanged. -/
theorem UpdateMenuItemRepository_unknown_id (w : World) (id : String) (menuItem : MenuItem)
    (items : List MenuItemIngredient)
    (hnone : w.tables.menu_items.find? (fun r => decide (r.id = id)) = none)
    (hf0 : w.fails = false) (hf1 : w.next.fails = false) :
    UpdateMenuItemRepository w id menuItem items = (some .ErrNoRows, w.next.next) ∧
    errorsIs .ErrNoRows .ErrNotExistConflict = false ∧ mapAppErrorToStatus .ErrNoRows = 500 := by
  refine ⟨?_, by decide, by decide⟩
  simp [UpdateMenuItemRepository, Begin, addPriceHistory, Tx.QueryRow, hf0, hf1, hnone]

/-- C14 at a concrete request: in the cafe, updating the menu item "ghost", which is not
stored, with a valid request fails with `sql.ErrNoRows`, which is not `ErrNotExistConflict`
under `errors.Is`; the handler answers 500, not 404; the tables are unchanged. -/
theorem UpdateMenuItemService_unknown_id_is_500 :
    (UpdateMenuItemService cafe "ghost" ⟨"", "Ghost", "", 3, "M", [⟨"milk", 1⟩]⟩).1 =
      some .ErrNoRows ∧
    (UpdateMenuItemRepository cafe "ghost" ⟨"ghost", "Ghost", "No description", 3, [], "M"⟩
      [⟨"ghost", 1, "milk"⟩]).1 = some .ErrNoRows ∧
    errorsIs .ErrNoRows .ErrNotExistConflict = false ∧
    (UpdateMenuItem cafe "ghost" ⟨"", "Ghost", "", 3, "M", [⟨"milk", 1⟩]⟩).1 = 500 ∧
    (UpdateMenuItemService cafe "ghost" ⟨"", "Ghost", "", 3, "M", [⟨"milk", 1⟩]⟩).2.tables =
      cafe.tables := by
  decide!

/-! ## Claim C11: the inventory after a failed batch -/

/-- C11 as stated fails: in the cafe, a batch of a valid order for one latte followed by an
order for the unknown product "ghost" returns an error, and the ingredients of the first
order stay debited: stock and ledger are not what they were. -/
theorem AddOrdersService_failure_leaves_debit :
    (AddOrdersService cafe [⟨"Ann", "card", [⟨"latte", 1⟩], none⟩,
        ⟨"Ann", "card", [⟨"ghost", 1⟩], none⟩]).1 =
      some (.errorf "product with ID ghost not found in menu") ∧
    (AddOrdersService cafe [⟨"Ann", "card", [⟨"latte", 1⟩], none⟩,
        ⟨"Ann", "card", [⟨"ghost", 1⟩], none⟩]).2.tables.inventory =
      [⟨"milk", "Milk", 8, 2, "ml", 7⟩, ⟨"beans", "Beans", 4, 3, "g", 7⟩] ∧
    (AddOrdersService cafe [⟨"Ann", "card", [⟨"latte", 1⟩], none⟩,
        ⟨"Ann", "card", [⟨"ghost", 1⟩], none⟩]).2.tables.inventory ≠ cafe.tables.inventory ∧
    (AddOrdersService cafe [⟨"Ann", "card", [⟨"latte", 1⟩], none⟩,
        ⟨"Ann", "card", [⟨"ghost", 1⟩], none⟩]).2.tables.inventory_transactions =
      [⟨"milk", -2, "sale", 7⟩, ⟨"beans", -1, "sale", 7⟩] ∧
    (AddOrdersService cafe [⟨"Ann", "card", [⟨"latte", 1⟩], none⟩,
        ⟨"Ann", "card", [⟨"ghost", 1⟩], none⟩]).2.tables.inventory_transactions ≠
      cafe.tables.inventory_transactions := by
  decide!

/-- C11, amended: when `AddOrdersService` returns an error and no request of the batch got
past `validateOrder` (the batch is empty, or its first request fails in `validateOrder`),
every table, inventory stock levels and ledger included, is what it was before the call. -/
theorem AddOrdersService_failure_before_any_debit (w : World) (reqs : List CreateOrderRequest)
    (err : GoError) (h : (AddOrdersService w reqs).1 = some err)
    (hfirst : ∀ req ∈ reqs.head?, ∃ e : GoError, (validateOrder w req).1 = .error e) :
    (AddOrdersService w reqs).2.tables = w.tables := by
  cases reqs with
  | nil =>
    unfold AddOrdersService at h ⊢
    simp only [AddOrdersService.loop] at h ⊢
    have hA := AddOrdersRepository_error_tables w [] []
    split
    · rename_i e w2 heq2
      rw [heq2] at hA
      exact hA (by simp)
    · rename_i w2 heq2
      rw [heq2] at h
      simp at h
  | cons req rest =>
    obtain ⟨e, he⟩ := hfirst req (by simp)
    obtain ⟨h1, h2⟩ := createObject_error_of_validateOrder w req e he
    unfold AddOrdersService
    unfold AddOrdersService.loop
    rcases hc : createObject w req with ⟨r, w1⟩
    rw [hc] at h1 h2
    simp only at h1 h2
    subst h1
    exact h2

/-- Witness for the amended C11: a batch in the cafe whose first order names "ghost". -/
theorem AddOrdersService_failure_before_any_debit_witness :
    (AddOrdersService cafe [⟨"Ann", "card", [⟨"ghost", 1⟩], none⟩,
        ⟨"Ann", "card", [⟨"latte", 1⟩], none⟩]).2.tables = cafe.tables :=
  AddOrdersService_failure_before_any_debit cafe
    [⟨"Ann", "card", [⟨"ghost", 1⟩], none⟩, ⟨"Ann", "card", [⟨"latte", 1⟩], none⟩]
    (.errorf "product with ID ghost not found in menu") (by decide!)
    (fun req hreq => ⟨.errorf "product with ID ghost not found in menu", by
      simp only [List.head?_cons, Option.mem_def, Option.some.injEq] at hreq
      subst hreq
      decide!⟩)

/-! ## Claim C16: stock adjustment through the inventory service -/

/-- C16 as stated fails: in the cafe, an update of "milk" with valid name, unit type and
price and the negative stock amount -3 is rejected with `ErrInvalidInput` by
`NewInventoryItem`; the stock is not lowered and no ledger row is stored. -/
theorem UpdateInventoryItemService_rejects_negative_amount :
    UpdateInventoryItemService cafe "milk" ⟨"", "Milk", -3, 2, "ml"⟩ =
      (some .ErrInvalidInput, cafe) := by
  decide!

/-- C16, amended: an update request with a negative or zero stock amount makes
`UpdateInventoryItemService` fail with `ErrInvalidInput` without touching the store; with a
positive amount `a`, valid name, unit type and price, a non-empty id of an existing item and
a store that does not fail, it succeeds, raises the stock of the item by `a` and stores one
ledger row of type "added" with change amount `a`. -/
theorem UpdateInventoryItemService_stock_amount (w : World) (id : String)
    (req : CreateInventoryRequest) :
    (req.StockLevel ≤ 0 → UpdateInventoryItemService w id req = (some .ErrInvalidInput, w)) ∧
    (0 < req.StockLevel → req.Name ≠ "" → req.UnitType ≠ "" → 0 < req.Price → id ≠ "" →
      (∃ r ∈ w.tables.inventory, r.id = id) → (∀ b ∈ w.faults, b = false) →
      (UpdateInventoryItemService w id req).1 = none ∧
      (UpdateInventoryItemService w id req).2.tables =
        { w.tables with
          inventory := w.tables.inventory.map fun r =>
            if r.id = id then
              { r with name := req.Name, stock := r.stock + req.StockLevel,
                       unit_type := req.UnitType, price := req.Price, last_updated := w.now }
            else r
          inventory_transactions := w.tables.inventory_transactions ++
            [{ inventory_id := id, change_amount := req.StockLevel,
               transaction_type := "added", changed_at := w.now }] }) := by
  constructor
  · intro ha
    rcases lt_or_eq_of_le ha with h1 | h1
    · simp [UpdateInventoryItemService, createInventoryObjects, NewInventoryItem, h1]
    · by_cases hv : req.Name = "" ∨ req.UnitType = "" ∨ req.Price ≤ 0
      · rcases hv with hv | hv | hv <;>
          simp [UpdateInventoryItemService, createInventoryObjects, NewInventoryItem, h1, hv]
      · simp only [not_or, not_le] at hv
        have hp : ¬ req.Price ≤ 0 := not_le.2 hv.2.2
        simp [UpdateInventoryItemService, createInventoryObjects, NewInventoryItem,
          NewInventoryTransaction, h1, hv.1, hv.2.1, hp]
  · intro ha hname hunit hprice hid hex hf
    obtain ⟨hf0, hf1⟩ := fails_of_noFaults w hf
    obtain ⟨hf1a, hf2⟩ := fails_of_noFaults w.next hf1
    obtain ⟨hf2a, hf3⟩ := fails_of_noFaults w.next.next hf2
    obtain ⟨hf3a, _⟩ := fails_of_noFaults w.next.next.next hf3
    have hn : ¬ req.StockLevel < 0 := not_lt.2 (le_of_lt ha)
    have h0 : req.StockLevel ≠ 0 := ne_of_gt ha
    have hp : ¬ req.Price ≤ 0 := not_le.2 hprice
    have hcount : (w.tables.inventory.filter fun r => decide (r.id = id)).length ≠ 0 := by
      obtain ⟨r, hr, hrid⟩ := hex
      intro hc
      have hempty := List.length_eq_zero.1 hc
      have hmem : r ∈ w.tables.inventory.filter fun r => decide (r.id = id) :=
        List.mem_filter.2 ⟨hr, by simp [hrid]⟩
      rw [hempty] at hmem
      cases hmem
    simp [UpdateInventoryItemService, createInventoryObjects, NewInventoryItem,
      NewInventoryTransaction, UpdateInventoryItemRepository, Begin, Tx.Exec, Tx.Commit,
      checkRowsAffected, updateInventoryItemQuery, transactionQuery, hname, hunit, hp, hn, h0,
      hid, hf0, hf1a, hf2a, hf3a, hcount]

/-- Witness for the amended C16: 3 more milk in the cafe, and the rejected -3. -/
theorem UpdateInventoryItemService_stock_amount_witness :
    (UpdateInventoryItemService cafe "milk" ⟨"", "Milk", 3, 2, "ml"⟩).1 = none ∧
    UpdateInventoryItemService cafe "milk" ⟨"", "Milk", -3, 2, "ml"⟩ =
      (some .ErrInvalidInput, cafe) :=
  ⟨((UpdateInventoryItemService_stock_amount cafe "milk" ⟨"", "Milk", 3, 2, "ml"⟩).2
      (by decide) (by decide) (by decide) (by decide) (by decide) (by decide!) (by decide)).1,
   (UpdateInventoryItemService_stock_amount cafe "milk" ⟨"", "Milk", -3, 2, "ml"⟩).1
      (by decide)⟩

/-! ## Claims C18 and C19: leftovers pagination -/

theorem wrap64_of_range (x : Int) (h1 : -(2 : Int) ^ 63 ≤ x) (h2 : x < 2 ^ 63) :
    wrap64 x = x := by
  unfold wrap64
  omega

theorem wrap64_wrap64_sub (a b : Int) : wrap64 (wrap64 a - b) = wrap64 (a - b) := by
  unfold wrap64
  omega

theorem ceil_div_eq (n ps : Int) (hps : 1 ≤ ps) :
    ⌈((n : ℚ) / (ps : ℚ))⌉ = (n + ps - 1) / ps := by
  have hpos : (0 : ℚ) < (ps : ℚ) := by exact_mod_cast (by omega : (0 : Int) < ps)
  have h1 : (n + ps - 1) / ps * ps ≤ n + ps - 1 := Int.ediv_mul_le _ (by omega)
  have h2 : n + ps - 1 < ((n + ps - 1) / ps + 1) * ps :=
    Int.lt_ediv_add_one_mul_self _ (by omega)
  rw [Int.ceil_eq_iff]
  constructor
  · rw [lt_div_iff₀ hpos]
    have : ((n + ps - 1) / ps - 1) * ps < n := by nlinarith
    exact_mod_cast this
  · rw [div_le_iff₀ hpos]
    have : n ≤ (n + ps - 1) / ps * ps := by nlinarith
    exact_mod_cast this

theorem totalPages_eq (n ps : Int) (hn : 0 ≤ n) (hps : 1 ≤ ps) (hr : n + ps - 1 < 2 ^ 63) :
    wrap64 (Int.tdiv (wrap64 (wrap64 (n + ps) - 1)) ps) = (n + ps - 1) / ps := by
  have h0 : (0 : Int) ≤ n + ps - 1 := by omega
  rw [wrap64_wrap64_sub, wrap64_of_range (n + ps - 1) (by omega) hr,
    Int.tdiv_eq_ediv h0 (by omega)]
  have h1 : 0 ≤ (n + ps - 1) / ps := Int.ediv_nonneg h0 (by omega)
  have h2 : (n + ps - 1) / ps ≤ n + ps - 1 := Int.ediv_le_self _ h0
  exact wrap64_of_range _ (by omega) (by omega)

theorem page_lt_totalPages_iff (n ps page : Int) (hps : 1 ≤ ps) :
    page < (n + ps - 1) / ps ↔ page * ps < n := by
  have h1 : (n + ps - 1) / ps * ps ≤ n + ps - 1 := Int.ediv_mul_le _ (by omega)
  have h2 : n + ps - 1 < ((n + ps - 1) / ps + 1) * ps :=
    Int.lt_ediv_add_one_mul_self _ (by omega)
  constructor
  · intro h
    have : (page + 1) * ps ≤ (n + ps - 1) / ps * ps :=
      Int.mul_le_mul_of_nonneg_right (by omega) (by omega)
    nlinarith
  · intro h
    by_contra hc
    have hle : (n + ps - 1) / ps ≤ page := not_lt.1 hc
    have : ((n + ps - 1) / ps + 1) * ps ≤ (page + 1) * ps :=
      Int.mul_le_mul_of_nonneg_right (by omega) (by omega)
    nlinarith

theorem GetLeftOversRepository_eq (w : World) (sortBy : String) (page offset pageSize : Int)
    (data : List LeftOver) (hq : leftoversQuery sortBy offset pageSize w.tables = some data)
    (hps : pageSize ≠ 0) (hf0 : w.fails = false) (hf1 : w.next.fails = false) :
    GetLeftOversRepository w sortBy page offset pageSize =
      (.ok { currentPage := page
             hasNextPage := decide (page < wrap64 (Int.tdiv
               (wrap64 (wrap64 ((w.tables.inventory.length : Int) + pageSize) - 1)) pageSize))
             pageSize := pageSize
             totalPages := wrap64 (Int.tdiv
               (wrap64 (wrap64 ((w.tables.inventory.length : Int) + pageSize) - 1)) pageSize)
             data := data }, w.next.next) := by
  simp [GetLeftOversRepository, dbQueryChecked, dbQueryRow, hf0, hf1, hq, hps]

theorem leftoversQuery_length (sortBy : String) (offset pageSize : Int) (t : Tables)
    (ho : 0 ≤ offset) (hp : 0 ≤ pageSize) :
    ∃ data : List LeftOver, leftoversQuery sortBy offset pageSize t = some data ∧
      (data.length : Int) = min pageSize (max 0 ((t.inventory.length : Int) - offset)) := by
  have hno : ¬ (offset < 0 ∨ pageSize < 0) := by omega
  unfold leftoversQuery
  rw [if_neg hno]
  refine ⟨_, rfl, ?_⟩
  have hlen : (if sortBy = "price" then
        t.inventory.insertionSort (fun a b => a.price ≤ b.price)
      else if sortBy = "quantity" then
        t.inventory.insertionSort (fun a b => a.stock ≤ b.stock)
      else t.inventory).length = t.inventory.length := by
    split
    · exact List.length_insertionSort _ _
    · split
      · exact List.length_insertionSort _ _
      · rfl
  simp only [List.length_map, List.length_take, List.length_drop, hlen]
  omega

/-- C18 as stated fails: with the two inventory rows of the cafe and the page size
9223372036854775807, the sum `totalItems + pageSize - 1` overflows the 64-bit `int` and the
response carries `totalPages = -1`, while the ceiling of 2 / 9223372036854775807 is 1. -/
theorem GetLeftOversRepository_totalPages_overflow :
    (GetLeftOversRepository cafe "" 1 0 9223372036854775807).1 =
      .ok { currentPage := 1, hasNextPage := false, pageSize := 9223372036854775807,
            totalPages := -1,
            data := [⟨"Milk", 10, 2⟩, ⟨"Beans", 5, 3⟩] } ∧
    ⌈((2 : ℚ) / 9223372036854775807)⌉ = 1 := by
  constructor
  · decide!
  · rw [Int.ceil_eq_iff]
    norm_num

/-- C18, amended: for an inventory of `n` rows, `pageSize ≥ 1` and `page ≥ 1` with
`n + pageSize - 1` within the 64-bit range (and a non-negative offset, a store that does not
fail), the leftovers response has `totalPages` equal to the ceiling of `n / pageSize`,
computed as `(n + pageSize - 1) / pageSize`, and `hasNextPage` equal to `page < totalPages`,
which holds exactly when `page × pageSize < n` (for every `page`, so also for `page ≥ 1`). -/
theorem GetLeftOversRepository_pages (w : World) (sortBy : String) (page offset pageSize : Int)
    (hps : 1 ≤ pageSize) (ho : 0 ≤ offset)
    (hr : (w.tables.inventory.length : Int) + pageSize - 1 < 2 ^ 63)
    (hf : ∀ b ∈ w.faults, b = false) :
    ∃ resp : LeftOversResponse,
      (GetLeftOversRepository w sortBy page offset pageSize).1 = .ok resp ∧
      resp.totalPages = ⌈((w.tables.inventory.length : ℚ) / (pageSize : ℚ))⌉ ∧
      resp.totalPages = ((w.tables.inventory.length : Int) + pageSize - 1) / pageSize ∧
      resp.hasNextPage = decide (page < resp.totalPages) ∧
      (resp.hasNextPage = true ↔ page * pageSize < (w.tables.inventory.length : Int)) := by
  obtain ⟨hf0, hf1⟩ := fails_of_noFaults w hf
  obtain ⟨hf1a, _⟩ := fails_of_noFaults w.next hf1
  obtain ⟨data, hq, _⟩ := leftoversQuery_length sortBy offset pageSize w.tables ho (by omega)
  have htp := totalPages_eq (w.tables.inventory.length : Int) pageSize (by omega) hps hr
  rw [GetLeftOversRepository_eq w sortBy page offset pageSize data hq (by omega) hf0 hf1a, htp]
  refine ⟨_, rfl, ?_, rfl, rfl, ?_⟩
  · have := ceil_div_eq (w.tables.inventory.length : Int) pageSize hps
    simp only [Int.cast_natCast] at this
    exact this.symm
  · simp only [decide_eq_true_eq]
    exact page_lt_totalPages_iff _ _ _ hps

/-- Witness for the amended C18: page 1 of the two rows of the cafe, one row a page. -/
theorem GetLeftOversRepository_pages_witness :
    ∃ resp : LeftOversResponse,
      (GetLeftOversRepository cafe "" 1 0 1).1 = .ok resp ∧ resp.totalPages = 2 ∧
      resp.hasNextPage = true := by
  obtain ⟨resp, h1, _, h3, h4, _⟩ := GetLeftOversRepository_pages cafe "" 1 0 1
    (by decide) (by decide) (by decide) (by decide)
  refine ⟨resp, h1, ?_, ?_⟩
  · rw [h3]; decide
  · rw [h4, h3]; decide

/-- C19 as stated fails: with the two inventory rows of the cafe, page "5" and page size
"4611686018427387904", the product `(page - 1) × pageSize` overflows the 64-bit `int` to 0:
the query runs with offset 0 and returns both rows, where the claim counts
`min(pageSize, max(0, 2 - 4 × pageSize)) = 0` rows. -/
theorem GetLeftOversService_offset_overflow :
    (GetLeftOversService cafe "" "5" "4611686018427387904").1 =
      .ok { currentPage := 5, hasNextPage := false, pageSize := 4611686018427387904,
            totalPages := 1,
            data := [⟨"Milk", 10, 2⟩, ⟨"Beans", 5, 3⟩] } ∧
    wrap64 (wrap64 (5 - 1) * 4611686018427387904) = 0 ∧
    min (4611686018427387904 : Int) (max 0 (2 - (5 - 1) * 4611686018427387904)) = 0 := by
  decide!

/-- C19, amended: for an inventory of `n` rows and parameters that parse to `page ≥ 1` and
`pageSize ≥ 1` with `(page - 1) × pageSize` within the 64-bit range (and a store that does
not fail), `GetLeftOversService` queries with offset `(page - 1) × pageSize` and returns
exactly `min(pageSize, max(0, n - (page - 1) × pageSize))` rows, with `currentPage = page`
and `pageSize` echoed back; with `n = 25` and `pageSize = 10`, page 3 returns 5 rows,
`totalPages = 3` and `hasNextPage = false`, and page 1 returns `hasNextPage = true`. -/
theorem GetLeftOversService_page (w : World) (sortBy pageParam pageSizeParam : String)
    (page pageSize : Int) (hpage : Atoi pageParam = .ok page)
    (hsize : Atoi pageSizeParam = .ok pageSize) (hp : 1 ≤ page) (hps : 1 ≤ pageSize)
    (hr : (page - 1) * pageSize < 2 ^ 63) (hf : ∀ b ∈ w.faults, b = false) :
    ∃ resp : LeftOversResponse,
      (GetLeftOversService w sortBy pageParam pageSizeParam).1 = .ok resp ∧
      (GetLeftOversService w sortBy pageParam pageSizeParam).1 =
        (GetLeftOversRepository w sortBy page ((page - 1) * pageSize) pageSize).1 ∧
      (resp.data.length : Int) =
        min pageSize (max 0 ((w.tables.inventory.length : Int) - (page - 1) * pageSize)) ∧
      resp.currentPage = page ∧ resp.pageSize = pageSize ∧
      (w.tables.inventory.length = 25 → pageSize = 10 →
        (page = 3 → resp.data.length = 5 ∧ resp.totalPages = 3 ∧ resp.hasNextPage = false) ∧
        (page = 1 → resp.hasNextPage = true)) := by
  obtain ⟨hf0, hf1⟩ := fails_of_noFaults w hf
  obtain ⟨hf1a, _⟩ := fails_of_noFaults w.next hf1
  have hoff0 : 0 ≤ (page - 1) * pageSize := Int.mul_nonneg (by omega) (by omega)
  have hpm : page - 1 ≤ (page - 1) * pageSize := by nlinarith
  have hw1 : wrap64 (page - 1) = page - 1 := wrap64_of_range _ (by omega) (by omega)
  have hw2 : wrap64 (wrap64 (page - 1) * pageSize) = (page - 1) * pageSize := by
    rw [hw1]
    exact wrap64_of_range _ (by omega) hr
  obtain ⟨data, hq, hlen⟩ :=
    leftoversQuery_length sortBy ((page - 1) * pageSize) pageSize w.tables hoff0 (by omega)
  have hrepo := GetLeftOversRepository_eq w sortBy page ((page - 1) * pageSize) pageSize data hq
    (by omega) hf0 hf1a
  have hsvc : GetLeftOversService w sortBy pageParam pageSizeParam =
      GetLeftOversRepository w sortBy page ((page - 1) * pageSize) pageSize := by
    simp only [GetLeftOversService, hpage, hsize, hw2, hrepo]
  rw [hsvc, hrepo]
  refine ⟨_, rfl, rfl, hlen, rfl, rfl, ?_⟩
  intro hn hps10
  subst hps10
  simp only [hn]
  constructor
  · intro h3
    subst h3
    refine ⟨?_, by decide, by decide⟩
    have : (data.length : Int) = 5 := by
      rw [hlen, hn]
      decide
    exact_mod_cast this
  · intro h1
    subst h1
    decide

/-- Witness for the amended C19: page 3 of the 25 rows of the stockroom, ten rows a page. -/
theorem GetLeftOversService_page_witness :
    ∃ resp : LeftOversResponse,
      (GetLeftOversService stockroom "quantity" "3" "10").1 = .ok resp ∧
      resp.data.length = 5 ∧ resp.totalPages = 3 ∧ resp.hasNextPage = false := by
  obtain ⟨resp, h1, _, _, _, _, h6⟩ := GetLeftOversService_page stockroom "quantity" "3" "10"
    3 10 (by decide!) (by decide!) (by decide) (by decide) (by decide) (by decide)
  exact ⟨resp, h1, (h6 (by decide!) rfl).1 rfl⟩

/-! ## Claim C25: validation of a ledger entry -/

/-- C25: `NewInventoryTransaction id amount kind` fails with `ErrInvalidInput` exactly when
the id is empty, or the amount is zero, or the kind is none of "added", "written off",
"sale", "created"; in every other case it succeeds; and for kind "created" or
"written off" the transaction returned keeps the id, the kind and the amount with its sign
and value. -/
theorem NewInventoryTransaction_validation (id : String) (amount : ℚ) (kind : String)
    (now : Nat) :
    (NewInventoryTransaction id amount kind now = .error .ErrInvalidInput ↔
      (id = "" ∨ amount = 0 ∨
        ¬(kind = "added" ∨ kind = "written off" ∨ kind = "sale" ∨ kind = "created"))) ∧
    (¬(id = "" ∨ amount = 0 ∨
        ¬(kind = "added" ∨ kind = "written off" ∨ kind = "sale" ∨ kind = "created")) →
      ∃ tr, NewInventoryTransaction id amount kind now = .ok tr) ∧
    (id ≠ "" → amount ≠ 0 → (kind = "created" ∨ kind = "written off") →
      NewInventoryTransaction id amount kind now =
        .ok { InventoryID := id, ChangeAmount := amount, TransactionType := kind,
              ChangeAt := now }) := by
  refine ⟨?_, ?_, ?_⟩
  · unfold NewInventoryTransaction
    by_cases h1 : id = "" ∨ amount = 0
    · rw [if_pos h1]
      simp only [true_iff]
      rcases h1 with h | h
      · exact Or.inl h
      · exact Or.inr (Or.inl h)
    · rw [if_neg h1]
      by_cases h2 : kind = "added" ∨ kind = "written off" ∨ kind = "sale" ∨ kind = "created"
      · rw [if_neg (not_not.2 h2)]
        constructor
        · intro h
          cases h
        · rintro (h | h | h)
          · exact absurd (Or.inl h) h1
          · exact absurd (Or.inr h) h1
          · exact absurd h2 h
      · rw [if_pos h2]
        simp only [true_iff]
        exact Or.inr (Or.inr h2)
  · intro h
    unfold NewInventoryTransaction
    have h1 : ¬(id = "" ∨ amount = 0) := fun h0 =>
      h (h0.elim Or.inl fun h0 => Or.inr (Or.inl h0))
    have h2 : kind = "added" ∨ kind = "written off" ∨ kind = "sale" ∨ kind = "created" :=
      not_not.1 fun h0 => h (Or.inr (Or.inr h0))
    rw [if_neg h1, if_neg (not_not.2 h2)]
    exact ⟨_, rfl⟩
  · intro hid ha hk
    unfold NewInventoryTransaction
    have h1 : ¬(id = "" ∨ amount = 0) := fun h0 => h0.elim hid ha
    rw [if_neg h1]
    rcases hk with hk | hk
    · subst hk
      simp
    · subst hk
      simp

theorem NewInventoryTransaction_validation_witness :
    NewInventoryTransaction "milk" (-3) "written off" 7 =
      .ok { InventoryID := "milk", ChangeAmount := -3, TransactionType := "written off",
            ChangeAt := 7 } :=
  (NewInventoryTransaction_validation "milk" (-3) "written off" 7).2.2 (by decide)
    (by norm_num) (Or.inr rfl)

/-! ## Claim C28: the objects of an inventory request -/

theorem NewInventoryItem_ok (dto : CreateInventoryRequest) (now : Nat) (item : InventoryItem)
    (h : NewInventoryItem dto now = .ok item) :
    0 ≤ dto.StockLevel ∧ item.StockLevel = dto.StockLevel ∧
      item.ID = (if dto.ID = "" then fromNameToID dto.Name else dto.ID) := by
  unfold NewInventoryItem at h
  split at h
  · cases h
  · rename_i hc
    injection h with h
    subst h
    have hs : ¬ dto.StockLevel < 0 := fun h0 => hc (Or.inr (Or.inl h0))
    exact ⟨not_lt.1 hs, rfl, rfl⟩

theorem NewInventoryTransaction_ok (id : String) (amount : ℚ) (kind : String) (now : Nat)
    (tr : InventoryTransaction) (h : NewInventoryTransaction id amount kind now = .ok tr) :
    id ≠ "" ∧ amount ≠ 0 ∧ tr.InventoryID = id ∧
      tr.ChangeAmount = (if kind = "sale" then -amount else amount) ∧
      tr.TransactionType = (if amount < 0 ∧ kind = "added" then "written off" else kind) := by
  unfold NewInventoryTransaction at h
  split at h
  · cases h
  · rename_i h1
    split at h
    · cases h
    · injection h with h
      subst h
      refine ⟨fun h0 => h1 (Or.inl h0), fun h0 => h1 (Or.inr h0), rfl, ?_, rfl⟩
      by_cases hs : kind = "sale"
      · subst hs
        simp
      · by_cases hneg : amount < 0 ∧ kind = "added"
        · simp [hneg]
        · simp [hneg, hs]

theorem createInventoryObjects_error (req : CreateInventoryRequest) (kind : String)
    (now : Nat) (err : GoError) (h : createInventoryObjects req kind now = .error err) :
    err = .ErrInvalidInput := by
  unfold createInventoryObjects at h
  split at h
  · rename_i e he
    injection h with h
    subst h
    unfold NewInventoryItem at he
    split at he
    · injection he with he
      exact he.symm
    · cases he
  · rename_i item hi
    split at h
    · rename_i e he
      injection h with h
      subst h
      unfold NewInventoryTransaction at he
      split at he
      · injection he with he
        exact he.symm
      · split at he
        · injection he with he
          exact he.symm
        · cases he
    · cases h

/-- C28, as the code has it: for type "sale" the ledger entry that `createInventoryObjects`
returns carries the negated stock level: a request with stock level 3 gives the change
amount -3 next to an item of stock level 3. -/
theorem createInventoryObjects_sale_negates :
    createInventoryObjects ⟨"milk", "Milk", 3, 2, "ml"⟩ "sale" 7 =
      .ok (⟨"milk", "Milk", 3, "ml", 2, 7⟩, ⟨"milk", -3, "sale", 7⟩) ∧
    (-3 : ℚ) ≠ 3 := by
  decide!

/-- C28, amended: whenever `createInventoryObjects` succeeds, the ledger entry carries the
id of the item (which is the id of the request, not empty), the stock level of the item is
strictly positive, the type is the type passed in, and the change amount is the stock level
of the item, negated when the type passed in is "sale"; a request with stock level 0, or
with an empty id, is rejected with `ErrInvalidInput`, which is the only error. -/
theorem createInventoryObjects_ok (req : CreateInventoryRequest) (kind : String) (now : Nat) :
    (∀ item tr, createInventoryObjects req kind now = .ok (item, tr) →
      tr.InventoryID = item.ID ∧ item.ID = req.ID ∧ req.ID ≠ "" ∧
      item.StockLevel = req.StockLevel ∧ 0 < item.StockLevel ∧
      tr.TransactionType = kind ∧
      tr.ChangeAmount = (if kind = "sale" then -item.StockLevel else item.StockLevel) ∧
      (kind ≠ "sale" → tr.ChangeAmount = item.StockLevel)) ∧
    ((req.StockLevel = 0 ∨ req.ID = "") →
      createInventoryObjects req kind now = .error .ErrInvalidInput) := by
  constructor
  · intro item tr h
    unfold createInventoryObjects at h
    split at h
    · cases h
    · rename_i item1 hi
      split at h
      · cases h
      · rename_i tr1 ht
        injection h with h
        injection h with h1 h2
        subst h1 h2
        obtain ⟨hs0, hs, hid⟩ := NewInventoryItem_ok req now item1 hi
        obtain ⟨hne, ha, htid, hamt, hty⟩ := NewInventoryTransaction_ok _ _ _ _ tr1 ht
        have hidq : item1.ID = req.ID := by rw [hid, if_neg hne]
        have hpos : 0 < item1.StockLevel := lt_of_le_of_ne (hs ▸ hs0) (Ne.symm ha)
        have hkind : tr1.TransactionType = kind := by
          rw [hty, if_neg]
          exact fun h0 => absurd h0.1 (not_lt.2 hpos.le)
        refine ⟨by rw [htid, hidq], hidq, hne, hs, hpos, hkind, hamt, ?_⟩
        intro hk
        rw [hamt, if_neg hk]
  · intro h
    cases hc : createInventoryObjects req kind now with
    | error err => rw [createInventoryObjects_error req kind now err hc]
    | ok p =>
      exfalso
      obtain ⟨item, tr⟩ := p
      unfold createInventoryObjects at hc
      split at hc
      · cases hc
      · rename_i item1 hi
        split at hc
        · cases hc
        · rename_i tr1 ht
          obtain ⟨_, hs, _⟩ := NewInventoryItem_ok req now item1 hi
          obtain ⟨hne, ha, _⟩ := NewInventoryTransaction_ok _ _ _ _ tr1 ht
          rcases h with h | h
          · exact ha (hs.trans h)
          · exact hne h

theorem createInventoryObjects_ok_witness :
    createInventoryObjects ⟨"milk", "Milk", 3, 2, "ml"⟩ "created" 7 =
      .ok (⟨"milk", "Milk", 3, "ml", 2, 7⟩, ⟨"milk", 3, "created", 7⟩) ∧
    ((⟨"milk", 3, "created", 7⟩ : InventoryTransaction).ChangeAmount =
      (⟨"milk", "Milk", 3, "ml", 2, 7⟩ : InventoryItem).StockLevel) ∧
    createInventoryObjects ⟨"", "Milk", 3, 2, "ml"⟩ "created" 7 = .error .ErrInvalidInput :=
  ⟨by decide!,
   ((createInventoryObjects_ok ⟨"milk", "Milk", 3, 2, "ml"⟩ "created" 7).1
      ⟨"milk", "Milk", 3, "ml", 2, 7⟩ ⟨"milk", 3, "created", 7⟩ (by decide!)).2.2.2.2.2.2.2
      (by decide),
   (createInventoryObjects_ok ⟨"", "Milk", 3, 2, "ml"⟩ "created" 7).2 (Or.inr rfl)⟩

/-! ## Claim C30: a page size of zero -/

theorem GetLeftOversService_pageSize_zero (w : World) (sortBy pageParam : String) (page : Int)
    (hp : Atoi pageParam = .ok page) (hf : w.fails = false) (hf1 : w.next.fails = false) :
    GetLeftOversService w sortBy pageParam "0" =
      (.error (.panic "runtime error: integer divide by zero"), w.next.next) := by
  have h0 : Atoi "0" = .ok 0 := by decide
  have hoff : wrap64 (wrap64 (page - 1) * 0) = 0 := by
    rw [mul_zero]
    decide
  have hlt : ¬ ((0 : Int) < 0 ∨ (0 : Int) < 0) := by decide
  simp only [GetLeftOversService, hp, h0, hoff, GetLeftOversRepository, dbQueryChecked,
    leftoversQuery, dbQueryRow, hf, hf1, if_neg hlt, if_true, Bool.false_eq_true, if_false]

/-- C30, as the code has it: with pageSize "0" (which parses as an integer) both leftovers
queries are answered and the division `(totalItems + pageSize - 1) / pageSize` then runs
with divisor 0: `GetLeftOversService` ends in the runtime panic "integer divide by zero"
and returns neither a response nor an error value. -/
theorem GetLeftOversService_divides_by_zero :
    Atoi "1" = .ok 1 ∧ Atoi "0" = .ok 0 ∧
    (GetLeftOversService cafe "" "1" "0").1 =
      .error (.panic "runtime error: integer divide by zero") ∧
    (GetLeftOversService stockroom "quantity" "3" "0").1 =
      .error (.panic "runtime error: integer divide by zero") := by
  refine ⟨by decide, by decide, ?_, ?_⟩
  · rw [GetLeftOversService_pageSize_zero cafe "" "1" 1 (by decide) (by decide) (by decide)]
  · rw [GetLeftOversService_pageSize_zero stockroom "quantity" "3" 3 (by decide) (by decide)
      (by decide)]

/-! ## Claim C29: the allergen table may be visited in any order -/

theorem indentAllergens_loopVisiting_eq
    (visits : List (MenuItemIngredientInput × GoMap (List String)))
    (h : ∀ v ∈ visits, v.2.Perm allergensMap) :
    ∀ acc : List String,
      indentAllergens.loopVisiting visits acc =
        indentAllergens.loop allergensMap (visits.map Prod.fst) acc := by
  induction visits with
  | nil => intro acc; rfl
  | cons v rest ih =>
    intro acc
    obtain ⟨item, table⟩ := v
    have hperm : table.Perm allergensMap := h (item, table) (List.mem_cons_self _ _)
    have hrest : ∀ v ∈ rest, v.2.Perm allergensMap :=
      fun v hv => h v (List.mem_cons_of_mem _ hv)
    have hscan : indentAllergens.scan item.IngredientID table =
        indentAllergens.scan item.IngredientID allergensMap := by
      rw [indentAllergens_scan_perm item.IngredientID table hperm,
        indentAllergens_scan_perm item.IngredientID allergensMap (List.Perm.refl _)]
    simp only [indentAllergens.loopVisiting, List.map_cons, indentAllergens.loop, hscan]
    cases indentAllergens.scan item.IngredientID allergensMap with
    | none => exact ih hrest acc
    | some c => exact ih hrest (acc ++ [c])

/-- C29: no keyword of the table of `indentAllergens` is listed under two allergen
categories, so the result is a function of the ingredient list alone: whatever order the
table is visited in for each ingredient (every visit a permutation of the table), the list
of allergens is the one that the order of the source gives, `indentAllergens`. -/
theorem indentAllergens_order_independent
    (visits : List (MenuItemIngredientInput × GoMap (List String)))
    (h : ∀ v ∈ visits, v.2.Perm allergensMap) :
    KeywordsDisjoint allergensMap ∧
    indentAllergens.loopVisiting visits [] = indentAllergens (visits.map Prod.fst) :=
  ⟨allergensMap_disjoint, indentAllergens_loopVisiting_eq visits h []⟩

theorem indentAllergens_order_independent_witness :
    KeywordsDisjoint allergensMap ∧
    indentAllergens.loopVisiting
        [(⟨"milk", 2⟩, allergensMap.reverse), (⟨"water", 1⟩, allergensMap),
         (⟨"tofu", 1⟩, allergensMap.reverse)] [] =
      indentAllergens [⟨"milk", 2⟩, ⟨"water", 1⟩, ⟨"tofu", 1⟩] :=
  indentAllergens_order_independent
    [(⟨"milk", 2⟩, allergensMap.reverse), (⟨"water", 1⟩, allergensMap),
     (⟨"tofu", 1⟩, allergensMap.reverse)]
    (by
      intro v hv
      simp only [List.mem_cons, List.mem_singleton, List.not_mem_nil, or_false] at hv
      rcases hv with hv | hv | hv <;> subst hv
      · exact List.reverse_perm _
      · exact List.Perm.refl _
      · exact List.reverse_perm _)

/-! ## Claim C23: reading the special instructions back -/

theorem GetOrderRepository_ok (w : World) (id : Int) (order : Order)
    (h : (GetOrderRepository w id).1 = .ok order) : order.SpecialInstructions = none := by
  unfold GetOrderRepository dbQueryRow at h
  split at h
  · rename_i err w1 heq
    split at h <;> cases h
  · rename_i o w1 heq
    simp only at h
    injection h with h
    subst h
    split at heq
    · cases heq
    · split at heq
      · cases heq
      · rename_i a ha
        injection heq with h1 h2
        injection h1 with h1
        subst h1
        simp only [Option.map_eq_some'] at ha
        obtain ⟨r, _, hr⟩ := ha
        subst hr
        rfl

theorem GetOrderService_ok (w : World) (id : Int) (order : Order)
    (h : (GetOrderService w id).1 = .ok order) : order.SpecialInstructions = none := by
  unfold GetOrderService at h
  split at h
  · cases h
  · rename_i o w1 heq
    simp only at h
    injection h with h
    subst h
    exact GetOrderRepository_ok w id o (by rw [heq])

/-- C23, as the code has it: an order created with the instructions payload
`{"note":"hot"}` is stored with that payload, and `GetAllOrdersService` reads it back, but
`GetOrderService` (the query of `GetOrderRepository` does not select the column
`special_instructions`) returns the order with `SpecialInstructions` nil; an order created
without instructions is stored with `{"special_request":"no"}` and is read back by id with
`SpecialInstructions` nil as well. -/
theorem GetOrderService_drops_special_instructions :
    (CreateOrderService cafe ⟨"Ann", "card", [⟨"latte", 2⟩], some "\x7b\"note\":\"hot\"\x7d"⟩).1
      = none ∧
    (CreateOrderService cafe
        ⟨"Ann", "card", [⟨"latte", 2⟩], some "\x7b\"note\":\"hot\"\x7d"⟩).2.tables.orders.map
      (fun r => (r.id, r.special_instructions)) = [(1, some "\x7b\"note\":\"hot\"\x7d")] ∧
    (GetOrderService (CreateOrderService cafe
        ⟨"Ann", "card", [⟨"latte", 2⟩], some "\x7b\"note\":\"hot\"\x7d"⟩).2 1).1 =
      .ok ⟨1, 1, 5, "open", none, "card", 7, 7⟩ ∧
    (GetAllOrdersService (CreateOrderService cafe
        ⟨"Ann", "card", [⟨"latte", 2⟩], some "\x7b\"note\":\"hot\"\x7d"⟩).2).1 =
      .ok [⟨1, 1, 5, "open", some "\x7b\"note\":\"hot\"\x7d", "card", 7, 7⟩] ∧
    (CreateOrderService cafe ⟨"Ann", "card", [⟨"latte", 2⟩], none⟩).2.tables.orders.map
      (fun r => (r.id, r.special_instructions)) =
        [(1, some "\x7b\"special_request\":\"no\"\x7d")] ∧
    (GetOrderService (CreateOrderService cafe ⟨"Ann", "card", [⟨"latte", 2⟩], none⟩).2 1).1 =
      .ok ⟨1, 1, 5, "open", none, "card", 7, 7⟩ := by
  decide!

/-! ## Claim C22: a menu update does not touch the orders -/

theorem UpdateMenuItemRepository_error_tables (w : World) (id : String) (menuItem : MenuItem)
    (items : List MenuItemIngredient)
    (h : (UpdateMenuItemRepository w id menuItem items).1 ≠ none) :
    (UpdateMenuItemRepository w id menuItem items).2.tables = w.tables := by
  have hB := Begin_frame w
  unfold UpdateMenuItemRepository at h ⊢
  rcases hb : Begin w with ⟨r, w1⟩
  rw [hb] at hB h
  simp only at hB h
  cases r with
  | error err => exact hB.1
  | ok tx =>
    simp only at h ⊢
    have hP := addPriceHistory_frame tx w1 id menuItem.Price
    rcases hp : addPriceHistory tx w1 id menuItem.Price with ⟨r2, tx2, w2⟩
    rw [hp] at hP h
    simp only at hP h
    cases r2 with
    | some err => exact hP.1.trans hB.1
    | none =>
      simp only at h ⊢
      have hE := Exec_frame tx2 w2 (updateMenuItemQuery id menuItem)
      rcases he : tx2.Exec w2 (updateMenuItemQuery id menuItem) with ⟨r3, tx3, w3⟩
      rw [he] at hE h
      simp only at hE h
      cases r3 with
      | error err => exact hE.1.trans (hP.1.trans hB.1)
      | ok result =>
        simp only at h ⊢
        cases hc : checkRowsAffected result with
        | some err => exact hE.1.trans (hP.1.trans hB.1)
        | none =>
          simp only [hc] at h ⊢
          have hU := updateMenuItemIngredients_frame tx3 w3 id items
          rcases hu : updateMenuItemIngredients tx3 w3 id items with ⟨r4, tx4, w4⟩
          rw [hu] at hU h
          simp only at hU h
          cases r4 with
          | some err => exact hU.1.trans (hE.1.trans (hP.1.trans hB.1))
          | none =>
            simp only at h ⊢
            rcases hcm : tx4.Commit w4 with ⟨r5, w5⟩
            rw [hcm] at h
            cases r5 with
            | some err =>
              exact (Commit_error tx4 w4 w5 err hcm).1.trans
                (hU.1.trans (hE.1.trans (hP.1.trans hB.1)))
            | none => simp at h

theorem UpdateMenuItemRepository_orders (w : World) (id : String) (menuItem : MenuItem)
    (items : List MenuItemIngredient) :
    (UpdateMenuItemRepository w id menuItem items).2.tables.orders = w.tables.orders ∧
    (UpdateMenuItemRepository w id menuItem items).2.tables.order_items =
      w.tables.order_items := by
  cases h : (UpdateMenuItemRepository w id menuItem items).1 with
  | none =>
    obtain ⟨x, _, ht⟩ := UpdateMenuItemRepository_ok_tables w id menuItem items h
    rw [ht]
    exact ⟨rfl, rfl⟩
  | some err =>
    rw [UpdateMenuItemRepository_error_tables w id menuItem items (by rw [h]; simp)]
    exact ⟨rfl, rfl⟩

theorem validateMenuInventory_tables (w : World) (ingredients : List MenuItemIngredientInput) :
    (validateMenuInventory w ingredients).2.tables = w.tables := by
  unfold validateMenuInventory GetAllInventoryItemsRepository dbQuery
  cases hf : w.fails <;> simp

theorem UpdateMenuItemService_orders (w : World) (id : String) (req : CreateMenuRequest) :
    (UpdateMenuItemService w id req).2.tables.orders = w.tables.orders ∧
    (UpdateMenuItemService w id req).2.tables.order_items = w.tables.order_items := by
  have hV := validateMenuInventory_tables w req.Ingredients
  unfold UpdateMenuItemService
  rcases hv : validateMenuInventory w req.Ingredients with ⟨r, w1⟩
  rw [hv] at hV
  simp only at hV
  cases r with
  | some err =>
    simp only
    rw [hV]
    exact ⟨rfl, rfl⟩
  | none =>
    simp only
    cases hc : createMenuObjects { req with ID := id } with
    | error err =>
      simp only
      rw [hV]
      exact ⟨rfl, rfl⟩
    | ok p =>
      obtain ⟨menuItem, ings⟩ := p
      simp only
      have hU := UpdateMenuItemRepository_orders w1 id menuItem ings
      rcases hu : UpdateMenuItemRepository w1 id menuItem ings with ⟨r2, w2⟩
      rw [hu] at hU
      simp only at hU
      cases r2 with
      | some err =>
        simp only
        rw [hU.1, hU.2, hV]
        exact ⟨rfl, rfl⟩
      | none =>
        simp only
        rw [hU.1, hU.2, hV]
        exact ⟨rfl, rfl⟩

/-- C22: whatever the store state and the menu update, and whether the update succeeds or
fails, `UpdateMenuItemRepository` (and `UpdateMenuItemService` on top of it) leaves the
tables `orders` and `order_items` as they were: every stored order keeps its total_amount
and every stored order item keeps its price_at_order and quantity. -/
theorem UpdateMenuItemRepository_keeps_orders (w : World) (id : String) (menuItem : MenuItem)
    (items : List MenuItemIngredient) (req : CreateMenuRequest) :
    (UpdateMenuItemRepository w id menuItem items).2.tables.orders = w.tables.orders ∧
    (UpdateMenuItemRepository w id menuItem items).2.tables.order_items =
      w.tables.order_items ∧
    (UpdateMenuItemRepository w id menuItem items).2.tables.orders.map
        (fun o => (o.id, o.total_amount)) =
      w.tables.orders.map (fun o => (o.id, o.total_amount)) ∧
    (UpdateMenuItemRepository w id menuItem items).2.tables.order_items.map
        (fun i => (i.order_id, i.menu_item_id, i.price_at_order, i.quantity)) =
      w.tables.order_items.map
        (fun i => (i.order_id, i.menu_item_id, i.price_at_order, i.quantity)) ∧
    (UpdateMenuItemService w id req).2.tables.orders = w.tables.orders ∧
    (UpdateMenuItemService w id req).2.tables.order_items = w.tables.order_items := by
  have h := UpdateMenuItemRepository_orders w id menuItem items
  have hs := UpdateMenuItemService_orders w id req
  refine ⟨h.1, h.2, ?_, ?_, hs.1, hs.2⟩
  · rw [h.1]
  · rw [h.2]

/-! ## Claim C21: what an order update replaces -/

theorem insertOrderItems_ok (orderID : Int) (items : List OrderItem) :
    ∀ (tx tx1 : Tx) (w w1 : World), insertOrderItems orderID items tx w = (none, tx1, w1) →
      tx1.work = { tx.work with
        order_items := tx.work.order_items ++ items.map (orderItemRow orderID) } := by
  induction items with
  | nil =>
    intro tx tx1 w w1 h
    simp only [insertOrderItems, Prod.mk.injEq, true_and] at h
    rw [← h.1]
    simp
  | cons item rest ih =>
    intro tx tx1 w w1 h
    unfold insertOrderItems at h
    rcases he : tx.Exec w (itemQuery orderID item) with ⟨r, tx2, w2⟩
    rw [he] at h
    cases r with
    | error err => simp at h
    | ok n =>
      simp only at h
      rw [ih tx2 tx1 w2 w1 h, Exec_ok tx tx2 w w2 _ n he]
      simp [itemQuery, orderItemRow]

theorem updateOrderItems_frame (tx : Tx) (w : World) (id : Int) (items : List OrderItem) :
    (updateOrderItems tx w id items).2.2.tables = w.tables := by
  have hE := Exec_frame tx w (itemDeleteQuery id)
  unfold updateOrderItems
  rcases he : tx.Exec w (itemDeleteQuery id) with ⟨r, tx2, w2⟩
  rw [he] at hE
  simp only at hE
  cases r with
  | error err => exact hE.1
  | ok n =>
    simp only
    exact (insertOrderItems_frame id items tx2 w2).1.trans hE.1

theorem updateOrderItems_ok (tx tx1 : Tx) (w w1 : World) (id : Int) (items : List OrderItem)
    (h : updateOrderItems tx w id items = (none, tx1, w1)) :
    tx1.work = { tx.work with
      order_items := (tx.work.order_items.filter fun r => ¬ r.order_id = id) ++
        items.map (orderItemRow id) } := by
  unfold updateOrderItems at h
  rcases he : tx.Exec w (itemDeleteQuery id) with ⟨r, tx2, w2⟩
  rw [he] at h
  cases r with
  | error err => simp at h
  | ok n =>
    simp only at h
    rw [insertOrderItems_ok id items tx2 tx1 w2 w1 h, Exec_ok tx tx2 w w2 _ n he]
    simp [itemDeleteQuery]

theorem UpdateOrderRepository_ok_tables (w : World) (id : Int) (order : Order)
    (items : List OrderItem) (h : (UpdateOrderRepository w id order items).1 = none) :
    (∃ r ∈ w.tables.orders, r.id = id) ∧
    (UpdateOrderRepository w id order items).2.tables =
      updatedOrderTables w.tables id order items w.now := by
  have hB := Begin_frame w
  unfold UpdateOrderRepository at h ⊢
  rcases hb : Begin w with ⟨r, w1⟩
  rw [hb] at hB h
  simp only at hB h
  cases r with
  | error err => simp at h
  | ok tx =>
    simp only at h ⊢
    have hwork := Begin_work w w1 tx hb
    rcases he : tx.Exec w1 (updateOrderQuery id order w1.now) with ⟨r3, tx3, w3⟩
    rw [he] at h
    cases r3 with
    | error err => simp at h
    | ok result =>
      simp only at h ⊢
      have hw3 := Exec_ok tx tx3 w1 w3 _ result he
      have hres : result = (tx.work.orders.filter fun r => r.id = id).length := by
        unfold Tx.Exec at he
        split at he
        · simp at he
        · simp only [Prod.mk.injEq, Except.ok.injEq] at he
          rw [← he.1]
          rfl
      cases hc : checkRowsAffected result with
      | some err => simp [hc] at h
      | none =>
        simp only [hc] at h ⊢
        rcases hu : updateOrderItems tx3 w3 id items with ⟨r4, tx4, w4⟩
        rw [hu] at h
        cases r4 with
        | some err => simp at h
        | none =>
          simp only at h ⊢
          have hw4 := updateOrderItems_ok tx3 tx4 w3 w4 id items hu
          rcases hcm : tx4.Commit w4 with ⟨r5, w5⟩
          rw [hcm] at h
          cases r5 with
          | some err => simp at h
          | none =>
            simp only
            constructor
            · unfold checkRowsAffected at hc
              split at hc
              · cases hc
              · rename_i hne
                rw [hres, hwork] at hne
                have hpos : 0 < (w.tables.orders.filter fun r => decide (r.id = id)).length :=
                  Nat.pos_of_ne_zero hne
                obtain ⟨r, hr⟩ := List.exists_mem_of_length_pos hpos
                rw [List.mem_filter] at hr
                exact ⟨r, hr.1, of_decide_eq_true hr.2⟩
            · rw [(Commit_ok tx4 w4 w5 hcm).1, hw4, hw3, hwork, hB.2.1]
              rfl

theorem UpdateOrderRepository_error_tables (w : World) (id : Int) (order : Order)
    (items : List OrderItem) (h : (UpdateOrderRepository w id order items).1 ≠ none) :
    (UpdateOrderRepository w id order items).2.tables = w.tables := by
  have hB := Begin_frame w
  unfold UpdateOrderRepository at h ⊢
  rcases hb : Begin w with ⟨r, w1⟩
  rw [hb] at hB h
  simp only at hB h
  cases r with
  | error err => exact hB.1
  | ok tx =>
    simp only at h ⊢
    have hE := Exec_frame tx w1 (updateOrderQuery id order w1.now)
    rcases he : tx.Exec w1 (updateOrderQuery id order w1.now) with ⟨r3, tx3, w3⟩
    rw [he] at hE h
    simp only at hE h
    cases r3 with
    | error err => exact hE.1.trans hB.1
    | ok result =>
      simp only at h ⊢
      cases hc : checkRowsAffected result with
      | some err => exact hE.1.trans hB.1
      | none =>
        simp only [hc] at h ⊢
        have hU := updateOrderItems_frame tx3 w3 id items
        rcases hu : updateOrderItems tx3 w3 id items with ⟨r4, tx4, w4⟩
        rw [hu] at hU h
        simp only at hU h
        cases r4 with
        | some err => exact hU.trans (hE.1.trans hB.1)
        | none =>
          simp only at h ⊢
          rcases hcm : tx4.Commit w4 with ⟨r5, w5⟩
          rw [hcm] at h
          cases r5 with
          | some err =>
            exact (Commit_error tx4 w4 w5 err hcm).1.trans (hU.trans (hE.1.trans hB.1))
          | none => simp at h

theorem UpdateOrderRepository_unknown_id (w : World) (id : Int) (order : Order)
    (items : List OrderItem) (hnone : ∀ r ∈ w.tables.orders, r.id ≠ id)
    (hf0 : w.fails = false) (hf1 : w.next.fails = false) :
    UpdateOrderRepository w id order items = (some .ErrNotExistConflict, w.next.next) := by
  have hlen : (w.tables.orders.filter fun r => decide (r.id = id)).length = 0 := by
    rw [List.length_eq_zero, List.filter_eq_nil_iff]
    intro r hr
    simpa using hnone r hr
  simp [UpdateOrderRepository, Begin, Tx.Exec, hf0, hf1, updateOrderQuery, hlen,
    checkRowsAffected]

/-- C21: a successful `UpdateOrderRepository id` finds a stored order with that id and
leaves the store as `updatedOrderTables` describes: the line items of that order are
exactly the new ones (the previous ones removed), its header carries the new fields, every
other order and the line items of every other order are unchanged, and so is every other
table; for an id with no stored order, on a store that answers, it fails with
`ErrNotExistConflict` (status 404) and the tables are unchanged. -/
theorem UpdateOrderRepository_replaces_items (w : World) (id : Int) (order : Order)
    (items : List OrderItem) :
    ((UpdateOrderRepository w id order items).1 = none →
      (∃ r ∈ w.tables.orders, r.id = id) ∧
      (UpdateOrderRepository w id order items).2.tables =
        updatedOrderTables w.tables id order items w.now ∧
      (UpdateOrderRepository w id order items).2.tables.order_items.filter
          (fun r => decide (r.order_id = id)) = items.map (orderItemRow id) ∧
      (UpdateOrderRepository w id order items).2.tables.order_items.filter
          (fun r => decide (r.order_id ≠ id)) =
        w.tables.order_items.filter (fun r => decide (r.order_id ≠ id)) ∧
      (UpdateOrderRepository w id order items).2.tables.orders.filter
          (fun r => decide (r.id ≠ id)) =
        w.tables.orders.filter (fun r => decide (r.id ≠ id)) ∧
      (UpdateOrderRepository w id order items).2.tables.orders.filter
          (fun r => decide (r.id = id)) =
        (w.tables.orders.filter (fun r => decide (r.id = id))).map fun r =>
          { r with customer_id := order.CustomerID, total_amount := order.TotalAmount,
                   special_instructions := order.SpecialInstructions,
                   payment_method := order.PaymentMethod, status := order.Status,
                   updated_at := w.now }) ∧
    ((∀ r ∈ w.tables.orders, r.id ≠ id) → w.fails = false → w.next.fails = false →
      (UpdateOrderRepository w id order items).1 = some .ErrNotExistConflict ∧
      mapAppErrorToStatus .ErrNotExistConflict = 404 ∧
      (UpdateOrderRepository w id order items).2.tables = w.tables) := by
  constructor
  · intro h
    obtain ⟨hex, ht⟩ := UpdateOrderRepository_ok_tables w id order items h
    refine ⟨hex, ht, ?_, ?_, ?_, ?_⟩
    · rw [ht]
      simp only [updatedOrderTables, List.filter_append, List.filter_filter]
      have h1 : (w.tables.order_items.filter fun r =>
          decide (r.order_id = id) && decide (¬ r.order_id = id)) = [] := by
        rw [List.filter_eq_nil_iff]
        intro r _
        by_cases hr : r.order_id = id <;> simp [hr]
      have h2 : ((items.map (orderItemRow id)).filter fun r => decide (r.order_id = id)) =
          items.map (orderItemRow id) := by
        rw [List.filter_eq_self]
        intro r hr
        obtain ⟨it, _, hit⟩ := List.mem_map.1 hr
        subst hit
        simp [orderItemRow]
      rw [h1, h2, List.nil_append]
    · rw [ht]
      simp only [updatedOrderTables, List.filter_append, List.filter_filter]
      have h2 : ((items.map (orderItemRow id)).filter fun r => decide (r.order_id ≠ id)) =
          [] := by
        rw [List.filter_eq_nil_iff]
        intro r hr
        obtain ⟨it, _, hit⟩ := List.mem_map.1 hr
        subst hit
        simp [orderItemRow]
      rw [h2, List.append_nil]
      apply List.filter_congr
      intro r _
      by_cases hr : r.order_id = id <;> simp [hr]
    · rw [ht]
      simp only [updatedOrderTables]
      induction w.tables.orders with
      | nil => rfl
      | cons r rest ih =>
        by_cases hr : r.id = id
        · simp only [List.map_cons, hr, if_true, List.filter_cons]
          simpa using ih
        · simp only [List.map_cons, hr, if_false, List.filter_cons]
          simpa [hr] using ih
    · rw [ht]
      simp only [updatedOrderTables]
      induction w.tables.orders with
      | nil => rfl
      | cons r rest ih =>
        by_cases hr : r.id = id
        · simp only [List.map_cons, hr, if_true, List.filter_cons]
          simpa [hr.symm] using ih
        · simp only [List.map_cons, hr, if_false, List.filter_cons]
          simpa [hr] using ih
  · intro hnone hf0 hf1
    rw [UpdateOrderRepository_unknown_id w id order items hnone hf0 hf1]
    exact ⟨rfl, by decide, rfl⟩

theorem UpdateOrderRepository_replaces_items_witness :
    (UpdateOrderRepository cafeOrdered 1 ⟨0, 1, 15 / 2, "open", none, "cash", 7, 7⟩
        [⟨"", 0, 3, 5 / 2, "latte"⟩]).1 = none ∧
    (UpdateOrderRepository cafeOrdered 1 ⟨0, 1, 15 / 2, "open", none, "cash", 7, 7⟩
        [⟨"", 0, 3, 5 / 2, "latte"⟩]).2.tables.order_items.filter
          (fun r => decide (r.order_id = 1)) =
      [⟨"", 0, 3, 5 / 2, "latte"⟩].map (orderItemRow 1) ∧
    (UpdateOrderRepository cafeOrdered 9 ⟨0, 1, 15 / 2, "open", none, "cash", 7, 7⟩
        [⟨"", 0, 3, 5 / 2, "latte"⟩]).1 = some .ErrNotExistConflict :=
  ⟨by decide!,
   ((UpdateOrderRepository_replaces_items cafeOrdered 1
      ⟨0, 1, 15 / 2, "open", none, "cash", 7, 7⟩ [⟨"", 0, 3, 5 / 2, "latte"⟩]).1
      (by decide!)).2.2.1,
   ((UpdateOrderRepository_replaces_items cafeOrdered 9
      ⟨0, 1, 15 / 2, "open", none, "cash", 7, 7⟩ [⟨"", 0, 3, 5 / 2, "latte"⟩]).2
      (by decide!) (by decide) (by decide)).1⟩

/-! ## Claim C24: customer resolution -/

theorem IndentCustomerID_found (w : World) (name : String) (instr : Option String)
    (c : CustomerRow) (hf : w.fails = false)
    (h : w.tables.customers.find? (fun c => decide (c.name = name)) = some c) :
    IndentCustomerID w name instr = (.ok c.id, w.next) := by
  simp [IndentCustomerID, dbQueryRow, hf, h]

theorem IndentCustomerID_created (w : World) (name : String) (instr : Option String)
    (hname : name ≠ "") (hf : w.fails = false) (hf1 : w.next.fails = false)
    (h : w.tables.customers.find? (fun c => decide (c.name = name)) = none) :
    IndentCustomerID w name instr =
      (.ok (w.customerSeq + 1),
       { w.next.next with
         customerSeq := w.customerSeq + 1
         tables := { w.tables with customers := w.tables.customers ++
           [createdCustomerRow (w.customerSeq + 1) name instr] } }) := by
  simp [IndentCustomerID, dbQueryRow, hf, h, NewCustomer, hname, insertCustomer, hf1,
    createdCustomerRow]

/-- C24: on a store that answers, for every non-empty name, `IndentCustomerID` returns the
id of the stored customer with exactly that name and leaves the tables unchanged when there
is one, and otherwise inserts exactly one customer row, with the id that the store assigns,
the name, the email `fromNameToID name` (the name in lower case, every code point mapped as
`strings.ToLower` does, with every space replaced by an underscore) followed by
"@gmail.com", and the preferences given or their default; a
second call with the same name returns the same id and changes no table, and when the name
was stored at most once before the two calls it is stored exactly once after them. -/
theorem IndentCustomerID_find_or_create (w : World) (name : String)
    (instr instr2 : Option String) (hname : name ≠ "") (hf : ∀ b ∈ w.faults, b = false) :
    (∀ c, w.tables.customers.find? (fun c => decide (c.name = name)) = some c →
      (IndentCustomerID w name instr).1 = .ok c.id ∧
      (IndentCustomerID w name instr).2.tables = w.tables) ∧
    (w.tables.customers.find? (fun c => decide (c.name = name)) = none →
      (IndentCustomerID w name instr).1 = .ok (w.customerSeq + 1) ∧
      (IndentCustomerID w name instr).2.tables =
        { w.tables with customers := w.tables.customers ++
          [createdCustomerRow (w.customerSeq + 1) name instr] }) ∧
    (IndentCustomerID (IndentCustomerID w name instr).2 name instr2).1 =
      (IndentCustomerID w name instr).1 ∧
    (IndentCustomerID (IndentCustomerID w name instr).2 name instr2).2.tables =
      (IndentCustomerID w name instr).2.tables ∧
    ((w.tables.customers.filter fun c => decide (c.name = name)).length ≤ 1 →
      ((IndentCustomerID (IndentCustomerID w name instr).2 name instr2).2.tables.customers.filter
        fun c => decide (c.name = name)).length = 1) := by
  obtain ⟨hf0, hfa⟩ := fails_of_noFaults w hf
  obtain ⟨hf1, hfb⟩ := fails_of_noFaults w.next hfa
  obtain ⟨hf2, _⟩ := fails_of_noFaults w.next.next hfb
  cases hfind : w.tables.customers.find? (fun c => decide (c.name = name)) with
  | some c =>
    have h1 := IndentCustomerID_found w name instr c hf0 hfind
    have h2 := IndentCustomerID_found w.next name instr2 c hf1 hfind
    rw [h1]
    simp only [h2]
    refine ⟨?_, ?_, ?_, ?_, ?_⟩
    · intro c1 hc1
      injection hc1 with hc1
      subst hc1
      trivial
    · intro h
      cases h
    · trivial
    · trivial
    · intro hle
      have hmem : c ∈ w.tables.customers.filter fun c => decide (c.name = name) :=
        List.mem_filter.2 ⟨List.mem_of_find?_eq_some hfind,
          List.find?_some (p := fun (c : CustomerRow) => decide (c.name = name)) hfind⟩
      have hpos := List.length_pos_of_mem hmem
      show (w.tables.customers.filter fun c => decide (c.name = name)).length = 1
      omega
  | none =>
    have h1 := IndentCustomerID_created w name instr hname hf0 hf1 hfind
    have hfind2 : ({ w.tables with customers := w.tables.customers ++
        [createdCustomerRow (w.customerSeq + 1) name instr] } : Tables).customers.find?
          (fun c => decide (c.name = name)) =
        some (createdCustomerRow (w.customerSeq + 1) name instr) := by
      simp [List.find?_append, hfind, createdCustomerRow]
    have h2 := IndentCustomerID_found
      { w.next.next with
        customerSeq := w.customerSeq + 1
        tables := { w.tables with customers := w.tables.customers ++
          [createdCustomerRow (w.customerSeq + 1) name instr] } }
      name instr2 (createdCustomerRow (w.customerSeq + 1) name instr) hf2 hfind2
    rw [h1]
    simp only [h2]
    refine ⟨?_, ?_, ?_, ?_, ?_⟩
    · intro c hc
      cases hc
    · intro _
      trivial
    · trivial
    · trivial
    · intro _
      have hnil : (w.tables.customers.filter fun c => decide (c.name = name)) = [] := by
        rw [List.filter_eq_nil_iff]
        intro c hc
        exact List.find?_eq_none.1 hfind c hc
      show ((w.tables.customers ++ [createdCustomerRow (w.customerSeq + 1) name instr]).filter
        fun c => decide (c.name = name)).length = 1
      rw [List.filter_append, hnil]
      simp [createdCustomerRow]

theorem IndentCustomerID_find_or_create_witness :
    (IndentCustomerID cafe "Bob Lee" none).1 = .ok 2 ∧
    (IndentCustomerID cafe "Bob Lee" none).2.tables =
      { cafe.tables with customers := cafe.tables.customers ++
        [createdCustomerRow 2 "Bob Lee" none] } ∧
    createdCustomerRow 2 "Bob Lee" none =
      ⟨2, "Bob Lee", "bob_lee@gmail.com", some "\x7b\"preferences\": true\x7d"⟩ ∧
    (IndentCustomerID cafe "Émile ZOLA" none).2.tables.customers =
      cafe.tables.customers ++
        [⟨2, "Émile ZOLA", "émile_zola@gmail.com", some "\x7b\"preferences\": true\x7d"⟩] ∧
    (IndentCustomerID (IndentCustomerID cafe "Bob Lee" none).2 "Bob Lee" none).1 =
      (IndentCustomerID cafe "Bob Lee" none).1 ∧
    ((IndentCustomerID (IndentCustomerID cafe "Bob Lee" none).2 "Bob Lee"
        none).2.tables.customers.filter fun c => decide (c.name = "Bob Lee")).length = 1 :=
  ⟨((IndentCustomerID_find_or_create cafe "Bob Lee" none none (by decide)
      (by decide)).2.1 (by decide)).1,
   ((IndentCustomerID_find_or_create cafe "Bob Lee" none none (by decide)
      (by decide)).2.1 (by decide)).2,
   by decide,
   (congrArg Tables.customers
     ((IndentCustomerID_find_or_create cafe "Émile ZOLA" none none (by decide)
       (by decide)).2.1 (by decide)).2).trans (by decide),
   (IndentCustomerID_find_or_create cafe "Bob Lee" none none (by decide) (by decide)).2.2.1,
   (IndentCustomerID_find_or_create cafe "Bob Lee" none none (by decide) (by decide)).2.2.2.2
     (by decide)⟩

/-! ## Claim C27: an order update debits the stock again -/

theorem SameStock_refl (w : World) : SameStock w w := ⟨rfl, rfl, rfl⟩

theorem SameStock_trans {w w1 w2 : World} (h1 : SameStock w w1) (h2 : SameStock w1 w2) :
    SameStock w w2 :=
  ⟨h2.1.trans h1.1, h2.2.1.trans h1.2.1, h2.2.2.trans h1.2.2⟩

theorem SameStock_of_tables {w w1 : World} (ht : w1.tables = w.tables) : SameStock w w1 := by
  unfold SameStock
  rw [ht]
  exact ⟨rfl, rfl, rfl⟩

theorem IndentCustomerID_sameStock (w : World) (name : String) (instr : Option String) :
    SameStock w (IndentCustomerID w name instr).2 := by
  unfold IndentCustomerID dbQueryRow
  cases hf : w.fails with
  | true => exact ⟨rfl, rfl, rfl⟩
  | false =>
    simp only [Bool.false_eq_true, if_false]
    cases (w.tables.customers.find? fun c => decide (c.name = name)).map fun c => c.id with
    | some cid => exact ⟨rfl, rfl, rfl⟩
    | none =>
      simp only [if_true]
      cases NewCustomer name instr with
      | error e => exact ⟨rfl, rfl, rfl⟩
      | ok customer =>
        simp only
        unfold insertCustomer
        cases hf1 : w.next.fails <;> exact ⟨rfl, rfl, rfl⟩

theorem CalculateIngredientsForOrder_ok (w : World) (u : GoMap Int) (m : GoMap ℚ)
    (h : (CalculateIngredientsForOrder w u).1 = .ok m) :
    m = (w.tables.menu_item_ingredients.filter fun r =>
      decide (r.menu_item_id ∈ GoMap.keys u)).foldl (CalculateIngredientsForOrder.step u) [] := by
  unfold CalculateIngredientsForOrder dbQuery at h
  cases hf : w.fails with
  | true => simp [hf] at h
  | false =>
    simp only [hf, Bool.false_eq_true, if_false] at h
    injection h with h
    exact h.symm

theorem requiredIngredients_nodup (t : Tables) (items : List OrderItemInput) :
    (GoMap.keys (requiredIngredients t items)).Nodup :=
  CalculateIngredientsForOrder.foldl_nodup _ _ [] (by simp [GoMap.keys])

theorem validateOrder_ok_tables (w : World) (req : CreateOrderRequest) (prices : GoMap ℚ)
    (total : ℚ) (h : (validateOrder w req).1 = .ok (prices, total)) :
    (validateOrder w req).2.tables =
      { w.tables with
        inventory := debitedInventory (requiredIngredients w.tables req.Items) w.now
          w.tables.inventory
        inventory_transactions := w.tables.inventory_transactions ++
          saleLedgerRows (requiredIngredients w.tables req.Items) w.now } := by
  have hG := GetMenuItemsAndPrice_world w (req.Items.map fun item => item.ProductID)
  unfold validateOrder at h ⊢
  simp only at h ⊢
  rcases hg : GetMenuItemsAndPrice w (req.Items.map fun item => item.ProductID) with ⟨r, w1⟩
  rw [hg] at hG h ⊢
  simp only at hG h
  subst hG
  cases r with
  | error err => simp at h
  | ok menuItems =>
    simp only at h ⊢
    cases ht : validateOrder.total menuItems req.Items 0 with
    | error err => simp [ht] at h
    | ok totalAmount =>
      simp only [ht] at h ⊢
      have hC := CalculateIngredientsForOrder_world w.next (validateOrder.quantities req.Items)
      have hCok := CalculateIngredientsForOrder_ok w.next (validateOrder.quantities req.Items)
      rcases hc : CalculateIngredientsForOrder w.next (validateOrder.quantities req.Items)
        with ⟨r2, w2⟩
      rw [hc] at hC hCok h
      simp only at hC hCok h
      subst hC
      cases r2 with
      | error err => simp at h
      | ok ing =>
        simp only at h ⊢
        have hq : ing = requiredIngredients w.tables req.Items := hCok ing rfl
        subst hq
        have hU := UpdateInventoryForSale_ok_tables w.next.next
          (requiredIngredients w.tables req.Items) (requiredIngredients_nodup _ _)
        rcases hu : UpdateInventoryForSale w.next.next (requiredIngredients w.tables req.Items)
          with ⟨r3, w3⟩
        rw [hu] at hU h
        cases r3 with
        | some err => simp at h
        | none => exact hU rfl

theorem createObject_ok_tables (w : World) (req : CreateOrderRequest) (order : Order)
    (items : List OrderItem) (h : (createObject w req).1 = .ok (order, items)) :
    (createObject w req).2.tables.inventory =
      debitedInventory (requiredIngredients w.tables req.Items) w.now w.tables.inventory ∧
    (createObject w req).2.tables.inventory_transactions =
      w.tables.inventory_transactions ++
        saleLedgerRows (requiredIngredients w.tables req.Items) w.now ∧
    (createObject w req).2.tables.menu_item_ingredients = w.tables.menu_item_ingredients := by
  have hV := validateOrder_ok_tables w req
  unfold createObject at h ⊢
  rcases hv : validateOrder w req with ⟨r, w1⟩
  rw [hv] at hV h
  cases r with
  | error err => simp at h
  | ok p =>
    obtain ⟨prices, total⟩ := p
    simp only at hV h ⊢
    have ht := hV prices total rfl
    have hI := IndentCustomerID_sameStock w1 req.CustomerName req.Instructions
    rcases hi : IndentCustomerID w1 req.CustomerName req.Instructions with ⟨r2, w2⟩
    rw [hi] at hI h
    unfold SameStock at hI
    simp only at hI
    rw [ht] at hI
    cases r2 with
    | error err => simp at h
    | ok customerId =>
      simp only at h ⊢
      cases hn : NewOrder customerId total req w2.now with
      | error err => simp [hn] at h
      | ok order1 =>
        simp only [hn] at h ⊢
        cases hit : NewOrderItems req.Items prices with
        | error err => simp [hit] at h
        | ok items1 => exact hI

theorem insertOrder_work (tx tx1 : Tx) (w w1 : World) (order : Order) (orderID : Int)
    (h : tx.insertOrder w order = (.ok orderID, tx1, w1)) :
    tx1.work.inventory = tx.work.inventory ∧
    tx1.work.inventory_transactions = tx.work.inventory_transactions ∧
    tx1.work.menu_item_ingredients = tx.work.menu_item_ingredients := by
  unfold Tx.insertOrder at h
  cases hf : w.fails with
  | true => simp [hf] at h
  | false =>
    simp only [hf, Bool.false_eq_true, if_false, Prod.mk.injEq] at h
    rw [← h.2.1]
    exact ⟨rfl, rfl, rfl⟩

theorem AddOrderRepository_sameStock (w : World) (order : Order) (items : List OrderItem) :
    SameStock w (AddOrderRepository w order items).2 := by
  cases hres : (AddOrderRepository w order items).1 with
  | some err =>
    exact SameStock_of_tables
      (AddOrderRepository_error_tables w order items (by rw [hres]; simp))
  | none =>
    have hB := Begin_frame w
    unfold AddOrderRepository at hres ⊢
    rcases hb : Begin w with ⟨r, w1⟩
    rw [hb] at hB hres
    simp only at hB hres
    cases r with
    | error err => simp at hres
    | ok tx =>
      simp only at hres ⊢
      have hwork := Begin_work w w1 tx hb
      rcases hi : tx.insertOrder w1 order with ⟨r2, tx2, w2⟩
      rw [hi] at hres
      cases r2 with
      | error err => simp at hres
      | ok orderID =>
        simp only at hres ⊢
        have hw2 := insertOrder_work tx tx2 w1 w2 order orderID hi
        rcases hl : insertOrderItems orderID items tx2 w2 with ⟨r3, tx3, w3⟩
        rw [hl] at hres
        cases r3 with
        | some err => simp at hres
        | none =>
          simp only at hres ⊢
          have hw3 := insertOrderItems_ok orderID items tx2 tx3 w2 w3 hl
          rcases hc : tx3.Commit w3 with ⟨r4, w4⟩
          rw [hc] at hres
          cases r4 with
          | some err => simp at hres
          | none =>
            simp only
            unfold SameStock
            rw [(Commit_ok tx3 w3 w4 hc).1, hw3]
            simp only
            rw [hw2.1, hw2.2.1, hw2.2.2, hwork]
            exact ⟨rfl, rfl, rfl⟩

theorem UpdateOrderRepository_sameStock (w : World) (id : Int) (order : Order)
    (items : List OrderItem) : SameStock w (UpdateOrderRepository w id order items).2 := by
  cases hres : (UpdateOrderRepository w id order items).1 with
  | some err =>
    exact SameStock_of_tables
      (UpdateOrderRepository_error_tables w id order items (by rw [hres]; simp))
  | none =>
    unfold SameStock
    rw [(UpdateOrderRepository_ok_tables w id order items hres).2]
    exact ⟨rfl, rfl, rfl⟩

theorem CreateOrderService_ok_tables (w : World) (req : CreateOrderRequest)
    (h : (CreateOrderService w req).1 = none) :
    (CreateOrderService w req).2.tables.inventory =
      debitedInventory (requiredIngredients w.tables req.Items) w.now w.tables.inventory ∧
    (CreateOrderService w req).2.tables.inventory_transactions =
      w.tables.inventory_transactions ++
        saleLedgerRows (requiredIngredients w.tables req.Items) w.now ∧
    (CreateOrderService w req).2.tables.menu_item_ingredients =
      w.tables.menu_item_ingredients := by
  have hO := createObject_ok_tables w req
  unfold CreateOrderService at h ⊢
  rcases hc : createObject w req with ⟨r, w1⟩
  rw [hc] at hO h
  cases r with
  | error err => simp at h
  | ok p =>
    obtain ⟨order, items⟩ := p
    simp only at hO h ⊢
    have ht := hO order items rfl
    have hA := AddOrderRepository_sameStock w1 order items
    rcases ha : AddOrderRepository w1 order items with ⟨r2, w2⟩
    rw [ha] at hA h
    unfold SameStock at hA
    simp only at hA
    cases r2 with
    | some err => simp at h
    | none =>
      simp only
      rw [hA.1, hA.2.1, hA.2.2]
      exact ht

theorem UpdateOrderService_ok_tables (w : World) (id : Int) (req : CreateOrderRequest)
    (h : (UpdateOrderService w id req).1 = none) :
    (UpdateOrderService w id req).2.tables.inventory =
      debitedInventory (requiredIngredients w.tables req.Items) w.now w.tables.inventory ∧
    (UpdateOrderService w id req).2.tables.inventory_transactions =
      w.tables.inventory_transactions ++
        saleLedgerRows (requiredIngredients w.tables req.Items) w.now ∧
    (UpdateOrderService w id req).2.tables.menu_item_ingredients =
      w.tables.menu_item_ingredients := by
  have hO := createObject_ok_tables w req
  unfold UpdateOrderService at h ⊢
  rcases hc : createObject w req with ⟨r, w1⟩
  rw [hc] at hO h
  cases r with
  | error err => simp at h
  | ok p =>
    obtain ⟨order, items⟩ := p
    simp only at hO h ⊢
    have ht := hO order items rfl
    have hA := UpdateOrderRepository_sameStock w1 id order items
    rcases ha : UpdateOrderRepository w1 id order items with ⟨r2, w2⟩
    rw [ha] at hA h
    unfold SameStock at hA
    simp only at hA
    cases r2 with
    | some err => simp at h
    | none =>
      simp only
      rw [hA.1, hA.2.1, hA.2.2]
      exact ht

theorem CreateOrderService_now (w : World) (req : CreateOrderRequest)
    (h : (CreateOrderService w req).1 = none) : (CreateOrderService w req).2.now = w.now := by
  have hO := (createObject_sameOrders w req).2.2.2
  unfold CreateOrderService at h ⊢
  rcases hc : createObject w req with ⟨r, w1⟩
  rw [hc] at hO h
  cases r with
  | error err => simp at h
  | ok p =>
    obtain ⟨order, items⟩ := p
    simp only at hO h ⊢
    have hB := Begin_frame w1
    unfold AddOrderRepository at h ⊢
    rcases hb : Begin w1 with ⟨r1, w2⟩
    rw [hb] at hB h
    simp only at hB h
    cases r1 with
    | error err => simp at h
    | ok tx =>
      simp only at h ⊢
      have hI := insertOrder_frame tx w2 order
      rcases hi : tx.insertOrder w2 order with ⟨r2, tx2, w3⟩
      rw [hi] at hI h
      simp only at hI h
      cases r2 with
      | error err => simp at h
      | ok orderID =>
        simp only at h ⊢
        have hL := insertOrderItems_frame orderID items tx2 w3
        rcases hl : insertOrderItems orderID items tx2 w3 with ⟨r3, tx3, w4⟩
        rw [hl] at hL h
        simp only at hL h
        cases r3 with
        | some err => simp at h
        | none =>
          simp only at h ⊢
          rcases hcm : tx3.Commit w4 with ⟨r4, w5⟩
          rw [hcm] at h
          cases r4 with
          | some err => simp at h
          | none =>
            simp only
            rw [(Commit_ok tx3 w4 w5 hcm).2.1, hL.2.1, hI.2.1, hB.2.1, hO]

theorem debitedInventory_twice (q : GoMap ℚ) (now : Nat) (inventory : List InventoryRow) :
    debitedInventory q now (debitedInventory q now inventory) =
      inventory.map fun r =>
        match q.get? r.id with
        | some a => { r with stock := r.stock - a - a, last_updated := now }
        | none => r := by
  unfold debitedInventory
  rw [List.map_map]
  apply List.map_congr_left
  intro r _
  simp only [Function.comp]
  cases hq : q.get? r.id with
  | none => simp [hq]
  | some a => simp [hq]

theorem requiredIngredients_get? (t : Tables) (items : List OrderItemInput) (ing : String) :
    (requiredIngredients t items).get? ing =
      if ∃ r ∈ t.menu_item_ingredients, r.ingredient_id = ing ∧
          r.menu_item_id ∈ GoMap.keys (validateOrder.quantities items) then
        some (accumulatedAmount t.menu_item_ingredients (validateOrder.quantities items) ing)
      else none := by
  unfold requiredIngredients
  rw [CalculateIngredientsForOrder.foldl_get?, recipeTerms_filter]
  have hiff : (∃ r ∈ t.menu_item_ingredients.filter fun r =>
        decide (r.menu_item_id ∈ GoMap.keys (validateOrder.quantities items)),
        r.ingredient_id = ing ∧
          ((validateOrder.quantities items).get? r.menu_item_id).isSome = true) ↔
      (∃ r ∈ t.menu_item_ingredients, r.ingredient_id = ing ∧
        r.menu_item_id ∈ GoMap.keys (validateOrder.quantities items)) := by
    constructor
    · rintro ⟨r, hr, hi, _⟩
      rw [List.mem_filter] at hr
      exact ⟨r, hr.1, hi, of_decide_eq_true hr.2⟩
    · rintro ⟨r, hr, hi, hk⟩
      exact ⟨r, List.mem_filter.2 ⟨hr, decide_eq_true hk⟩, hi,
        (GoMap.get?_isSome_iff _ _).2 hk⟩
  by_cases hex : ∃ r ∈ t.menu_item_ingredients, r.ingredient_id = ing ∧
      r.menu_item_id ∈ GoMap.keys (validateOrder.quantities items)
  · rw [if_pos hex, if_pos (hiff.2 hex)]
    simp [GoMap.get?, GoMap.getD, accumulatedAmount]
  · rw [if_neg hex, if_neg (fun h => hex (hiff.1 h))]
    simp [GoMap.get?]

theorem requiredIngredients_congr (t t1 : Tables) (items : List OrderItemInput)
    (h : t1.menu_item_ingredients = t.menu_item_ingredients) :
    requiredIngredients t1 items = requiredIngredients t items := by
  unfold requiredIngredients
  rw [h]

/-- C27: `UpdateOrderService` debits the inventory for the full ingredient requirement of
the new line items and credits nothing back: when an order is created from the items `I`
and an update with the same items `I` then succeeds, the update lowers every stock level
once more by the requirement of `I` (an inventory row whose id has the requirement `a` ends
at stock - a - a, every other row is unchanged) and appends a second set of sale ledger
rows; the requirement of an ingredient is what `CalculateIngredientsForOrder` accumulates
(in `float64`) over the recipe rows of the ordered menu items from row quantity × ordered
quantity. -/
theorem UpdateOrderService_debits_again (w : World) (id : Int) (req req2 : CreateOrderRequest)
    (hitems : req2.Items = req.Items)
    (hc : (CreateOrderService w req).1 = none)
    (hu : (UpdateOrderService (CreateOrderService w req).2 id req2).1 = none) :
    (UpdateOrderService (CreateOrderService w req).2 id req2).2.tables.inventory =
      debitedInventory (requiredIngredients w.tables req.Items) w.now
        (CreateOrderService w req).2.tables.inventory ∧
    (UpdateOrderService (CreateOrderService w req).2 id req2).2.tables.inventory =
      w.tables.inventory.map (fun r =>
        match (requiredIngredients w.tables req.Items).get? r.id with
        | some a => { r with stock := r.stock - a - a, last_updated := w.now }
        | none => r) ∧
    (UpdateOrderService (CreateOrderService w req).2 id req2).2.tables.inventory_transactions =
      (CreateOrderService w req).2.tables.inventory_transactions ++
        saleLedgerRows (requiredIngredients w.tables req.Items) w.now ∧
    (UpdateOrderService (CreateOrderService w req).2 id req2).2.tables.inventory_transactions =
      w.tables.inventory_transactions ++
        saleLedgerRows (requiredIngredients w.tables req.Items) w.now ++
        saleLedgerRows (requiredIngredients w.tables req.Items) w.now ∧
    (∀ ing : String, (requiredIngredients w.tables req.Items).get? ing =
      if ∃ r ∈ w.tables.menu_item_ingredients, r.ingredient_id = ing ∧
          r.menu_item_id ∈ GoMap.keys (validateOrder.quantities req.Items) then
        some (accumulatedAmount w.tables.menu_item_ingredients
          (validateOrder.quantities req.Items) ing)
      else none) := by
  obtain ⟨hci, hcl, hcr⟩ := CreateOrderService_ok_tables w req hc
  have hnow := CreateOrderService_now w req hc
  obtain ⟨hui, hul, _⟩ := UpdateOrderService_ok_tables (CreateOrderService w req).2 id req2 hu
  rw [hitems, requiredIngredients_congr w.tables _ req.Items hcr, hnow] at hui hul
  refine ⟨hui, ?_, hul, ?_, requiredIngredients_get? w.tables req.Items⟩
  · rw [hui, hci, debitedInventory_twice]
  · rw [hul, hcl]

theorem UpdateOrderService_debits_again_witness :
    (CreateOrderService cafe ⟨"Ann", "card", [⟨"latte", 2⟩], none⟩).1 = none ∧
    (CreateOrderService cafe ⟨"Ann", "card", [⟨"latte", 2⟩], none⟩).2.tables.inventory =
      [⟨"milk", "Milk", 6, 2, "ml", 7⟩, ⟨"beans", "Beans", 3, 3, "g", 7⟩] ∧
    (UpdateOrderService (CreateOrderService cafe ⟨"Ann", "card", [⟨"latte", 2⟩], none⟩).2 1
        ⟨"Ann", "card", [⟨"latte", 2⟩], none⟩).2.tables.inventory =
      [⟨"milk", "Milk", 2, 2, "ml", 7⟩, ⟨"beans", "Beans", 1, 3, "g", 7⟩] ∧
    (UpdateOrderService (CreateOrderService cafe ⟨"Ann", "card", [⟨"latte", 2⟩], none⟩).2 1
        ⟨"Ann", "card", [⟨"latte", 2⟩], none⟩).2.tables.inventory_transactions =
      [⟨"milk", -4, "sale", 7⟩, ⟨"beans", -2, "sale", 7⟩,
       ⟨"milk", -4, "sale", 7⟩, ⟨"beans", -2, "sale", 7⟩] :=
  ⟨by decide!, by decide!,
   (UpdateOrderService_debits_again cafe 1 ⟨"Ann", "card", [⟨"latte", 2⟩], none⟩
      ⟨"Ann", "card", [⟨"latte", 2⟩], none⟩ rfl (by decide!) (by decide!)).2.1.trans
      (by decide!),
   (UpdateOrderService_debits_again cafe 1 ⟨"Ann", "card", [⟨"latte", 2⟩], none⟩
      ⟨"Ann", "card", [⟨"latte", 2⟩], none⟩ rfl (by decide!) (by decide!)).2.2.2.1.trans
      (by decide!)⟩

/-! ## Claim C26: stock levels and the ledger -/

theorem ledgerSum_append (ledger : List LedgerRow) (row : LedgerRow) (id : String) :
    ledgerSum (ledger ++ [row]) id =
      ledgerSum ledger id + (if row.inventory_id = id then row.change_amount else 0) := by
  unfold ledgerSum
  by_cases h : row.inventory_id = id
  · simp [List.filter_append, List.filter_cons, h]
  · simp [List.filter_append, List.filter_cons, h]

theorem ledgerSum_eq_zero (ledger : List LedgerRow) (id : String)
    (h : ∀ l ∈ ledger, l.inventory_id ≠ id) : ledgerSum ledger id = 0 := by
  unfold ledgerSum
  have : (ledger.filter fun l => decide (l.inventory_id = id)) = [] := by
    rw [List.filter_eq_nil_iff]
    intro l hl
    simpa using h l hl
  rw [this]
  rfl

theorem StockMatchesLedger_of_empty (t : Tables) (h : t.inventory = []) :
    StockMatchesLedger t := by
  intro r hr
  rw [h] at hr
  cases hr

theorem StockMatchesLedger_congr {t t1 : Tables} (h : StockMatchesLedger t)
    (hi : t1.inventory = t.inventory)
    (hl : t1.inventory_transactions = t.inventory_transactions) : StockMatchesLedger t1 := by
  unfold StockMatchesLedger
  rw [hi, hl]
  exact h

theorem StockMatchesLedger_adjust (t : Tables) (k : String) (d : ℚ)
    (f : InventoryRow → InventoryRow) (row : LedgerRow) (hid : ∀ r, (f r).id = r.id)
    (hstock : ∀ r, (f r).stock = if r.id = k then r.stock + d else r.stock)
    (hk : row.inventory_id = k) (hd : row.change_amount = d) (h : StockMatchesLedger t) :
    StockMatchesLedger { t with
      inventory := t.inventory.map f
      inventory_transactions := t.inventory_transactions ++ [row] } := by
  intro r1 hr1
  obtain ⟨r, hr, hfr⟩ := List.mem_map.1 hr1
  subst hfr
  show (f r).stock = ledgerSum (t.inventory_transactions ++ [row]) (f r).id
  rw [ledgerSum_append, hid, hstock, hk, hd, ← h r hr]
  by_cases hrk : r.id = k
  · rw [if_pos hrk, if_pos hrk.symm]
  · rw [if_neg hrk, if_neg (fun h0 => hrk h0.symm), add_zero]

theorem StockMatchesLedger_sale (t : Tables) (k : String) (a : ℚ) (now now1 : Nat)
    (h : StockMatchesLedger t) :
    StockMatchesLedger
      (insertTransactionQuery ⟨k, -a, "sale", now1⟩ (updateInventoryQuery a k now t).1).1 :=
  StockMatchesLedger_adjust t k (-a)
    (fun r => if r.id = k then { r with stock := r.stock - a, last_updated := now } else r)
    ⟨k, -a, "sale", now1⟩
    (by intro r; by_cases hr : r.id = k <;> simp [hr])
    (by intro r; by_cases hr : r.id = k <;> simp [hr, sub_eq_add_neg])
    rfl rfl h

theorem StockMatchesLedger_added (t : Tables) (id : String) (item : InventoryItem)
    (tr : InventoryTransaction) (now : Nat) (hamt : tr.ChangeAmount = item.StockLevel)
    (h : StockMatchesLedger t) :
    StockMatchesLedger (transactionQuery id tr (updateInventoryItemQuery id item now t).1).1 :=
  StockMatchesLedger_adjust t id item.StockLevel
    (fun r => if r.id = id then
        { r with name := item.Name, stock := r.stock + item.StockLevel,
                 unit_type := item.UnitType, price := item.Price, last_updated := now }
      else r)
    ⟨id, tr.ChangeAmount, tr.TransactionType, tr.ChangeAt⟩
    (by intro r; by_cases hr : r.id = id <;> simp [hr])
    (by intro r; by_cases hr : r.id = id <;> simp [hr])
    rfl hamt h

theorem StockMatchesLedger_created (t : Tables) (item : InventoryItem)
    (tr : InventoryTransaction) (hid : tr.InventoryID = item.ID)
    (hamt : tr.ChangeAmount = item.StockLevel)
    (hfresh : ∀ r ∈ t.inventory, r.id ≠ item.ID)
    (hledger : ∀ l ∈ t.inventory_transactions, l.inventory_id ≠ item.ID)
    (h : StockMatchesLedger t) :
    StockMatchesLedger (insertTransactionQuery tr (insertInventoryQuery item t).1).1 := by
  intro r hr
  simp only [insertTransactionQuery, insertInventoryQuery, List.mem_append,
    List.mem_singleton] at hr ⊢
  rw [ledgerSum_append]
  rcases hr with hr | hr
  · have hne : ¬ tr.InventoryID = r.id := by
      rw [hid]
      exact fun h0 => hfresh r hr h0.symm
    simp only [hne, if_false, add_zero]
    exact h r hr
  · subst hr
    simp only [hid, if_true]
    rw [ledgerSum_eq_zero _ _ hledger, zero_add, hamt]

theorem StockMatchesLedger_deleted (t : Tables) (id : String) (h : StockMatchesLedger t) :
    StockMatchesLedger (deleteInventoryQuery id t).1 := by
  intro r hr
  simp only [deleteInventoryQuery] at hr ⊢
  exact h r (List.mem_filter.1 hr).1

theorem UpdateInventoryForSale_loop_balanced (q : GoMap ℚ) :
    ∀ (tx tx1 : Tx) (w w1 : World), UpdateInventoryForSale.loop q tx w = (none, tx1, w1) →
      StockMatchesLedger tx.work → StockMatchesLedger tx1.work := by
  induction q with
  | nil =>
    intro tx tx1 w w1 h hb
    simp only [UpdateInventoryForSale.loop, Prod.mk.injEq, true_and] at h
    rw [← h.1]
    exact hb
  | cons e rest ih =>
    obtain ⟨k, a⟩ := e
    intro tx tx1 w w1 h hb
    unfold UpdateInventoryForSale.loop at h
    rcases he : tx.Exec w (updateInventoryQuery a k w.now) with ⟨r, tx2, w2⟩
    rw [he] at h
    cases r with
    | error err => simp at h
    | ok n =>
      simp only at h
      cases hn : NewInventoryTransaction k a "sale" w2.now with
      | error err => simp [hn] at h
      | ok tr =>
        simp only [hn] at h
        have htr := NewInventoryTransaction_sale k a w2.now tr hn
        subst htr
        rcases he2 : tx2.Exec w2
          (insertTransactionQuery ⟨k, -a, "sale", w2.now⟩) with ⟨r3, tx3, w3⟩
        rw [he2] at h
        cases r3 with
        | error err => simp at h
        | ok n3 =>
          simp only at h
          apply ih tx3 tx1 w3 w1 h
          rw [Exec_ok tx2 tx3 w2 w3 _ n3 he2, Exec_ok tx tx2 w w2 _ n he]
          exact StockMatchesLedger_sale tx.work k a w.now w2.now hb

theorem UpdateInventoryForSale_balanced (w : World) (q : GoMap ℚ)
    (h : (UpdateInventoryForSale w q).1 = none) (hb : StockMatchesLedger w.tables) :
    StockMatchesLedger (UpdateInventoryForSale w q).2.tables := by
  unfold UpdateInventoryForSale at h ⊢
  rcases hbg : Begin w with ⟨r, w1⟩
  rw [hbg] at h
  cases r with
  | error err => simp at h
  | ok tx =>
    simp only at h ⊢
    have hwork := Begin_work w w1 tx hbg
    rcases hl : UpdateInventoryForSale.loop q tx w1 with ⟨r2, tx2, w2⟩
    rw [hl] at h
    cases r2 with
    | some err => simp at h
    | none =>
      simp only at h ⊢
      rcases hc : tx2.Commit w2 with ⟨r3, w3⟩
      rw [hc] at h
      cases r3 with
      | some err => simp at h
      | none =>
        simp only
        rw [(Commit_ok tx2 w2 w3 hc).1]
        exact UpdateInventoryForSale_loop_balanced q tx tx2 w1 w2 hl (by rw [hwork]; exact hb)

theorem UpdateInventoryItemRepository_balanced (w : World) (id : String) (item : InventoryItem)
    (tr : InventoryTransaction) (hamt : tr.ChangeAmount = item.StockLevel)
    (h : (UpdateInventoryItemRepository w id item tr).1 = none)
    (hb : StockMatchesLedger w.tables) :
    StockMatchesLedger (UpdateInventoryItemRepository w id item tr).2.tables := by
  unfold UpdateInventoryItemRepository at h ⊢
  rcases hbg : Begin w with ⟨r, w1⟩
  rw [hbg] at h
  cases r with
  | error err => simp at h
  | ok tx =>
    simp only at h ⊢
    have hwork := Begin_work w w1 tx hbg
    rcases he : tx.Exec w1 (updateInventoryItemQuery id item w1.now) with ⟨r2, tx2, w2⟩
    rw [he] at h
    cases r2 with
    | error err => simp at h
    | ok result =>
      simp only at h ⊢
      cases hc : checkRowsAffected result with
      | some err => simp [hc] at h
      | none =>
        simp only [hc] at h ⊢
        rcases he2 : tx2.Exec w2 (transactionQuery id tr) with ⟨r3, tx3, w3⟩
        rw [he2] at h
        cases r3 with
        | error err => simp at h
        | ok n3 =>
          simp only at h ⊢
          rcases hcm : tx3.Commit w3 with ⟨r4, w4⟩
          rw [hcm] at h
          cases r4 with
          | some err => simp at h
          | none =>
            simp only
            rw [(Commit_ok tx3 w3 w4 hcm).1, Exec_ok tx2 tx3 w2 w3 _ n3 he2,
              Exec_ok tx tx2 w1 w2 _ result he, hwork]
            exact StockMatchesLedger_added w.tables id item tr w1.now hamt hb

theorem AddInventoryItemRepository_balanced (w : World) (item : InventoryItem)
    (tr : InventoryTransaction) (hid : tr.InventoryID = item.ID)
    (hamt : tr.ChangeAmount = item.StockLevel)
    (hfresh : ∀ r ∈ w.tables.inventory, r.id ≠ item.ID)
    (hledger : ∀ l ∈ w.tables.inventory_transactions, l.inventory_id ≠ item.ID)
    (h : (AddInventoryItemRepository w item tr).1 = none)
    (hb : StockMatchesLedger w.tables) :
    StockMatchesLedger (AddInventoryItemRepository w item tr).2.tables := by
  unfold AddInventoryItemRepository at h ⊢
  rcases hbg : Begin w with ⟨r, w1⟩
  rw [hbg] at h
  cases r with
  | error err => simp at h
  | ok tx =>
    simp only at h ⊢
    have hwork := Begin_work w w1 tx hbg
    rcases he : tx.Exec w1 (insertInventoryQuery item) with ⟨r2, tx2, w2⟩
    rw [he] at h
    cases r2 with
    | error err => simp at h
    | ok result =>
      simp only at h ⊢
      rcases he2 : tx2.Exec w2 (insertTransactionQuery tr) with ⟨r3, tx3, w3⟩
      rw [he2] at h
      cases r3 with
      | error err => simp at h
      | ok n3 =>
        simp only at h ⊢
        rcases hcm : tx3.Commit w3 with ⟨r4, w4⟩
        rw [hcm] at h
        cases r4 with
        | some err => simp at h
        | none =>
          simp only
          rw [(Commit_ok tx3 w3 w4 hcm).1, Exec_ok tx2 tx3 w2 w3 _ n3 he2,
            Exec_ok tx tx2 w1 w2 _ result he, hwork]
          exact StockMatchesLedger_created w.tables item tr hid hamt hfresh hledger hb

theorem createInventoryObjects_amount (req : CreateInventoryRequest) (kind : String)
    (now : Nat) (item : InventoryItem) (tr : InventoryTransaction) (hk : kind ≠ "sale")
    (h : createInventoryObjects req kind now = .ok (item, tr)) :
    tr.ChangeAmount = item.StockLevel ∧ tr.InventoryID = item.ID ∧ item.ID = req.ID := by
  unfold createInventoryObjects at h
  split at h
  · cases h
  · rename_i item1 hi
    split at h
    · cases h
    · rename_i tr1 ht
      injection h with h
      injection h with h1 h2
      subst h1 h2
      obtain ⟨_, _, hid⟩ := NewInventoryItem_ok req now item1 hi
      obtain ⟨hne, _, htid, hamt, _⟩ := NewInventoryTransaction_ok _ _ _ _ tr1 ht
      have hidq : item1.ID = req.ID := by rw [hid, if_neg hne]
      exact ⟨by rw [hamt, if_neg hk], by rw [htid, hidq], hidq⟩

theorem InventoryOp_run_balanced (w : World) (op : InventoryOp)
    (hfresh : op.freshId w.tables = true) (h : (op.run w).1 = none)
    (hb : StockMatchesLedger w.tables) : StockMatchesLedger (op.run w).2.tables := by
  cases op with
  | create req =>
    simp only [InventoryOp.freshId, Bool.and_eq_true, Bool.not_eq_true', List.any_eq_false,
      decide_eq_true_eq] at hfresh
    simp only [InventoryOp.run] at h ⊢
    unfold CreateInventoryItemService at h ⊢
    cases hc : createInventoryObjects req "created" w.now with
    | error err => simp [hc] at h
    | ok p =>
      obtain ⟨item, tr⟩ := p
      simp only [hc] at h ⊢
      obtain ⟨hamt, hid, hidq⟩ :=
        createInventoryObjects_amount req "created" w.now item tr (by decide) hc
      have hA := AddInventoryItemRepository_balanced w item tr hid hamt
        (by rw [hidq]; exact hfresh.1) (by rw [hidq]; exact hfresh.2)
      rcases ha : AddInventoryItemRepository w item tr with ⟨r2, w2⟩
      rw [ha] at hA h
      cases r2 with
      | some err => simp at h
      | none => exact hA rfl hb
  | update id req =>
    simp only [InventoryOp.run] at h ⊢
    unfold UpdateInventoryItemService at h ⊢
    simp only at h ⊢
    cases hc : createInventoryObjects { req with ID := id } "added" w.now with
    | error err => simp [hc] at h
    | ok p =>
      obtain ⟨item, tr⟩ := p
      simp only [hc] at h ⊢
      obtain ⟨hamt, _, _⟩ :=
        createInventoryObjects_amount { req with ID := id } "added" w.now item tr (by decide) hc
      have hA := UpdateInventoryItemRepository_balanced w id item tr hamt
      rcases ha : UpdateInventoryItemRepository w id item tr with ⟨r2, w2⟩
      rw [ha] at hA h
      cases r2 with
      | some err => simp at h
      | none => exact hA rfl hb
  | delete id =>
    simp only [InventoryOp.run] at h ⊢
    unfold DeleteInventoryItemService DeleteInventoryItemRepository dbExec at h ⊢
    cases hf : w.fails with
    | true => simp [hf] at h
    | false =>
      simp only [hf, Bool.false_eq_true, if_false] at h ⊢
      cases hc : checkRowsAffected (deleteInventoryQuery id w.tables).2 with
      | some err => simp [hc] at h
      | none =>
        simp only [hc]
        exact StockMatchesLedger_deleted w.tables id hb
  | sale q =>
    simp only [InventoryOp.run] at h ⊢
    exact UpdateInventoryForSale_balanced w q h hb

/-- C26, as the code has it: from the store without inventory, creating "milk" with stock
10, deleting it and creating "milk" again with stock 5 all succeed; the ledger is
append-only, so the two "created" rows of 10 and 5 remain, and the stored item has stock
level 5 against a ledger sum of 15. A sale debit recorded for an id before the item is
created leaves the same gap (stock 10 against a ledger sum of 6). -/
theorem StockMatchesLedger_fails_after_recreate :
    (runInventoryOps cafeUnstocked
      [.create ⟨"milk", "Milk", 10, 2, "ml"⟩, .delete "milk",
       .create ⟨"milk", "Milk", 5, 2, "ml"⟩]).map
        (fun w => (w.tables.inventory, w.tables.inventory_transactions)) =
      some ([⟨"milk", "Milk", 5, 2, "ml", 7⟩],
            [⟨"milk", 10, "created", 7⟩, ⟨"milk", 5, "created", 7⟩]) ∧
    ledgerSum [⟨"milk", 10, "created", 7⟩, ⟨"milk", 5, "created", 7⟩] "milk" = 15 ∧
    (runInventoryOps cafeUnstocked
      [.create ⟨"milk", "Milk", 10, 2, "ml"⟩, .delete "milk",
       .create ⟨"milk", "Milk", 5, 2, "ml"⟩]).all
        (fun w => decide (¬ StockMatchesLedger w.tables)) = true ∧
    (runInventoryOps cafeUnstocked
      [.sale [("milk", 4)], .create ⟨"milk", "Milk", 10, 2, "ml"⟩]).map
        (fun w => (w.tables.inventory, w.tables.inventory_transactions)) =
      some ([⟨"milk", "Milk", 10, 2, "ml", 7⟩],
            [⟨"milk", -4, "sale", 7⟩, ⟨"milk", 10, "created", 7⟩]) := by
  decide!

/-- C26, amended: when every inventory create of a run uses an id that no inventory row and
no ledger row of the store carries at that point, every store reached by successful
inventory creates, inventory updates, inventory deletes and sale debits from a store in
which stock and ledger agree (the store without inventory is one) has them agree again: the
stock level of every stored inventory item is the sum of `change_amount` over the ledger
rows that carry its id. -/
theorem runInventoryOps_stock_matches_ledger (ops : List InventoryOp) :
    ∀ (w w1 : World), StockMatchesLedger w.tables → freshIds w ops = true →
      runInventoryOps w ops = some w1 → StockMatchesLedger w1.tables := by
  induction ops with
  | nil =>
    intro w w1 hb _ h
    simp only [runInventoryOps, Option.some.injEq] at h
    rw [← h]
    exact hb
  | cons op rest ih =>
    intro w w1 hb hfresh h
    simp only [freshIds, Bool.and_eq_true] at hfresh
    have hstep := InventoryOp_run_balanced w op hfresh.1
    unfold runInventoryOps at h
    rcases hr : op.run w with ⟨r, w2⟩
    rw [hr] at hstep h hfresh
    cases r with
    | some err => simp at h
    | none =>
      simp only at h hfresh
      exact ih w2 w1 (hstep rfl hb) hfresh.2 h

theorem runInventoryOps_stock_matches_ledger_witness :
    (runInventoryOps cafeUnstocked
      [.create ⟨"milk", "Milk", 10, 2, "ml"⟩, .create ⟨"beans", "Beans", 5, 3, "g"⟩,
       .update "milk" ⟨"", "Milk", 3, 2, "ml"⟩, .sale [("milk", 4), ("beans", 2)],
       .delete "beans", .create ⟨"sugar", "Sugar", 1, 1, "g"⟩]).map
        (fun w => w.tables.inventory) =
      some [⟨"milk", "Milk", 9, 2, "ml", 7⟩, ⟨"sugar", "Sugar", 1, 1, "g", 7⟩] ∧
    StockMatchesLedger
      { cafeTables with
        inventory := [⟨"milk", "Milk", 9, 2, "ml", 7⟩, ⟨"sugar", "Sugar", 1, 1, "g", 7⟩]
        inventory_transactions :=
          [⟨"milk", 10, "created", 7⟩, ⟨"beans", 5, "created", 7⟩, ⟨"milk", 3, "added", 7⟩,
           ⟨"milk", -4, "sale", 7⟩, ⟨"beans", -2, "sale", 7⟩, ⟨"sugar", 1, "created", 7⟩] } :=
  ⟨by decide!,
   runInventoryOps_stock_matches_ledger
     [.create ⟨"milk", "Milk", 10, 2, "ml"⟩, .create ⟨"beans", "Beans", 5, 3, "g"⟩,
      .update "milk" ⟨"", "Milk", 3, 2, "ml"⟩, .sale [("milk", 4), ("beans", 2)],
      .delete "beans", .create ⟨"sugar", "Sugar", 1, 1, "g"⟩]
     cafeUnstocked
     { cafe with
       faults := []
       tables := { cafeTables with
         inventory := [⟨"milk", "Milk", 9, 2, "ml", 7⟩, ⟨"sugar", "Sugar", 1, 1, "g", 7⟩]
         inventory_transactions :=
           [⟨"milk", 10, "created", 7⟩, ⟨"beans", 5, "created", 7⟩, ⟨"milk", 3, "added", 7⟩,
            ⟨"milk", -4, "sale", 7⟩, ⟨"beans", -2, "sale", 7⟩, ⟨"sugar", 1, "created", 7⟩] } }
     (StockMatchesLedger_of_empty _ rfl) (by decide!) (by decide!)⟩

end Frappuccino
